import Mathlib

/-!
# gophermart-loyalty: order admission, Luhn validation and withdrawals

A shallow embedding of

* `internal/util/luna/luna.go` (`Validate`),
* `internal/order/service.go` (`Service.SubmitOrder`, `Service.UpdateFromAccrual`),
* `internal/order/worker.go` (`HTTPAccrualClient.GetOrder`, `workerLoop`,
  `DispatcherLoop`),
* `cmd/gophermart/server.go` (the context `run` hands to `DispatcherLoop`),
* `internal/balance/service.go` and `internal/balance/handlers.go`
  (`Service.WithdrawBalance`, `Handler.WithdrawBalance`),
* the parts of `internal/storage/postgres/postgres.go` those call.

Conventions of the embedding.

* A Go `string` is its sequence of bytes, `GoString = List Nat`; `number[i]` is
  `number.getD i 0` (the loop of `Validate` only indexes inside the string).
* Go `int`/`int64` values are `Int`.  The only arithmetic on them is the digit
  sum of `Validate`, bounded by `9 * len(number)`, which cannot reach `2^63`
  for a string that fits in memory, so no wrap-around is modelled.
* A Go `error` is `Option GoError` (`none` is `nil`); sentinel errors are
  constructors, so comparing them with `==` is comparing constructors.
* `float64` amounts are rationals and comparisons are those of the code.
  `PostgresStorage.GetBalance` takes the sums and the difference exactly;
  `PostgresStorage.GetBalanceWith` takes the float8 addition and the float64
  subtraction as parameters, and `float64.representable` says which rationals
  are values of `float64`.
* The channel `jobs` is its buffer (`Jobs`) while no worker waits in a receive,
  and the buffer together with the waiting workers (`Channel`) otherwise.
* `time.Now().UTC()` is a parameter `now` of the function that reads the clock.
* A repository interface is a record of state-passing functions over an
  abstract state; `spy` wraps one so that every call is appended to a log.
-/

/-- A Go string: its bytes. -/
abbrev GoString := List Nat

/-- The bytes of an ASCII literal. -/
def ascii (s : String) : GoString := s.toList.map Char.toNat

namespace luna

/-- The loop of `Validate`: `n` is `i + 1`, the number of bytes still to scan, so
the byte read in one round is `number[n - 1]`; `sum` and `alternate` are the two
loop variables.  Leaving the loop returns `sum % 10 == 0`. -/
def validateLoop (number : GoString) : Nat → Int → Bool → Bool
  | 0, sum, _ => sum % 10 == 0
  | i + 1, sum, alternate =>
    let ch := number.getD i 0
    if ch < 48 || ch > 57 then false
    else
      let d : Int := ((ch - 48 : Nat) : Int)
      let d := if alternate then (let d2 := d * 2; if d2 > 9 then d2 - 9 else d2) else d
      validateLoop number i (sum + d) (!alternate)

/-- The function `luna.Validate`. -/
def Validate (number : GoString) : Bool :=
  validateLoop number number.length 0 false

/-- The value of a digit byte. -/
def digitValue (ch : Nat) : Nat := ch - 48

/-- A byte that is an ASCII decimal digit. -/
def isDigit (ch : Nat) : Bool := decide (48 ≤ ch) && decide (ch ≤ 57)

/-- Doubling a digit, with 9 subtracted when the doubled value exceeds 9. -/
def doubled (d : Nat) : Nat := if 2 * d > 9 then 2 * d - 9 else 2 * d

/-- The checksum as the specification words it: the digits are taken in scanning
order (rightmost first); `k` counts the digits scanned before the head of the
list, and the digit at count `k` is doubled when `pick k` holds. -/
def scanSum (pick : Nat → Bool) : Nat → List Nat → Nat
  | _, [] => 0
  | k, ch :: rest =>
    (if pick k then doubled (digitValue ch) else digitValue ch) + scanSum pick (k + 1) rest

/-- Every second digit starting with the first one scanned: counts 0, 2, 4, ... -/
def fromFirst (k : Nat) : Bool := k % 2 == 0

/-- Every second digit starting with the second one scanned: counts 1, 3, 5, ... -/
def fromSecond (k : Nat) : Bool := k % 2 == 1

/-- What the digit `d` at 0-based offset `i` from the right end adds to the
standard Luhn sum: its own value at even offsets, and at odd offsets twice its
value, minus 9 when that exceeds 9. -/
def luhnTerm (i d : Nat) : Nat :=
  if i % 2 = 0 then d else if 2 * d > 9 then 2 * d - 9 else 2 * d

/-- The standard Luhn sum of a string of digits, by offsets from the right end. -/
def luhnSum (number : GoString) : Nat :=
  ((List.range number.length).map
    (fun i => luhnTerm i (number.getD (number.length - 1 - i) 48 - 48))).sum

end luna

/-- Go error values.  The first four are the sentinels of package `order`,
`ErrNoRows` is `sql.ErrNoRows`, and `other msg` is any other error, carrying the
text its `Error()` method returns. -/
inductive GoError where
  | ErrInvalidNumber
  | ErrOrderAlreadyExists
  | ErrOrderConflict
  | ErrOrderAccepted
  | ErrNoRows
  | other (msg : String)
  deriving DecidableEq, Repr

/-- The Go type `error`: `none` is `nil`. -/
abbrev error := Option GoError

/-- The method `Error()`. -/
def GoError.Error : GoError → String
  | .ErrInvalidNumber => "invalid order number"
  | .ErrOrderAlreadyExists => "order already uploaded by this user"
  | .ErrOrderConflict => "order already uploaded by another user"
  | .ErrOrderAccepted => "order accepted"
  | .ErrNoRows => "sql: no rows in result set"
  | .other msg => msg

namespace order

/-- The constant `order.StatusNew`. -/
def StatusNew : String := "NEW"

/-- The constant `order.StatusProcessing`. -/
def StatusProcessing : String := "PROCESSING"

/-- The constant `order.StatusProcessed`. -/
def StatusProcessed : String := "PROCESSED"

/-- The constant `order.StatusInvalid`. -/
def StatusInvalid : String := "INVALID"

/-- The struct `order.Order`; a nil pointer field is `none`. -/
structure Order where
  ID : Int
  UserID : Int
  Number : GoString
  Status : String
  AccrualAmount : Option ℚ
  UploadedAt : Nat
  ProcessedAt : Option Nat
  deriving DecidableEq

/-- The interface `OrderRepository` of `internal/order/repo.go`, over a state `σ`.
`FindOrderByNumber` returns a pointer and an error; the pointer is read only
when the error is nil, so the pair is an `Except`. -/
structure OrderRepository (σ : Type) where
  CreateOrder : Order → σ → error × σ
  ListOrdersByUser : Int → σ → (List Order × error) × σ
  UpdateOrder : Order → σ → error × σ
  FindOrderByNumber : GoString → σ → Except GoError Order × σ
  ListOrdersForPolling : σ → (List Order × error) × σ
  UpdateOrderUpdate : GoString → String → Option ℚ → Option Nat → σ → error × σ

/-- One call of a repository method, with its arguments. -/
inductive Call where
  | CreateOrder (o : Order)
  | ListOrdersByUser (userID : Int)
  | UpdateOrder (o : Order)
  | FindOrderByNumber (number : GoString)
  | ListOrdersForPolling
  | UpdateOrderUpdate (number : GoString) (status : String) (accrualAmount : Option ℚ)
      (processedAt : Option Nat)
  deriving DecidableEq

/-- A repository that behaves as `r` and appends every call it receives to a log. -/
def spy {σ : Type} (r : OrderRepository σ) : OrderRepository (σ × List Call) where
  CreateOrder o s := ((r.CreateOrder o s.1).1, (r.CreateOrder o s.1).2, s.2 ++ [.CreateOrder o])
  ListOrdersByUser u s :=
    ((r.ListOrdersByUser u s.1).1, (r.ListOrdersByUser u s.1).2, s.2 ++ [.ListOrdersByUser u])
  UpdateOrder o s := ((r.UpdateOrder o s.1).1, (r.UpdateOrder o s.1).2, s.2 ++ [.UpdateOrder o])
  FindOrderByNumber n s :=
    ((r.FindOrderByNumber n s.1).1, (r.FindOrderByNumber n s.1).2, s.2 ++ [.FindOrderByNumber n])
  ListOrdersForPolling s :=
    ((r.ListOrdersForPolling s.1).1, (r.ListOrdersForPolling s.1).2, s.2 ++ [.ListOrdersForPolling])
  UpdateOrderUpdate n st a p s :=
    ((r.UpdateOrderUpdate n st a p s.1).1, (r.UpdateOrderUpdate n st a p s.1).2,
      s.2 ++ [.UpdateOrderUpdate n st a p])

/-- The struct `order.Service`. -/
structure Service (σ : Type) where
  repo : OrderRepository σ

/-- The constructor `order.NewService`. -/
def NewService {σ : Type} (r : OrderRepository σ) : Service σ := { repo := r }

/-- The method `Service.SubmitOrder`; `now` is the value of `time.Now().UTC()`. -/
def Service.SubmitOrder {σ : Type} (s : Service σ) (now : Nat) (userID : Int)
    (number : GoString) (st : σ) : error × σ :=
  if !luna.Validate number then (some .ErrInvalidNumber, st)
  else
    match s.repo.FindOrderByNumber number st with
    | (.ok existing, st1) =>
      if existing.UserID = userID then (some .ErrOrderAlreadyExists, st1)
      else (some .ErrOrderConflict, st1)
    | (.error err, st1) =>
      if err ≠ .ErrNoRows then (some err, st1)
      else
        let o : Order :=
          { ID := 0, UserID := userID, Number := number, Status := StatusNew,
            AccrualAmount := none, UploadedAt := now, ProcessedAt := none }
        match s.repo.CreateOrder o st1 with
        | (some err, st2) => (some err, st2)
        | (none, st2) => (some .ErrOrderAccepted, st2)

/-- The method `Service.ListOrders`. -/
def Service.ListOrders {σ : Type} (s : Service σ) (userID : Int) (st : σ) :
    (List Order × error) × σ :=
  s.repo.ListOrdersByUser userID st

/-- The method `Service.ListForPolling`. -/
def Service.ListForPolling {σ : Type} (s : Service σ) (st : σ) : (List Order × error) × σ :=
  s.repo.ListOrdersForPolling st

/-- The method `Service.UpdateFromAccrual`; `now` is the value of
`time.Now().UTC()`, which is read only for the two terminal statuses. -/
def Service.UpdateFromAccrual {σ : Type} (s : Service σ) (now : Nat) (number : GoString)
    (status : String) (accrual : Option ℚ) (st : σ) : error × σ :=
  let processedAt : Option Nat :=
    if status = "PROCESSED" ∨ status = "INVALID" then some now else none
  s.repo.UpdateOrderUpdate number status accrual processedAt st

/-- The struct `AccrualResponse`. -/
structure AccrualResponse where
  Order : GoString
  Status : String
  Accrual : Option ℚ
  deriving DecidableEq

/-- The interface `AccrualClient`. -/
structure AccrualClient (σ : Type) where
  GetOrder : GoString → σ → (Option AccrualResponse × error) × σ

/-- The interface `Updater`. -/
structure Updater (σ : Type) where
  UpdateFromAccrual : GoString → String → Option ℚ → σ → error × σ

/-- The service seen through the interface `Updater`, as `DispatcherLoop` hands
it to the workers; `now` is the clock value its calls read. -/
def Service.updater {σ : Type} (s : Service σ) (now : Nat) : Updater σ where
  UpdateFromAccrual number status accrual st := s.UpdateFromAccrual now number status accrual st

/-- What one HTTP exchange of `GetOrder` comes to: building the request fails,
sending it fails, or a response arrives with a status code and a body, given
here as the outcome of decoding it as JSON into an `AccrualResponse`. -/
inductive Exchange where
  | requestFailed (err : GoError)
  | doFailed (err : GoError)
  | response (StatusCode : Int) (decoded : Except GoError AccrualResponse)

/-- The struct `HTTPAccrualClient`; `Client` answers a GET of a URL. -/
structure HTTPAccrualClient (σ : Type) where
  Client : GoString → σ → Exchange × σ
  AccrualAddress : GoString

/-- The text of an ASCII string, for error messages. -/
def text (s : GoString) : String := String.mk (s.map Char.ofNat)

/-- The method `HTTPAccrualClient.GetOrder`. -/
def HTTPAccrualClient.GetOrder {σ : Type} (c : HTTPAccrualClient σ) (number : GoString)
    (st : σ) : (Option AccrualResponse × error) × σ :=
  let url := c.AccrualAddress ++ ascii "/api/orders/" ++ number
  match c.Client url st with
  | (.requestFailed err, st1) => ((none, some (.other ("create request: " ++ err.Error))), st1)
  | (.doFailed err, st1) => ((none, some (.other ("do request: " ++ err.Error))), st1)
  | (.response code decoded, st1) =>
    if code = 200 then
      match decoded with
      | .error err => ((none, some (.other ("decode body: " ++ err.Error))), st1)
      | .ok ar => ((some ar, none), st1)
    else if code = 429 then
      ((none, some (.other ("too many requests (429) for order " ++ text number))), st1)
    else if code = 404 then ((none, none), st1)
    else ((none, some (.other ("unexpected status: " ++ toString code))), st1)

/-- The HTTP client seen through the interface `AccrualClient`. -/
def HTTPAccrualClient.client {σ : Type} (c : HTTPAccrualClient σ) : AccrualClient σ where
  GetOrder := c.GetOrder

/-- An HTTP client whose every exchange comes to `x` and leaves the state alone. -/
def answering {σ : Type} (x : Exchange) : HTTPAccrualClient σ where
  Client _ st := (x, st)
  AccrualAddress := ascii "http://accrual"

/-- The function `workerLoop`, run on a closed channel that holds `jobs`, with a
context that is never cancelled: every round of the `select` receives the head
of the queue, and the receive on the closed and drained channel ends the loop.
The worker id, used for logging only, is left out. -/
def workerLoop {σ : Type} (accrualClient : AccrualClient σ) (svc : Updater σ) :
    List GoString → σ → σ
  | [], st => st
  | number :: jobs, st =>
    match accrualClient.GetOrder number st with
    | ((_, some _), st1) => workerLoop accrualClient svc jobs st1
    | ((none, none), st1) => workerLoop accrualClient svc jobs st1
    | ((some ar, none), st1) =>
      if ar.Order = [] then workerLoop accrualClient svc jobs st1
      else
        workerLoop accrualClient svc jobs
          (svc.UpdateFromAccrual ar.Order ar.Status ar.Accrual st1).2

/-- One call a worker makes, with its arguments. -/
inductive WorkerCall where
  | GetOrder (number : GoString)
  | UpdateFromAccrual (number : GoString) (status : String) (accrual : Option ℚ)
  deriving DecidableEq

/-- An accrual client that behaves as `c` and logs every call. -/
def spyClient {σ : Type} (c : AccrualClient σ) : AccrualClient (σ × List WorkerCall) where
  GetOrder n s := ((c.GetOrder n s.1).1, (c.GetOrder n s.1).2, s.2 ++ [.GetOrder n])

/-- An updater that behaves as `u` and logs every call. -/
def spyUpdater {σ : Type} (u : Updater σ) : Updater (σ × List WorkerCall) where
  UpdateFromAccrual n status a s :=
    ((u.UpdateFromAccrual n status a s.1).1, (u.UpdateFromAccrual n status a s.1).2,
      s.2 ++ [.UpdateFromAccrual n status a])

/-- The test double `mockAccrualClient` of `worker_test.go`; the two maps are
association lists, and a response stored as a nil pointer is `none`. -/
structure mockAccrualClient where
  requests : List GoString
  respMap : List (GoString × Option AccrualResponse)
  errMap : List (GoString × GoError)
  deriving DecidableEq

/-- The test double `mockService` of `worker_test.go`. -/
structure mockService where
  updatedOrders : List GoString
  updateErr : error
  lastStatus : String
  lastAccrual : Option ℚ
  deriving DecidableEq

/-- The method `mockAccrualClient.GetOrder`. -/
def mockAccrualClient.GetOrder (number : GoString) (st : mockAccrualClient × mockService) :
    (Option AccrualResponse × error) × (mockAccrualClient × mockService) :=
  let st1 : mockAccrualClient × mockService :=
    ({ st.1 with requests := st.1.requests ++ [number] }, st.2)
  match st.1.errMap.lookup number with
  | some err => ((none, some err), st1)
  | none =>
    match st.1.respMap.lookup number with
    | some resp => ((resp, none), st1)
    | none => ((none, none), st1)

/-- The method `mockService.UpdateFromAccrual`. -/
def mockService.UpdateFromAccrual (number : GoString) (status : String) (accrual : Option ℚ)
    (st : mockAccrualClient × mockService) : error × (mockAccrualClient × mockService) :=
  (st.2.updateErr,
    (st.1, { st.2 with updatedOrders := st.2.updatedOrders ++ [number], lastStatus := status,
                       lastAccrual := accrual }))

/-- The mock client seen through the interface `AccrualClient`. -/
def mockClient : AccrualClient (mockAccrualClient × mockService) where
  GetOrder := mockAccrualClient.GetOrder

/-- The mock service seen through the interface `Updater`. -/
def mockUpdater : Updater (mockAccrualClient × mockService) where
  UpdateFromAccrual := mockService.UpdateFromAccrual

/-- The channel `jobs` as `DispatcherLoop` sees it: the numbers buffered, oldest
first, the capacity `workerCount*3` it was made with, and whether it is closed. -/
structure Jobs where
  buf : List GoString
  cap : Nat
  closed : Bool
  deriving DecidableEq

/-- The statement `select { case jobs <- number: default: }` while no worker is
waiting to receive: the number is buffered when there is room and dropped when
the buffer is full. -/
def Jobs.trySend (j : Jobs) (number : GoString) : Jobs :=
  if j.buf.length < j.cap then { j with buf := j.buf ++ [number] } else j

/-- The loop `for _, o := range orders` of a tick. -/
def enqueue : List Order → Jobs → Jobs
  | [], j => j
  | o :: orders, j => enqueue orders (j.trySend o.Number)

/-- The ticker branch of the `select` of `DispatcherLoop`, with no worker
receiving while it runs. -/
def tick {σ : Type} (svc : Service σ) (j : Jobs) (st : σ) : Jobs × σ :=
  match svc.ListForPolling st with
  | ((_, some _), st1) => (j, st1)
  | ((orders, none), st1) => if orders.length = 0 then (j, st1) else (enqueue orders j, st1)

/-- The branch that one round of the `select` of `DispatcherLoop` takes. -/
inductive Select where
  | done
  | tick
  deriving DecidableEq

/-- The loop of `DispatcherLoop` over the branches its rounds take.  The result
is the channel, the state and whether the function has returned: the branch
`ctx.Done()` closes the channel and returns, a tick goes on to the next round. -/
def DispatcherLoop {σ : Type} (svc : Service σ) : List Select → Jobs × σ → (Jobs × σ) × Bool
  | [], x => (x, false)
  | .done :: _, (j, st) => (({ j with closed := true }, st), true)
  | .tick :: rounds, (j, st) => DispatcherLoop svc rounds (tick svc j st)

/-- The channel `jobs` together with the workers blocked in a receive on it:
`parked` counts those workers (a worker blocks only on an empty buffer), and
`handed` lists the numbers that sends passed directly to workers that were
blocked, in the order of the sends. -/
structure Channel where
  jobs : Jobs
  parked : Nat
  handed : List GoString
  deriving DecidableEq

/-- The statement `select { case jobs <- number: default: }` on a channel that
may have workers blocked in a receive: a blocked worker takes the number
directly, without the buffer; with no worker blocked the number is buffered
when there is room and dropped when the buffer is full. -/
def Channel.trySend (c : Channel) (number : GoString) : Channel :=
  if c.parked > 0 then { c with parked := c.parked - 1, handed := c.handed ++ [number] }
  else { c with jobs := c.jobs.trySend number }

/-- The loop `for _, o := range orders` of a tick on such a channel. -/
def offer : List Order → Channel → Channel
  | [], c => c
  | o :: orders, c => offer orders (c.trySend o.Number)

/-- The ticker branch of the `select` of `DispatcherLoop` on a channel that may
have workers blocked in a receive.  While the branch runs no worker comes back
for another receive: the workers that were handed a number are busy with it. -/
def tickParked {σ : Type} (svc : Service σ) (c : Channel) (st : σ) : Channel × σ :=
  match svc.ListForPolling st with
  | ((_, some _), st1) => (c, st1)
  | ((orders, none), st1) => if orders.length = 0 then (c, st1) else (offer orders c, st1)

/-- The function `workerLoop` round by round, with a context that is never
cancelled: `rounds` bounds the number of rounds of the `for`, `jobs` is what
the channel holds and `closed` whether it is closed.  The result is the final
state when the function returns within the bound; a receive on an empty channel
that is still open blocks, and the function does not return. -/
def workerRounds {σ : Type} (accrualClient : AccrualClient σ) (svc : Updater σ) :
    Nat → List GoString → Bool → σ → Option σ
  | 0, _, _, _ => none
  | _ + 1, [], true, st => some st
  | _ + 1, [], false, _ => none
  | rounds + 1, number :: jobs, closed, st =>
    match accrualClient.GetOrder number st with
    | ((_, some _), st1) => workerRounds accrualClient svc rounds jobs closed st1
    | ((none, none), st1) => workerRounds accrualClient svc rounds jobs closed st1
    | ((some ar, none), st1) =>
      if ar.Order = [] then workerRounds accrualClient svc rounds jobs closed st1
      else
        workerRounds accrualClient svc rounds jobs closed
          (svc.UpdateFromAccrual ar.Order ar.Status ar.Accrual st1).2

/-- A client that answers by a fixed function of the number and leaves the
state alone. -/
def fixedClient {σ : Type} (answer : GoString → Option AccrualResponse × error) :
    AccrualClient σ where
  GetOrder number st := (answer number, st)

/-- The numbers a log records as passed to `GetOrder`, in call order. -/
def queried : List WorkerCall → List GoString
  | [] => []
  | .GetOrder number :: rest => number :: queried rest
  | _ :: rest => queried rest

/-- The arguments a log records as passed to `UpdateFromAccrual`, in call order. -/
def updated : List WorkerCall → List (GoString × String × Option ℚ)
  | [] => []
  | .UpdateFromAccrual number status accrual :: rest => (number, status, accrual) :: updated rest
  | _ :: rest => updated rest

/-- The update a response leads to: none when there is an error, no response or
an empty order field, and otherwise the fields of the response. -/
def updateOf : Option AccrualResponse × error → Option (GoString × String × Option ℚ)
  | (_, some _) => none
  | (none, none) => none
  | (some ar, none) => if ar.Order = [] then none else some (ar.Order, ar.Status, ar.Accrual)

/-- A repository that is down: every method fails with `err` and changes nothing. -/
def downRepo {σ : Type} (err : GoError) : OrderRepository σ where
  CreateOrder _ st := (some err, st)
  ListOrdersByUser _ st := (([], some err), st)
  UpdateOrder _ st := (some err, st)
  FindOrderByNumber _ st := (.error err, st)
  ListOrdersForPolling st := (([], some err), st)
  UpdateOrderUpdate _ _ _ _ st := (some err, st)

/-- The four outcome sentinels of `SubmitOrder`. -/
def outcomes : List GoError :=
  [.ErrInvalidNumber, .ErrOrderAlreadyExists, .ErrOrderConflict, .ErrOrderAccepted]

/-- A repository without rows and without state: every lookup fails with
`findErr`, every write answers `writeErr`, every listing is empty. -/
def brokenRepo (findErr : GoError) (writeErr : error) : OrderRepository Unit where
  CreateOrder _ st := (writeErr, st)
  ListOrdersByUser _ st := (([], none), st)
  UpdateOrder _ st := (writeErr, st)
  FindOrderByNumber _ st := (.error findErr, st)
  ListOrdersForPolling st := (([], none), st)
  UpdateOrderUpdate _ _ _ _ st := (writeErr, st)

/-- One call of `SubmitOrder`: its arguments and the clock value it reads. -/
structure Submission where
  userID : Int
  number : GoString
  now : Nat
  deriving DecidableEq

/-- A finite sequence of `SubmitOrder` calls, one after the other: the results
in call order and the final state. -/
def submitAll {σ : Type} (s : Service σ) : List Submission → σ → List error × σ
  | [], st => ([], st)
  | c :: cs, st =>
    ((s.SubmitOrder c.now c.userID c.number st).1 ::
        (submitAll s cs (s.SubmitOrder c.now c.userID c.number st).2).1,
      (submitAll s cs (s.SubmitOrder c.now c.userID c.number st).2).2)

/-- The user of the first call in `log` that submitted `number` and was accepted. -/
def firstAccepted (number : GoString) : List (Submission × error) → Option Int
  | [] => none
  | (c, r) :: rest =>
    if c.number = number ∧ r = some GoError.ErrOrderAccepted then some c.userID
    else firstAccepted number rest

end order

namespace balance

/-- The struct `balance.Withdrawal`. -/
structure Withdrawal where
  ID : Int
  UserID : Int
  OrderNumber : GoString
  Amount : ℚ
  CreatedAt : Nat
  deriving DecidableEq

/-- The struct `balance.WithdrawRequest`. -/
structure WithdrawRequest where
  Order : GoString
  Sum : ℚ
  deriving DecidableEq

/-- The struct `balance.BalanceDTO`. -/
structure BalanceDTO where
  Current : ℚ
  Withdrawn : ℚ
  deriving DecidableEq

/-- The interface `BalanceRepository` of `internal/balance/repo.go`. -/
structure BalanceRepository (σ : Type) where
  GetBalance : Int → σ → (ℚ × ℚ × error) × σ

/-- The interface `WithdrawalRepository` of `internal/balance/repo.go`. -/
structure WithdrawalRepository (σ : Type) where
  CreateWithdrawal : Withdrawal → σ → error × σ
  ListWithdrawalsByUser : Int → σ → (List Withdrawal × error) × σ

/-- One call of a repository method, with its arguments. -/
inductive Call where
  | GetBalance (userID : Int)
  | CreateWithdrawal (w : Withdrawal)
  | ListWithdrawalsByUser (userID : Int)
  deriving DecidableEq

/-- A balance repository that behaves as `r` and logs every call. -/
def spyBalance {σ : Type} (r : BalanceRepository σ) : BalanceRepository (σ × List Call) where
  GetBalance u s := ((r.GetBalance u s.1).1, (r.GetBalance u s.1).2, s.2 ++ [.GetBalance u])

/-- A withdrawal repository that behaves as `r` and logs every call. -/
def spyWithdrawal {σ : Type} (r : WithdrawalRepository σ) :
    WithdrawalRepository (σ × List Call) where
  CreateWithdrawal w s :=
    ((r.CreateWithdrawal w s.1).1, (r.CreateWithdrawal w s.1).2, s.2 ++ [.CreateWithdrawal w])
  ListWithdrawalsByUser u s :=
    ((r.ListWithdrawalsByUser u s.1).1, (r.ListWithdrawalsByUser u s.1).2,
      s.2 ++ [.ListWithdrawalsByUser u])

/-- The struct `balance.Service`. -/
structure Service (σ : Type) where
  b : BalanceRepository σ
  w : WithdrawalRepository σ

/-- The constructor `balance.NewService`. -/
def NewService {σ : Type} (b : BalanceRepository σ) (w : WithdrawalRepository σ) : Service σ :=
  { b := b, w := w }

/-- The method `Service.ListBalance`. -/
def Service.ListBalance {σ : Type} (s : Service σ) (userID : Int) (st : σ) :
    (Option BalanceDTO × error) × σ :=
  match s.b.GetBalance userID st with
  | ((_, _, some err), st1) => ((none, some err), st1)
  | ((current, withdrawn, none), st1) =>
    ((some { Current := current, Withdrawn := withdrawn }, none), st1)

/-- The method `Service.WithdrawBalance`; `now` is the value of `time.Now().UTC()`. -/
def Service.WithdrawBalance {σ : Type} (s : Service σ) (now : Nat) (userID : Int)
    (req : WithdrawRequest) (st : σ) : error × σ :=
  match s.b.GetBalance userID st with
  | ((_, _, some err), st1) => (some err, st1)
  | ((current, _, none), st1) =>
    if req.Sum > current then (some (.other "insufficient funds"), st1)
    else
      let withdrawal : Withdrawal :=
        { ID := 0, UserID := userID, OrderNumber := req.Order, Amount := req.Sum,
          CreatedAt := now }
      s.w.CreateWithdrawal withdrawal st1

/-- The method `Service.ListWithdrawals`. -/
def Service.ListWithdrawals {σ : Type} (s : Service σ) (userID : Int) (st : σ) :
    (List Withdrawal × error) × σ :=
  s.w.ListWithdrawalsByUser userID st

/-- The struct `balance.Handler`. -/
structure Handler (σ : Type) where
  svc : Service σ

/-- The constructor `balance.NewHandler`. -/
def NewHandler {σ : Type} (svc : Service σ) : Handler σ := { svc := svc }

/-- The method `Handler.WithdrawBalance`.  `userID` is what the middleware put in
the request context, `decoded` is the outcome of decoding the JSON body (the
request when decoding succeeded), and the result is the HTTP status written. -/
def Handler.WithdrawBalance {σ : Type} (h : Handler σ) (now : Nat) (userID : Int)
    (decoded : Except GoError WithdrawRequest) (st : σ) : Nat × σ :=
  match decoded with
  | .error _ => (400, st)
  | .ok req =>
    if req.Order = [] || req.Sum ≤ 0 then (400, st)
    else
      match h.svc.WithdrawBalance now userID req st with
      | (some err, st1) => if err.Error = "insufficient funds" then (402, st1) else (500, st1)
      | (none, st1) => (200, st1)

/-- The test double `stubBalanceRepo` of `balance_test.go`. -/
structure stubBalanceRepo where
  current : ℚ
  withdrawn : ℚ
  errGet : error
  deriving DecidableEq

/-- The test double `stubWithdrawalRepo` of `balance_test.go`. -/
structure stubWithdrawalRepo where
  withdrawals : List Withdrawal
  errCreate : error
  errList : error
  deriving DecidableEq

/-- The method `stubBalanceRepo.GetBalance`. -/
def stubBalanceRepo.GetBalance (_userID : Int) (st : stubBalanceRepo × stubWithdrawalRepo) :
    (ℚ × ℚ × error) × (stubBalanceRepo × stubWithdrawalRepo) :=
  match st.1.errGet with
  | some err => ((0, 0, some err), st)
  | none => ((st.1.current, st.1.withdrawn, none), st)

/-- The method `stubWithdrawalRepo.CreateWithdrawal`. -/
def stubWithdrawalRepo.CreateWithdrawal (w : Withdrawal)
    (st : stubBalanceRepo × stubWithdrawalRepo) :
    error × (stubBalanceRepo × stubWithdrawalRepo) :=
  match st.2.errCreate with
  | some err => (some err, st)
  | none => (none, (st.1, { st.2 with withdrawals := st.2.withdrawals ++ [w] }))

/-- The method `stubWithdrawalRepo.ListWithdrawalsByUser`. -/
def stubWithdrawalRepo.ListWithdrawalsByUser (_userID : Int)
    (st : stubBalanceRepo × stubWithdrawalRepo) :
    (List Withdrawal × error) × (stubBalanceRepo × stubWithdrawalRepo) :=
  match st.2.errList with
  | some err => (([], some err), st)
  | none => ((st.2.withdrawals, none), st)

/-- The service the tests build: `NewService(balRepo, withdrawRepo)` over the two stubs. -/
def stubService : Service (stubBalanceRepo × stubWithdrawalRepo) :=
  NewService { GetBalance := stubBalanceRepo.GetBalance }
    { CreateWithdrawal := stubWithdrawalRepo.CreateWithdrawal,
      ListWithdrawalsByUser := stubWithdrawalRepo.ListWithdrawalsByUser }

/-- The service over logging repositories. -/
def spyService {σ : Type} (s : Service σ) : Service (σ × List Call) :=
  NewService (spyBalance s.b) (spyWithdrawal s.w)

/-- How far one `Service.WithdrawBalance` call has got: not started, past the
funds check with the withdrawal it is about to insert, or returned. -/
inductive Progress where
  | start
  | checked (w : Withdrawal)
  | returned (result : error)
  deriving DecidableEq

/-- One call of `Service.WithdrawBalance`: its arguments and the clock value. -/
structure Withdraw where
  now : Nat
  userID : Int
  req : WithdrawRequest
  deriving DecidableEq

/-- One step of a `Service.WithdrawBalance` call.  The method calls the
repositories twice and holds no lock and no transaction between the two calls,
so it advances in two steps: the balance query with the funds check on the value
it returned, and the insert. -/
def Service.withdrawStep {σ : Type} (s : Service σ) (c : Withdraw) :
    Progress → σ → Progress × σ
  | .start, st =>
    match s.b.GetBalance c.userID st with
    | ((_, _, some err), st1) => (.returned (some err), st1)
    | ((current, _, none), st1) =>
      if c.req.Sum > current then (.returned (some (.other "insufficient funds")), st1)
      else
        (.checked { ID := 0, UserID := c.userID, OrderNumber := c.req.Order,
                    Amount := c.req.Sum, CreatedAt := c.now }, st1)
  | .checked w, st => (.returned (s.w.CreateWithdrawal w st).1, (s.w.CreateWithdrawal w st).2)
  | .returned r, st => (.returned r, st)

/-- Two calls `a` and `b` running at the same time: in `schedule`, true lets
`a` take its next step and false lets `b` take its next step. -/
def interleave {σ : Type} (s : Service σ) (a b : Withdraw) :
    List Bool → (Progress × Progress) × σ → (Progress × Progress) × σ
  | [], x => x
  | true :: rest, ((pa, pb), st) =>
    interleave s a b rest (((s.withdrawStep a pa st).1, pb), (s.withdrawStep a pa st).2)
  | false :: rest, ((pa, pb), st) =>
    interleave s a b rest ((pa, (s.withdrawStep b pb st).1), (s.withdrawStep b pb st).2)

/-- The withdrawals that a log records as passed to `CreateWithdrawal`. -/
def created : List Call → List Withdrawal
  | [] => []
  | .CreateWithdrawal w :: rest => w :: created rest
  | _ :: rest => created rest

end balance

namespace storage

/-- The state behind `PostgresStorage`: the rows of the tables `orders` and
`withdrawals`, in insertion order.  The table `users`, the foreign keys on
`user_id` and the `UNIQUE` constraint on `orders.number` are not modelled, nor
is a failing connection: every statement succeeds, so whatever uniqueness holds
of the numbers in the table is established by the callers.  Rows with equal
sort keys are returned in insertion order. -/
structure PostgresStorage where
  orders : List order.Order
  withdrawals : List balance.Withdrawal
  deriving DecidableEq

/-- A database with empty tables. -/
def PostgresStorage.empty : PostgresStorage := { orders := [], withdrawals := [] }

/-- The method `PostgresStorage.CreateOrder`: the insert stores the four columns
it names, the serial `id` is the next one, and the other columns are NULL. -/
def PostgresStorage.CreateOrder (o : order.Order) (s : PostgresStorage) :
    error × PostgresStorage :=
  (none,
    { s with
      orders := s.orders ++
        [{ ID := (s.orders.length : Int) + 1, UserID := o.UserID, Number := o.Number,
           Status := o.Status, AccrualAmount := none, UploadedAt := o.UploadedAt,
           ProcessedAt := none }] })

/-- The method `PostgresStorage.FindOrderByNumber`. -/
def PostgresStorage.FindOrderByNumber (number : GoString) (s : PostgresStorage) :
    Except GoError order.Order × PostgresStorage :=
  match s.orders.find? (fun o => decide (o.Number = number)) with
  | some o => (.ok o, s)
  | none => (.error .ErrNoRows, s)

/-- The method `PostgresStorage.ListOrdersByUser`; the query does not read
`processed_at`, so that field stays nil. -/
def PostgresStorage.ListOrdersByUser (userID : Int) (s : PostgresStorage) :
    (List order.Order × error) × PostgresStorage :=
  ((((s.orders.filter (fun o => decide (o.UserID = userID))).insertionSort
      (fun a b => a.UploadedAt ≥ b.UploadedAt)).map
      (fun o => { o with ProcessedAt := none }), none), s)

/-- The method `PostgresStorage.UpdateOrder`. -/
def PostgresStorage.UpdateOrder (o : order.Order) (s : PostgresStorage) :
    error × PostgresStorage :=
  (none,
    { s with
      orders := s.orders.map (fun r =>
        if r.ID = o.ID then
          { r with Status := o.Status, AccrualAmount := o.AccrualAmount,
                   ProcessedAt := o.ProcessedAt }
        else r) })

/-- The method `PostgresStorage.ListOrdersForPolling`; the query reads neither
`id` nor `user_id`, which keep their zero value. -/
def PostgresStorage.ListOrdersForPolling (s : PostgresStorage) :
    (List order.Order × error) × PostgresStorage :=
  ((((s.orders.filter (fun o => decide (o.Status = "NEW" ∨ o.Status = "PROCESSING"))).insertionSort
      (fun a b => a.UploadedAt ≤ b.UploadedAt)).map
      (fun o => { o with ID := 0, UserID := 0 }), none), s)

/-- The method `PostgresStorage.UpdateOrderUpdate`. -/
def PostgresStorage.UpdateOrderUpdate (number : GoString) (status : String)
    (accrualAmount : Option ℚ) (processedAt : Option Nat) (s : PostgresStorage) :
    error × PostgresStorage :=
  (none,
    { s with
      orders := s.orders.map (fun r =>
        if r.Number = number then
          { r with Status := status, AccrualAmount := accrualAmount, ProcessedAt := processedAt }
        else r) })

/-- The method `PostgresStorage.CreateWithdrawal`. -/
def PostgresStorage.CreateWithdrawal (w : balance.Withdrawal) (s : PostgresStorage) :
    error × PostgresStorage :=
  (none,
    { s with
      withdrawals := s.withdrawals ++ [{ w with ID := (s.withdrawals.length : Int) + 1 }] })

/-- The method `PostgresStorage.ListWithdrawalsByUser`. -/
def PostgresStorage.ListWithdrawalsByUser (userID : Int) (s : PostgresStorage) :
    (List balance.Withdrawal × error) × PostgresStorage :=
  ((((s.withdrawals.filter (fun w => decide (w.UserID = userID))).insertionSort
      (fun a b => a.CreatedAt ≥ b.CreatedAt)), none), s)

/-- The method `PostgresStorage.GetBalance` with exact arithmetic, that is, when
neither the two `SUM`s over the float8 columns nor the float64 subtraction
rounds: `SUM` skips NULL amounts and `COALESCE` turns the sum of no rows into 0.
`PostgresStorage.GetBalanceWith` is the same method over given floating-point
operations. -/
def PostgresStorage.GetBalance (userID : Int) (s : PostgresStorage) :
    (ℚ × ℚ × error) × PostgresStorage :=
  let current : ℚ :=
    ((s.orders.filter (fun o =>
        decide (o.UserID = userID ∧ (o.Status = "PROCESSED" ∨ o.Status = "PROCESSING")))).map
      (fun o => o.AccrualAmount.getD 0)).sum
  let withdrawn : ℚ :=
    ((s.withdrawals.filter (fun w => decide (w.UserID = userID))).map (fun w => w.Amount)).sum
  ((current - withdrawn, withdrawn, none), s)

/-- The storage seen through the interface `order.OrderRepository`. -/
def orderRepository : order.OrderRepository PostgresStorage where
  CreateOrder := PostgresStorage.CreateOrder
  ListOrdersByUser := PostgresStorage.ListOrdersByUser
  UpdateOrder := PostgresStorage.UpdateOrder
  FindOrderByNumber := PostgresStorage.FindOrderByNumber
  ListOrdersForPolling := PostgresStorage.ListOrdersForPolling
  UpdateOrderUpdate := PostgresStorage.UpdateOrderUpdate

/-- The storage seen through the interface `balance.BalanceRepository`. -/
def balanceRepository : balance.BalanceRepository PostgresStorage where
  GetBalance := PostgresStorage.GetBalance

/-- The storage seen through the interface `balance.WithdrawalRepository`. -/
def withdrawalRepository : balance.WithdrawalRepository PostgresStorage where
  CreateWithdrawal := PostgresStorage.CreateWithdrawal
  ListWithdrawalsByUser := PostgresStorage.ListWithdrawalsByUser

/-- A database whose only row is the order "79927398713" of user 1. -/
def oneOrder : PostgresStorage :=
  { orders := [{ ID := 1, UserID := 1, Number := ascii "79927398713", Status := "NEW",
                 AccrualAmount := none, UploadedAt := 10, ProcessedAt := none }],
    withdrawals := [] }

/-- The owner recorded for `number`: the user of the row the lookup returns. -/
def owner (number : GoString) (s : PostgresStorage) : Option Int :=
  match (PostgresStorage.FindOrderByNumber number s).1 with
  | .ok o => some o.UserID
  | .error _ => none

end storage

/-- The order service over the storage, as `run` wires it. -/
def orderService : order.Service storage.PostgresStorage :=
  order.NewService storage.orderRepository

/-- The order service over the storage behind a logging repository. -/
def orderServiceSpy : order.Service (storage.PostgresStorage × List order.Call) :=
  order.NewService (order.spy storage.orderRepository)

/-- The balance service over the storage, as `run` wires it:
`balance.NewService(store, store)`. -/
def balanceService : balance.Service storage.PostgresStorage :=
  balance.NewService storage.balanceRepository storage.withdrawalRepository

/-- A database with one PROCESSED order of user 1 that accrued 500 and one
withdrawal of 200 by the same user. -/
def storage.accrued : storage.PostgresStorage :=
  { orders := [{ ID := 1, UserID := 1, Number := ascii "79927398713", Status := "PROCESSED",
                 AccrualAmount := some 500, UploadedAt := 10, ProcessedAt := some 20 }],
    withdrawals := [{ ID := 1, UserID := 1, OrderNumber := ascii "2377225624", Amount := 200,
                      CreatedAt := 30 }] }

/-- What one order contributes to the balance of `userID`, as the specification
words it: its accrual amount when the order is of that user and its status is
PROCESSING or PROCESSED; an order of another user, an order in another status
and an absent accrual contribute 0. -/
def storage.contribution (userID : Int) (o : order.Order) : ℚ :=
  if o.UserID = userID ∧ (o.Status = "PROCESSING" ∨ o.Status = "PROCESSED") then
    match o.AccrualAmount with
    | some a => a
    | none => 0
  else 0

/-- What one withdrawal adds to the withdrawn total of `userID`: its amount when
it is of that user, and 0 otherwise. -/
def storage.withdrawnBy (userID : Int) (w : balance.Withdrawal) : ℚ :=
  if w.UserID = userID then w.Amount else 0

/-- The finite values of the type `float64` (and of the column type
`DOUBLE PRECISION`): an integer of magnitude below 2^53 times a power of two
with an exponent from -1074 to 971. -/
def float64.representable (q : ℚ) : Prop :=
  ∃ (m : ℤ) (k : ℕ), |m| < 2 ^ 53 ∧ ((k ≤ 971 ∧ q = m * 2 ^ k) ∨ (k ≤ 1074 ∧ q = m / 2 ^ k))

/-- The aggregate `COALESCE(SUM(x),0)` over a float8 column, the rows taken in
the order of the list: the state of `SUM` is the first value, every further
value is added to it with the float8 addition `add`, and the sum of no rows,
NULL, becomes 0. -/
def storage.sumWith (add : ℚ → ℚ → ℚ) : List ℚ → ℚ
  | [] => 0
  | x :: xs => xs.foldl add x

/-- Whether none of the additions that `SUM` makes from the state `acc` on over
the values of the list rounds. -/
def storage.exactFrom (add : ℚ → ℚ → ℚ) : ℚ → List ℚ → Bool
  | _, [] => true
  | acc, x :: xs => decide (add acc x = acc + x) && storage.exactFrom add (add acc x) xs

/-- Whether none of the additions of `COALESCE(SUM(x),0)` over the list rounds. -/
def storage.exactSum (add : ℚ → ℚ → ℚ) : List ℚ → Bool
  | [] => true
  | x :: xs => storage.exactFrom add x xs

/-- The values the query `qAccrual` of `GetBalance` sums: the accrual amounts
that are not NULL of the orders of `userID` in status PROCESSED or PROCESSING. -/
def storage.accruals (userID : Int) (s : storage.PostgresStorage) : List ℚ :=
  (s.orders.filter (fun o =>
      decide (o.UserID = userID ∧ (o.Status = "PROCESSED" ∨ o.Status = "PROCESSING")))).filterMap
    (fun o => o.AccrualAmount)

/-- The values the query `qWithdrawn` of `GetBalance` sums: the amounts of the
withdrawals of `userID`. -/
def storage.amounts (userID : Int) (s : storage.PostgresStorage) : List ℚ :=
  (s.withdrawals.filter (fun w => decide (w.UserID = userID))).map (fun w => w.Amount)

/-- The method `PostgresStorage.GetBalance` over the floating-point operations
it uses: `add` is the float8 addition of the two `SUM`s and `sub` the float64
subtraction of `current - withdrawn`. -/
def storage.PostgresStorage.GetBalanceWith (add sub : ℚ → ℚ → ℚ) (userID : Int)
    (s : storage.PostgresStorage) : (ℚ × ℚ × error) × storage.PostgresStorage :=
  let current : ℚ := storage.sumWith add (storage.accruals userID s)
  let withdrawn : ℚ := storage.sumWith add (storage.amounts userID s)
  ((sub current withdrawn, withdrawn, none), s)

/-- Whether `GetBalanceWith` computes the balance of `userID` from the tables `s`
without rounding: none of the additions of its two sums rounds and its
subtraction does not round. -/
def storage.exactBalance (add sub : ℚ → ℚ → ℚ) (userID : Int) (s : storage.PostgresStorage) :
    Bool :=
  storage.exactSum add (storage.accruals userID s) &&
    storage.exactSum add (storage.amounts userID s) &&
    decide (sub (storage.sumWith add (storage.accruals userID s))
        (storage.sumWith add (storage.amounts userID s)) =
      storage.sumWith add (storage.accruals userID s) -
        storage.sumWith add (storage.amounts userID s))

/-- The storage seen through the interface `balance.BalanceRepository`, over the
floating-point operations `add` and `sub`. -/
def storage.balanceRepositoryWith (add sub : ℚ → ℚ → ℚ) :
    balance.BalanceRepository storage.PostgresStorage where
  GetBalance := storage.PostgresStorage.GetBalanceWith add sub

/-- The balance service over the storage, as `run` wires it, over the
floating-point operations `add` and `sub`. -/
def balanceServiceWith (add sub : ℚ → ℚ → ℚ) : balance.Service storage.PostgresStorage :=
  balance.NewService (storage.balanceRepositoryWith add sub) storage.withdrawalRepository

/-- A database with one PROCESSED order of user 1 whose accrual is the float64
nearest to 100.1 and one withdrawal by the same user whose amount is the float64
nearest to 0.3. -/
def storage.decimals : storage.PostgresStorage :=
  { orders := [{ ID := 1, UserID := 1, Number := ascii "79927398713", Status := "PROCESSED",
                 AccrualAmount := some (3521955646092083 / 2 ^ 45), UploadedAt := 10,
                 ProcessedAt := some 20 }],
    withdrawals := [{ ID := 1, UserID := 1, OrderNumber := ascii "2377225624",
                      Amount := 5404319552844595 / 2 ^ 54, CreatedAt := 30 }] }

/-- A database with two PROCESSED orders of user 1 that accrued 500 and 250 and
two withdrawals of 200 and 50 by the same user. -/
def storage.twice : storage.PostgresStorage :=
  { orders := [{ ID := 1, UserID := 1, Number := ascii "79927398713", Status := "PROCESSED",
                 AccrualAmount := some 500, UploadedAt := 10, ProcessedAt := some 20 },
               { ID := 2, UserID := 1, Number := ascii "2377225624", Status := "PROCESSED",
                 AccrualAmount := some 250, UploadedAt := 11, ProcessedAt := some 21 }],
    withdrawals := [{ ID := 1, UserID := 1, OrderNumber := ascii "2377225624", Amount := 200,
                      CreatedAt := 30 },
                    { ID := 2, UserID := 1, OrderNumber := ascii "2377225624", Amount := 50,
                      CreatedAt := 31 }] }

/-- A database with one PROCESSED order of user 1 whose accrual is the float64
nearest to 0.11, and no withdrawal. -/
def storage.cents : storage.PostgresStorage :=
  { orders := [{ ID := 1, UserID := 1, Number := ascii "79927398713", Status := "PROCESSED",
                 AccrualAmount := some (7926335344172073 / 2 ^ 56), UploadedAt := 10,
                 ProcessedAt := some 20 }],
    withdrawals := [] }

/-- A database with one PROCESSED order of user 1 that accrued 100 and no
withdrawal. -/
def storage.hundred : storage.PostgresStorage :=
  { orders := [{ ID := 1, UserID := 1, Number := ascii "79927398713", Status := "PROCESSED",
                 AccrualAmount := some 100, UploadedAt := 10, ProcessedAt := some 20 }],
    withdrawals := [] }

/-- A database with ten NEW orders of user 1, inserted in an order that is not
the order of upload. -/
def storage.tenOrders : storage.PostgresStorage :=
  { orders :=
      [{ ID := 1, UserID := 1, Number := ascii "10371", Status := "NEW",
         AccrualAmount := none, UploadedAt := 50, ProcessedAt := none },
       { ID := 2, UserID := 1, Number := ascii "10744", Status := "NEW",
         AccrualAmount := none, UploadedAt := 20, ProcessedAt := none },
       { ID := 3, UserID := 1, Number := ascii "11114", Status := "NEW",
         AccrualAmount := none, UploadedAt := 90, ProcessedAt := none },
       { ID := 4, UserID := 1, Number := ascii "11486", Status := "NEW",
         AccrualAmount := none, UploadedAt := 10, ProcessedAt := none },
       { ID := 5, UserID := 1, Number := ascii "11858", Status := "NEW",
         AccrualAmount := none, UploadedAt := 70, ProcessedAt := none },
       { ID := 6, UserID := 1, Number := ascii "12229", Status := "NEW",
         AccrualAmount := none, UploadedAt := 30, ProcessedAt := none },
       { ID := 7, UserID := 1, Number := ascii "12591", Status := "NEW",
         AccrualAmount := none, UploadedAt := 100, ProcessedAt := none },
       { ID := 8, UserID := 1, Number := ascii "12963", Status := "NEW",
         AccrualAmount := none, UploadedAt := 40, ProcessedAt := none },
       { ID := 9, UserID := 1, Number := ascii "13334", Status := "NEW",
         AccrualAmount := none, UploadedAt := 80, ProcessedAt := none },
       { ID := 10, UserID := 1, Number := ascii "13706", Status := "NEW",
         AccrualAmount := none, UploadedAt := 60, ProcessedAt := none }],
    withdrawals := [] }

/-- A database whose only row is the order "79927398713" of user 1, PROCESSED at
20 with an accrual of 500. -/
def storage.processed : storage.PostgresStorage :=
  { orders := [{ ID := 1, UserID := 1, Number := ascii "79927398713", Status := "PROCESSED",
                 AccrualAmount := some 500, UploadedAt := 10, ProcessedAt := some 20 }],
    withdrawals := [] }

namespace gophermart

/-- The constant `time.Second`, in nanoseconds. -/
def Second : Nat := 1000000000

/-- A `context.Context` as far as `Done()` goes: its deadline, if it has one, and
the time at which its cancel function is called, if it ever is. -/
structure Context where
  deadline : Option Nat
  cancelled : Option Nat
  deriving DecidableEq

/-- The time from which the channel `ctx.Done()` is closed, if ever. -/
def Context.doneFrom (c : Context) : Option Nat :=
  match c.deadline, c.cancelled with
  | none, none => none
  | some d, none => some d
  | none, some t => some t
  | some d, some t => some (min d t)

/-- The call `context.WithTimeout(context.Background(), timeout)` made at time
`t`; `cancelAt` is when the cancel function it returns is called. -/
def WithTimeout (t timeout : Nat) (cancelAt : Option Nat) : Context :=
  { deadline := some (t + timeout), cancelled := cancelAt }

/-- The context `ctx` of `run`, made at `start` with a timeout of 5 seconds.  Its
cancel is deferred to the return of `run`, which waits for the shutdown signal:
`signal` is the time of that signal, if one ever arrives.  This is the context
`run` passes to `store.Ping` and to `order.DispatcherLoop`. -/
def runContext (start : Nat) (signal : Option Nat) : Context :=
  WithTimeout start (5 * Second) signal

/-- The branches that the rounds of the `select` of `DispatcherLoop` take when its
ticker fires every `interval` from `start` on: the round of tick `k` takes the
ticker branch unless the context is done before the ticker fires; then it takes
`ctx.Done()` and the loop ends.  `n` bounds the number of rounds. -/
def selects (ctx : Context) (start interval : Nat) : Nat → Nat → List order.Select
  | 0, _ => []
  | n + 1, k =>
    match ctx.doneFrom with
    | some d =>
      if d < start + k * interval then [.done]
      else .tick :: selects ctx start interval n (k + 1)
    | none => .tick :: selects ctx start interval n (k + 1)

end gophermart

/-! ## Luhn validation -/

namespace luna

/-- The byte at the boundary of a string split as `(c :: rp).reverse ++ suf`. -/
theorem getD_boundary (c : Nat) (rp suf : List Nat) :
    ((c :: rp).reverse ++ suf).getD rp.length 0 = c := by
  have h : rp.length = rp.reverse.length := by simp
  simp only [List.reverse_cons, List.append_assoc, List.singleton_append]
  rw [List.getD_eq_getElem?_getD, h, List.getElem?_append_right (le_refl _)]
  simp

/-- One round of the loop at the boundary of `(c :: rp).reverse ++ suf`. -/
theorem validateLoop_step (c : Nat) (rp suf : List Nat) (sum : Int) (alternate : Bool) :
    validateLoop ((c :: rp).reverse ++ suf) (rp.length + 1) sum alternate =
      if c < 48 ∨ c > 57 then false
      else validateLoop (rp.reverse ++ c :: suf) rp.length
        (sum + (if alternate then
          (if ((c - 48 : Nat) : Int) * 2 > 9 then ((c - 48 : Nat) : Int) * 2 - 9
           else ((c - 48 : Nat) : Int) * 2)
          else ((c - 48 : Nat) : Int))) (!alternate) := by
  have hl : (c :: rp).reverse ++ suf = rp.reverse ++ c :: suf := by simp
  rw [validateLoop]
  simp only [getD_boundary]
  rw [hl]
  by_cases hc : c < 48 ∨ c > 57
  · simp [hc]
  · simp [hc]

/-- A byte of the scanned part that is not a digit makes the loop return false. -/
theorem validateLoop_nondigit (rp : List Nat) :
    ∀ (suf : List Nat) (sum : Int) (alternate : Bool),
      (∃ ch ∈ rp, isDigit ch = false) →
      validateLoop (rp.reverse ++ suf) rp.length sum alternate = false := by
  induction rp with
  | nil => intro suf sum alternate h; simp at h
  | cons c rp ih =>
    intro suf sum alternate h
    rw [List.length_cons, validateLoop_step]
    by_cases hc : c < 48 ∨ c > 57
    · simp [hc]
    · have hrest : ∃ ch ∈ rp, isDigit ch = false := by
        obtain ⟨ch, hmem, hd⟩ := h
        rcases List.mem_cons.mp hmem with rfl | hmem
        · exfalso; apply hc; simp [isDigit] at hd; omega
        · exact ⟨ch, hmem, hd⟩
      rw [if_neg hc]
      exact ih _ _ _ hrest

/-- On digits the loop adds the checksum of the scanned part to `sum`; the digit
scanned first is doubled exactly when `alternate` is set. -/
theorem validateLoop_digits (rp : List Nat) :
    ∀ (suf : List Nat) (sum : Int) (k : Nat),
      (∀ ch ∈ rp, isDigit ch = true) →
      validateLoop (rp.reverse ++ suf) rp.length sum (fromSecond k) =
        decide ((sum + (scanSum fromSecond k rp : Nat)) % 10 = 0) := by
  induction rp with
  | nil =>
    intro suf sum k _
    simp only [List.length_nil, validateLoop, scanSum, Nat.cast_zero, add_zero]
    rw [Bool.eq_iff_iff]
    simp
  | cons c rp ih =>
    intro suf sum k h
    have hc : isDigit c = true := h c (List.mem_cons_self _ _)
    have hc2 : 48 ≤ c ∧ c ≤ 57 := by simpa [isDigit] using hc
    have hnot : ¬ (c < 48 ∨ c > 57) := by omega
    have hflip : (!fromSecond k) = fromSecond (k + 1) := by
      simp only [fromSecond]
      rcases Nat.mod_two_eq_zero_or_one k with h0 | h1
      · have : (k + 1) % 2 = 1 := by omega
        simp [h0, this]
      · have : (k + 1) % 2 = 0 := by omega
        simp [h1, this]
    rw [List.length_cons, validateLoop_step, if_neg hnot, hflip,
      ih _ _ _ (fun ch hm => h ch (List.mem_cons_of_mem _ hm))]
    congr 1
    simp only [scanSum, digitValue, doubled]
    have e : ((c - 48 : Nat) : Int) = (c : Int) - 48 := by omega
    by_cases hk : fromSecond k = true
    · simp only [hk, if_true]
      by_cases h9 : 2 * (c - 48) > 9
      · have h9i : ((c - 48 : Nat) : Int) * 2 > 9 := by omega
        rw [if_pos h9, if_pos h9i]
        apply propext
        constructor <;> intro hh <;> omega
      · have h9i : ¬ (((c - 48 : Nat) : Int) * 2 > 9) := by omega
        rw [if_neg h9, if_neg h9i]
        apply propext
        constructor <;> intro hh <;> omega
    · simp only [hk]
      apply propext
      constructor <;> intro hh <;> simp at hh ⊢ <;> omega

/-- `Validate` on a string of digits, as the checksum over the reversed string. -/
theorem Validate_eq_scanSum (number : GoString) (h : ∀ ch ∈ number, isDigit ch = true) :
    Validate number = decide (scanSum fromSecond 0 number.reverse % 10 = 0) := by
  have key := validateLoop_digits number.reverse [] 0 0
    (fun ch hm => h ch (List.mem_reverse.mp hm))
  have hfalse : fromSecond 0 = false := by decide
  simp only [List.reverse_reverse, List.append_nil, List.length_reverse, zero_add, hfalse] at key
  rw [Validate, key, Bool.eq_iff_iff]
  simp only [decide_eq_true_eq]
  omega

/-- C6, as stated: on the digit string "79927398713" `Validate` returns true,
although the sum in which every second digit starting with the rightmost one is
doubled (62) is not divisible by 10. -/
theorem Validate_doubling_from_rightmost_fails :
    (∀ ch ∈ ascii "79927398713", isDigit ch = true) ∧
    ¬ (Validate (ascii "79927398713") = true ↔
        scanSum fromFirst 0 (ascii "79927398713").reverse % 10 = 0) := by
  decide

/-- C6, amended: for every string of decimal digits, `Validate` returns true
exactly when the sum of the transformed digit values is divisible by 10, where,
scanning from the rightmost digit, every second digit starting with the second
one scanned (the 2nd, 4th, ... from the right) is doubled with 9 subtracted when
the doubled value exceeds 9, and the remaining digits, the rightmost one
included, are added unchanged. -/
theorem Validate_iff_checksum (number : GoString)
    (h : ∀ ch ∈ number, isDigit ch = true) :
    Validate number = true ↔ scanSum fromSecond 0 number.reverse % 10 = 0 := by
  rw [Validate_eq_scanSum number h]
  simp

/-- The amended C6 at "79927398713": the checksum is 70. -/
theorem Validate_iff_checksum_witness :
    (∀ ch ∈ ascii "79927398713", isDigit ch = true) ∧
    scanSum fromSecond 0 (ascii "79927398713").reverse = 70 ∧
    (Validate (ascii "79927398713") = true ↔
      scanSum fromSecond 0 (ascii "79927398713").reverse % 10 = 0) :=
  ⟨by decide, by decide, Validate_iff_checksum (ascii "79927398713") (by decide)⟩

/-- C7: on the empty string the loop body never runs and `Validate` returns
`0 % 10 == 0`, which is true: the empty string is accepted, not rejected, and
`SubmitOrder` stores an order whose number is the empty string. -/
theorem Validate_empty_accepted :
    ascii "" = [] ∧ Validate (ascii "") = true ∧
    orderService.SubmitOrder 10 1 (ascii "") storage.PostgresStorage.empty =
      (some .ErrOrderAccepted,
        { orders := [{ ID := 1, UserID := 1, Number := [], Status := "NEW",
                       AccrualAmount := none, UploadedAt := 10, ProcessedAt := none }],
          withdrawals := [] }) := by
  decide

/-- C8: for every string that contains at least one byte that is not an ASCII
decimal digit, at any position and whatever the other bytes are, `Validate`
returns false. -/
theorem Validate_nondigit (number : GoString) (h : ∃ ch ∈ number, isDigit ch = false) :
    Validate number = false := by
  have key := validateLoop_nondigit number.reverse [] 0 false
    (by obtain ⟨ch, hm, hd⟩ := h; exact ⟨ch, List.mem_reverse.mpr hm, hd⟩)
  simpa [Validate] using key

/-- C8 at "12a45": the byte of `a` is 97. -/
theorem Validate_nondigit_witness :
    (∃ ch ∈ ascii "12a45", isDigit ch = false) ∧ Validate (ascii "12a45") = false :=
  ⟨⟨97, by decide, by decide⟩, Validate_nondigit (ascii "12a45") ⟨97, by decide, by decide⟩⟩

/-- C9: `Validate("79927398713")` is true and `Validate("12345")` is false. -/
theorem Validate_examples :
    Validate (ascii "79927398713") = true ∧ Validate (ascii "12345") = false := by
  decide

end luna

/-! ## Order submission against an arbitrary repository -/

namespace order

/-- The calls one `SubmitOrder` adds to the log: none, the lookup alone, or the
lookup followed by one `CreateOrder` of a NEW order of the caller. -/
theorem SubmitOrder_log {σ : Type} (repo : OrderRepository σ) (now : Nat)
    (userID : Int) (number : GoString) (st : σ) (log : List Call) :
    ((NewService (spy repo)).SubmitOrder now userID number (st, log)).2.2 = log ∨
    ((NewService (spy repo)).SubmitOrder now userID number (st, log)).2.2 =
      log ++ [.FindOrderByNumber number] ∨
    ((NewService (spy repo)).SubmitOrder now userID number (st, log)).2.2 =
      log ++ [.FindOrderByNumber number,
        .CreateOrder (Order.mk 0 userID number "NEW" none now none)] := by
  by_cases hv : luna.Validate number = true
  · rcases hfr : repo.FindOrderByNumber number st with ⟨r, st1⟩
    cases r with
    | ok existing =>
      right; left
      by_cases hu : existing.UserID = userID <;>
        simp [Service.SubmitOrder, NewService, spy, hv, hfr, hu]
    | error err =>
      by_cases he : err = GoError.ErrNoRows
      · subst he
        right; right
        rcases hcr : repo.CreateOrder (Order.mk 0 userID number "NEW" none now none) st1
          with ⟨e, st2⟩
        cases e <;> simp [Service.SubmitOrder, NewService, spy, hv, hfr, hcr, StatusNew]
      · right; left
        simp [Service.SubmitOrder, NewService, spy, hv, hfr, he]
  · left
    simp [Service.SubmitOrder, hv]

/-- C2: for every user and every number that `luna.Validate` rejects,
`SubmitOrder` returns `ErrInvalidNumber`; the repository receives no call (the
log is unchanged) and its state is unchanged. -/
theorem SubmitOrder_invalid_number {σ : Type} (repo : OrderRepository σ) (now : Nat)
    (userID : Int) (number : GoString) (st : σ) (log : List Call)
    (h : luna.Validate number = false) :
    (NewService (spy repo)).SubmitOrder now userID number (st, log) =
      (some .ErrInvalidNumber, (st, log)) := by
  simp [Service.SubmitOrder, h]

/-- C2 at user 1 and number "12345", the input of `TestSubmitOrderInvalidNumber`. -/
theorem SubmitOrder_invalid_number_witness :
    luna.Validate (ascii "12345") = false ∧
    (NewService (spy storage.orderRepository)).SubmitOrder 0 1 (ascii "12345")
        (storage.PostgresStorage.empty, []) =
      (some .ErrInvalidNumber, (storage.PostgresStorage.empty, [])) :=
  ⟨by decide, SubmitOrder_invalid_number storage.orderRepository 0 1 (ascii "12345")
    storage.PostgresStorage.empty [] (by decide)⟩

/-- C3: for every Luhn-valid number that the lookup finds without error,
`SubmitOrder` returns `ErrOrderAlreadyExists` when the owner of the order found
is the submitting user and `ErrOrderConflict` when it is not; the only call the
repository receives is the lookup, so `CreateOrder` is not called. -/
theorem SubmitOrder_existing {σ : Type} (repo : OrderRepository σ) (now : Nat)
    (userID : Int) (number : GoString) (st st1 : σ) (log : List Call) (existing : Order)
    (hv : luna.Validate number = true)
    (hf : repo.FindOrderByNumber number st = (.ok existing, st1)) :
    (NewService (spy repo)).SubmitOrder now userID number (st, log) =
      (some (if existing.UserID = userID then GoError.ErrOrderAlreadyExists
             else GoError.ErrOrderConflict),
        (st1, log ++ [.FindOrderByNumber number])) := by
  by_cases hu : existing.UserID = userID <;>
    simp [Service.SubmitOrder, NewService, spy, hv, hf, hu]

/-- C4: for every Luhn-valid number whose lookup reports `sql.ErrNoRows`,
`SubmitOrder` calls `CreateOrder` exactly once, after the lookup, with an order
that carries the user and number of the call, status NEW, the clock value as
upload time and neither accrual nor processing time; it returns
`ErrOrderAccepted` when `CreateOrder` succeeds.  Whatever the repository and the
arguments, an order that `SubmitOrder` passes to `CreateOrder` has status NEW,
which is neither PROCESSED nor INVALID. -/
theorem SubmitOrder_new {σ : Type} (repo : OrderRepository σ) (now : Nat)
    (userID : Int) (number : GoString) (st st1 : σ) (log : List Call)
    (hv : luna.Validate number = true)
    (hf : repo.FindOrderByNumber number st = (.error .ErrNoRows, st1)) :
    ((NewService (spy repo)).SubmitOrder now userID number (st, log)).2.2 =
        log ++ [.FindOrderByNumber number,
          .CreateOrder { ID := 0, UserID := userID, Number := number, Status := "NEW",
                         AccrualAmount := none, UploadedAt := now, ProcessedAt := none }] ∧
    ((repo.CreateOrder { ID := 0, UserID := userID, Number := number, Status := "NEW",
                         AccrualAmount := none, UploadedAt := now, ProcessedAt := none } st1).1
        = none →
      ((NewService (spy repo)).SubmitOrder now userID number (st, log)).1 =
        some .ErrOrderAccepted) ∧
    (∀ (repo2 : OrderRepository σ) (now2 : Nat) (userID2 : Int) (number2 : GoString) (st2 : σ)
        (o : Order),
      Call.CreateOrder o ∈
          ((NewService (spy repo2)).SubmitOrder now2 userID2 number2 (st2, [])).2.2 →
        o.Status = StatusNew ∧ o.Status ≠ StatusProcessed ∧ o.Status ≠ StatusInvalid) := by
  refine ⟨?_, ?_, ?_⟩
  · rcases hcr : repo.CreateOrder (Order.mk 0 userID number "NEW" none now none) st1 with ⟨e, st2⟩
    cases e <;> simp [Service.SubmitOrder, NewService, spy, hv, hf, hcr, StatusNew]
  · intro hnone
    rcases hcr : repo.CreateOrder (Order.mk 0 userID number "NEW" none now none) st1 with ⟨e, st2⟩
    rw [hcr] at hnone
    simp only at hnone
    subst hnone
    simp [Service.SubmitOrder, NewService, spy, hv, hf, hcr, StatusNew]
  · intro repo2 now2 userID2 number2 st2 o hmem
    have hstatus : o.Status = StatusNew := by
      rcases SubmitOrder_log repo2 now2 userID2 number2 st2 [] with h | h | h <;>
        rw [h] at hmem <;> simp at hmem
      rw [hmem]
      rfl
    rw [hstatus]
    decide

/-- C3 on a table that holds "79927398713" for user 1: user 1 is told the order
already exists, user 2 gets a conflict, and only the lookup is logged. -/
theorem SubmitOrder_existing_witness :
    luna.Validate (ascii "79927398713") = true ∧
    storage.orderRepository.FindOrderByNumber (ascii "79927398713") storage.oneOrder =
      (.ok { ID := 1, UserID := 1, Number := ascii "79927398713", Status := "NEW",
             AccrualAmount := none, UploadedAt := 10, ProcessedAt := none },
        storage.oneOrder) ∧
    (NewService (spy storage.orderRepository)).SubmitOrder 11 1 (ascii "79927398713")
        (storage.oneOrder, []) =
      (some .ErrOrderAlreadyExists,
        (storage.oneOrder, [.FindOrderByNumber (ascii "79927398713")])) ∧
    (NewService (spy storage.orderRepository)).SubmitOrder 12 2 (ascii "79927398713")
        (storage.oneOrder, []) =
      (some .ErrOrderConflict,
        (storage.oneOrder, [.FindOrderByNumber (ascii "79927398713")])) :=
  ⟨by decide, rfl,
    SubmitOrder_existing storage.orderRepository 11 1 (ascii "79927398713") storage.oneOrder
      storage.oneOrder [] (Order.mk 1 1 (ascii "79927398713") "NEW" none 10 none)
      (by decide) rfl,
    SubmitOrder_existing storage.orderRepository 12 2 (ascii "79927398713") storage.oneOrder
      storage.oneOrder [] (Order.mk 1 1 (ascii "79927398713") "NEW" none 10 none)
      (by decide) rfl⟩

/-- C4 on the empty table, with the input of `TestSubmitOrderNewOrder`. -/
theorem SubmitOrder_new_witness :
    luna.Validate (ascii "79927398713") = true ∧
    storage.orderRepository.FindOrderByNumber (ascii "79927398713")
        storage.PostgresStorage.empty =
      (.error .ErrNoRows, storage.PostgresStorage.empty) ∧
    ((NewService (spy storage.orderRepository)).SubmitOrder 10 1 (ascii "79927398713")
        (storage.PostgresStorage.empty, [])).2.2 =
      [] ++ [.FindOrderByNumber (ascii "79927398713"),
        .CreateOrder { ID := 0, UserID := 1, Number := ascii "79927398713", Status := "NEW",
                       AccrualAmount := none, UploadedAt := 10, ProcessedAt := none }] ∧
    ((NewService (spy storage.orderRepository)).SubmitOrder 10 1 (ascii "79927398713")
        (storage.PostgresStorage.empty, [])).1 = some .ErrOrderAccepted ∧
    Call.CreateOrder (Order.mk 0 1 (ascii "79927398713") "NEW" none 10 none) ∈
      ((NewService (spy storage.orderRepository)).SubmitOrder 10 1 (ascii "79927398713")
        (storage.PostgresStorage.empty, [])).2.2 ∧
    ((Order.mk 0 1 (ascii "79927398713") "NEW" none 10 none).Status = StatusNew ∧
      (Order.mk 0 1 (ascii "79927398713") "NEW" none 10 none).Status ≠ StatusProcessed ∧
      (Order.mk 0 1 (ascii "79927398713") "NEW" none 10 none).Status ≠ StatusInvalid) :=
  ⟨by decide, rfl,
    (SubmitOrder_new storage.orderRepository 10 1 (ascii "79927398713")
      storage.PostgresStorage.empty storage.PostgresStorage.empty [] (by decide) rfl).1,
    (SubmitOrder_new storage.orderRepository 10 1 (ascii "79927398713")
      storage.PostgresStorage.empty storage.PostgresStorage.empty [] (by decide)
      rfl).2.1 rfl,
    by decide,
    (SubmitOrder_new storage.orderRepository 10 1 (ascii "79927398713")
      storage.PostgresStorage.empty storage.PostgresStorage.empty [] (by decide)
      rfl).2.2 storage.orderRepository 10 1 (ascii "79927398713") storage.PostgresStorage.empty
      (Order.mk 0 1 (ascii "79927398713") "NEW" none 10 none) (by decide)⟩

/-- C5: for every Luhn-valid number, a lookup error other than `sql.ErrNoRows`
is returned as it is and `CreateOrder` is not called; when the lookup reports
`sql.ErrNoRows` and `CreateOrder` fails, the error of `CreateOrder` is returned
as it is.  In both cases a repository error that is none of the four outcome
sentinels gives a result that is none of them. -/
theorem SubmitOrder_repository_error {σ : Type} (repo : OrderRepository σ) (now : Nat)
    (userID : Int) (number : GoString) (st : σ) (log : List Call)
    (hv : luna.Validate number = true) :
    (∀ (err : GoError) (st1 : σ),
      repo.FindOrderByNumber number st = (.error err, st1) → err ≠ .ErrNoRows →
        (NewService (spy repo)).SubmitOrder now userID number (st, log) =
            (some err, (st1, log ++ [.FindOrderByNumber number])) ∧
        (err ∉ outcomes → ∀ e ∈ outcomes,
          ((NewService (spy repo)).SubmitOrder now userID number (st, log)).1 ≠ some e)) ∧
    (∀ (err : GoError) (st1 st2 : σ),
      repo.FindOrderByNumber number st = (.error .ErrNoRows, st1) →
      repo.CreateOrder { ID := 0, UserID := userID, Number := number, Status := "NEW",
                         AccrualAmount := none, UploadedAt := now, ProcessedAt := none } st1 =
        (some err, st2) →
        (NewService (spy repo)).SubmitOrder now userID number (st, log) =
            (some err, (st2, log ++ [.FindOrderByNumber number,
              .CreateOrder { ID := 0, UserID := userID, Number := number, Status := "NEW",
                             AccrualAmount := none, UploadedAt := now,
                             ProcessedAt := none }])) ∧
        (err ∉ outcomes → ∀ e ∈ outcomes,
          ((NewService (spy repo)).SubmitOrder now userID number (st, log)).1 ≠ some e)) := by
  constructor
  · intro err st1 hf he
    have hres : (NewService (spy repo)).SubmitOrder now userID number (st, log) =
        (some err, (st1, log ++ [.FindOrderByNumber number])) := by
      simp [Service.SubmitOrder, NewService, spy, hv, hf, he]
    refine ⟨hres, ?_⟩
    intro hout e hmem heq
    rw [hres] at heq
    simp only [Option.some.injEq] at heq
    exact hout (heq ▸ hmem)
  · intro err st1 st2 hf hc
    have hres : (NewService (spy repo)).SubmitOrder now userID number (st, log) =
        (some err, (st2, log ++ [.FindOrderByNumber number,
          .CreateOrder (Order.mk 0 userID number "NEW" none now none)])) := by
      simp [Service.SubmitOrder, NewService, spy, hv, hf, hc, StatusNew]
    refine ⟨hres, ?_⟩
    intro hout e hmem heq
    rw [hres] at heq
    simp only [Option.some.injEq] at heq
    exact hout (heq ▸ hmem)

/-- C5 on a repository whose lookup fails with "db down", and on one whose
lookup finds nothing and whose insert fails with "db down". -/
theorem SubmitOrder_repository_error_witness :
    luna.Validate (ascii "79927398713") = true ∧
    (NewService (spy (brokenRepo (.other "db down") none))).SubmitOrder 10 1
        (ascii "79927398713") ((), []) =
      (some (.other "db down"), ((), [] ++ [.FindOrderByNumber (ascii "79927398713")])) ∧
    (NewService (spy (brokenRepo .ErrNoRows (some (.other "db down"))))).SubmitOrder 10 1
        (ascii "79927398713") ((), []) =
      (some (.other "db down"), ((), [] ++ [.FindOrderByNumber (ascii "79927398713"),
        .CreateOrder { ID := 0, UserID := 1, Number := ascii "79927398713", Status := "NEW",
                       AccrualAmount := none, UploadedAt := 10, ProcessedAt := none }])) :=
  ⟨by decide,
    ((SubmitOrder_repository_error (brokenRepo (.other "db down") none) 10 1
      (ascii "79927398713") () [] (by decide)).1 (.other "db down") () rfl (by decide)).1,
    ((SubmitOrder_repository_error (brokenRepo .ErrNoRows (some (.other "db down"))) 10 1
      (ascii "79927398713") () [] (by decide)).2 (.other "db down") () () rfl rfl).1⟩

end order

/-! ## Order submission against the storage -/

/-- The owner of a number is the user of the first row with that number. -/
theorem owner_eq_find (number : GoString) (s : storage.PostgresStorage) :
    storage.owner number s =
      (s.orders.find? (fun o => decide (o.Number = number))).map (fun o => o.UserID) := by
  unfold storage.owner storage.PostgresStorage.FindOrderByNumber
  cases s.orders.find? (fun o => decide (o.Number = number)) <;> rfl

/-- One `SubmitOrder` against the storage: either the call is not accepted and
the tables are unchanged, or it is accepted, the number had no row, and one NEW
row of the caller is appended. -/
theorem SubmitOrder_storage_step (now : Nat) (u : Int) (n : GoString)
    (st : storage.PostgresStorage) :
    ((orderService.SubmitOrder now u n st).1 ≠ some .ErrOrderAccepted ∧
      (orderService.SubmitOrder now u n st).2 = st) ∨
    ((orderService.SubmitOrder now u n st).1 = some .ErrOrderAccepted ∧
      st.orders.find? (fun o => decide (o.Number = n)) = none ∧
      (orderService.SubmitOrder now u n st).2 =
        { st with orders := st.orders ++
            [order.Order.mk ((st.orders.length : Int) + 1) u n "NEW" none now none] }) := by
  by_cases hv : luna.Validate n = true
  · cases hfind : st.orders.find? (fun o => decide (o.Number = n)) with
    | none =>
      right
      simp [orderService, order.Service.SubmitOrder, order.NewService, storage.orderRepository,
        storage.PostgresStorage.FindOrderByNumber, storage.PostgresStorage.CreateOrder, hv, hfind,
        order.StatusNew]
    | some o =>
      left
      by_cases hu : o.UserID = u <;>
        simp [orderService, order.Service.SubmitOrder, order.NewService, storage.orderRepository,
          storage.PostgresStorage.FindOrderByNumber, hv, hfind, hu]
  · left
    simp [orderService, order.Service.SubmitOrder, hv]

/-- The invariant of a run of submissions that starts from any table with
pairwise different numbers: the numbers stay pairwise different, and the owner
of a number is the owner it had at the start or else the first accepted
submitter of the run. -/
theorem submitAll_invariant (calls : List order.Submission) :
    ∀ st : storage.PostgresStorage, (st.orders.map (fun o => o.Number)).Nodup →
      ((order.submitAll orderService calls st).2.orders.map (fun o => o.Number)).Nodup ∧
      ∀ number, storage.owner number (order.submitAll orderService calls st).2 =
        (storage.owner number st).or
          (order.firstAccepted number (calls.zip (order.submitAll orderService calls st).1)) := by
  induction calls with
  | nil =>
    intro st hnd
    refine ⟨by simpa [order.submitAll] using hnd, ?_⟩
    intro number
    simp [order.submitAll, order.firstAccepted]
  | cons c cs ih =>
    intro st hnd
    rcases SubmitOrder_storage_step c.now c.userID c.number st with ⟨hne, hst⟩ | ⟨hacc, hnone, hst⟩
    · have ih1 := ih st hnd
      simp only [order.submitAll, hst, List.zip_cons_cons]
      refine ⟨ih1.1, ?_⟩
      intro number
      rw [ih1.2 number]
      congr 1
      simp [order.firstAccepted, hne]
    · have hfresh : c.number ∉ st.orders.map (fun o => o.Number) := by
        intro hmem
        obtain ⟨o, ho, hon⟩ := List.mem_map.mp hmem
        exact (List.find?_eq_none.mp hnone) o ho (by simpa using hon)
      have hnd1 : ((orderService.SubmitOrder c.now c.userID c.number st).2.orders.map
          (fun o => o.Number)).Nodup := by
        rw [hst]
        simp only [List.map_append, List.map_cons, List.map_nil]
        refine List.Nodup.append hnd (List.nodup_singleton _) ?_
        intro x hx hx2
        rw [List.mem_singleton] at hx2
        exact hfresh (hx2 ▸ hx)
      have ih1 := ih _ hnd1
      simp only [order.submitAll, List.zip_cons_cons]
      refine ⟨ih1.1, ?_⟩
      intro number
      rw [ih1.2 number, owner_eq_find number _, hst, owner_eq_find number st]
      simp only [List.find?_append, order.firstAccepted, hacc, and_true]
      cases hfs : st.orders.find? (fun o => decide (o.Number = number)) with
      | some o => simp
      | none =>
        by_cases hcn : c.number = number
        · simp [hcn]
        · simp [hcn]

/-- In a table with pairwise different numbers the lookup of the number of a
row returns that row. -/
theorem find_of_mem_nodup (l : List order.Order) (o : order.Order)
    (hnd : (l.map (fun o => o.Number)).Nodup) (ho : o ∈ l) :
    l.find? (fun r => decide (r.Number = o.Number)) = some o := by
  induction l with
  | nil => simp at ho
  | cons a l ih =>
    simp only [List.map_cons, List.nodup_cons] at hnd
    rcases List.mem_cons.mp ho with rfl | hmem
    · simp
    · have hne : a.Number ≠ o.Number := by
        intro h
        exact hnd.1 (h ▸ List.mem_map.mpr ⟨o, hmem, rfl⟩)
      simp [List.find?_cons, hne, ih hnd.2 hmem]

/-- C1: for every finite sequence of `SubmitOrder` calls that starts from the
empty table, the table never holds two orders with the same number, every row
belongs to the first user whose submission of its number was accepted, and
every accepted number has its row.  On the sequence of the specification (user 1
submits "79927398713" twice, then user 2 submits it) the results are accepted,
already exists, conflict, and the table holds the one NEW row of user 1. -/
theorem submitAll_unique_owner (calls : List order.Submission) :
    ((order.submitAll orderService calls storage.PostgresStorage.empty).2.orders.map
        (fun o => o.Number)).Nodup ∧
    (∀ o ∈ (order.submitAll orderService calls storage.PostgresStorage.empty).2.orders,
      order.firstAccepted o.Number
        (calls.zip (order.submitAll orderService calls storage.PostgresStorage.empty).1) =
        some o.UserID) ∧
    (∀ (number : GoString) (u : Int),
      order.firstAccepted number
        (calls.zip (order.submitAll orderService calls storage.PostgresStorage.empty).1) =
        some u →
      ∃ o ∈ (order.submitAll orderService calls storage.PostgresStorage.empty).2.orders,
        o.Number = number ∧ o.UserID = u) ∧
    order.submitAll orderService
        [⟨1, ascii "79927398713", 10⟩, ⟨1, ascii "79927398713", 11⟩,
          ⟨2, ascii "79927398713", 12⟩] storage.PostgresStorage.empty =
      ([some .ErrOrderAccepted, some .ErrOrderAlreadyExists, some .ErrOrderConflict],
        storage.oneOrder) := by
  have inv := submitAll_invariant calls storage.PostgresStorage.empty
    (by simp [storage.PostgresStorage.empty])
  have hown : ∀ number,
      storage.owner number (order.submitAll orderService calls storage.PostgresStorage.empty).2 =
        order.firstAccepted number
          (calls.zip (order.submitAll orderService calls storage.PostgresStorage.empty).1) := by
    intro number
    rw [inv.2 number]
    simp [owner_eq_find, storage.PostgresStorage.empty]
  refine ⟨inv.1, ?_, ?_, by decide⟩
  · intro o ho
    rw [← hown o.Number, owner_eq_find, find_of_mem_nodup _ o inv.1 ho]
    rfl
  · intro number u hfa
    rw [← hown number, owner_eq_find] at hfa
    cases hf : (order.submitAll orderService calls storage.PostgresStorage.empty).2.orders.find?
        (fun o => decide (o.Number = number)) with
    | none => rw [hf] at hfa; simp at hfa
    | some o =>
      rw [hf] at hfa
      simp only [Option.map_some', Option.some.injEq] at hfa
      have hp := List.find?_some hf
      exact ⟨o, List.mem_of_find?_eq_some hf, by simpa using hp, hfa⟩

/-- C1 on the sequence of the specification: the one row of the final table is
owned by user 1, the first accepted submitter of "79927398713". -/
theorem submitAll_unique_owner_witness :
    order.Order.mk 1 1 (ascii "79927398713") "NEW" none 10 none ∈
      (order.submitAll orderService
        [⟨1, ascii "79927398713", 10⟩, ⟨1, ascii "79927398713", 11⟩,
          ⟨2, ascii "79927398713", 12⟩] storage.PostgresStorage.empty).2.orders ∧
    order.firstAccepted (ascii "79927398713")
      ([(⟨1, ascii "79927398713", 10⟩ : order.Submission), ⟨1, ascii "79927398713", 11⟩,
          ⟨2, ascii "79927398713", 12⟩].zip
        (order.submitAll orderService
          [⟨1, ascii "79927398713", 10⟩, ⟨1, ascii "79927398713", 11⟩,
            ⟨2, ascii "79927398713", 12⟩] storage.PostgresStorage.empty).1) = some 1 :=
  ⟨by decide,
    (submitAll_unique_owner
      [⟨1, ascii "79927398713", 10⟩, ⟨1, ascii "79927398713", 11⟩,
        ⟨2, ascii "79927398713", 12⟩]).2.1
      (order.Order.mk 1 1 (ascii "79927398713") "NEW" none 10 none) (by decide)⟩

/-! ## Withdrawals -/

namespace balance

/-- The calls one `Service.WithdrawBalance` adds to the log: the balance query
alone, or the balance query followed by one `CreateWithdrawal` of the request. -/
theorem WithdrawBalance_log {σ : Type} (svc : Service σ) (now : Nat) (userID : Int)
    (req : WithdrawRequest) (st : σ) (log : List Call) :
    ((spyService svc).WithdrawBalance now userID req (st, log)).2.2 =
      log ++ [.GetBalance userID] ∨
    ((spyService svc).WithdrawBalance now userID req (st, log)).2.2 =
      log ++ [.GetBalance userID,
        .CreateWithdrawal (Withdrawal.mk 0 userID req.Order req.Sum now)] := by
  rcases hg : svc.b.GetBalance userID st with ⟨⟨current, withdrawn, e⟩, st1⟩
  cases e with
  | some err =>
    left
    simp [Service.WithdrawBalance, spyService, NewService, spyBalance, hg]
  | none =>
    by_cases hs : req.Sum > current
    · left
      simp [Service.WithdrawBalance, spyService, NewService, spyBalance, hg, hs]
    · right
      simp [Service.WithdrawBalance, spyService, NewService, spyBalance, spyWithdrawal, hg, hs]

/-- C10, as stated: with a balance of 100 the service accepts a request of -50,
an amount that is not above 0: it returns nil and passes a withdrawal of -50 to
`CreateWithdrawal`, which records it. -/
theorem Service_WithdrawBalance_accepts_nonpositive :
    ((-50 : ℚ) ≤ 0) ∧
    (spyService stubService).WithdrawBalance 7 1 ⟨ascii "12345", -50⟩
        ((⟨100, 0, none⟩, ⟨[], none, none⟩), []) =
      (none,
        ((⟨100, 0, none⟩, ⟨[⟨0, 1, ascii "12345", -50, 7⟩], none, none⟩),
          [.GetBalance 1, .CreateWithdrawal ⟨0, 1, ascii "12345", -50, 7⟩])) := by
  decide

/-- C10, amended: `Handler.WithdrawBalance` rejects every request whose amount
is less than or equal to 0: it answers 400 without calling
`Service.WithdrawBalance`, so no repository method is called; hence every
withdrawal recorded through the handler has amount > 0, whatever the
repositories and the request. -/
theorem Handler_WithdrawBalance_rejects_nonpositive {σ : Type} (svc : Service σ) (now : Nat)
    (userID : Int) (req : WithdrawRequest) (st : σ) (log : List Call)
    (h : req.Sum ≤ 0) :
    (NewHandler (spyService svc)).WithdrawBalance now userID (.ok req) (st, log) =
      (400, (st, log)) ∧
    (∀ (svc2 : Service σ) (now2 : Nat) (userID2 : Int)
        (decoded : Except GoError WithdrawRequest) (st2 : σ) (w : Withdrawal),
      w ∈ created
          ((NewHandler (spyService svc2)).WithdrawBalance now2 userID2 decoded (st2, [])).2.2 →
        w.Amount > 0) := by
  constructor
  · simp [Handler.WithdrawBalance, NewHandler, h]
  · intro svc2 now2 userID2 decoded st2 w hw
    cases decoded with
    | error e => simp [Handler.WithdrawBalance, created] at hw
    | ok req2 =>
      by_cases hguard : req2.Order = [] ∨ req2.Sum ≤ 0
      · simp [Handler.WithdrawBalance, hguard, created] at hw
      · have hpos : req2.Sum > 0 := by
          by_contra hn
          exact hguard (Or.inr (not_lt.mp hn))
        have hlog : ((NewHandler (spyService svc2)).WithdrawBalance now2 userID2
            (.ok req2) (st2, [])).2.2 =
            ((spyService svc2).WithdrawBalance now2 userID2 req2 (st2, [])).2.2 := by
          simp only [Handler.WithdrawBalance, NewHandler]
          have hg2 : (decide (req2.Order = []) || decide (req2.Sum ≤ 0)) = false := by
            simpa using hguard
          rw [hg2]
          rcases hr : (spyService svc2).WithdrawBalance now2 userID2 req2 (st2, [])
            with ⟨e, st3⟩
          cases e with
          | none => simp
          | some err => by_cases hm : err.Error = "insufficient funds" <;> simp [hm]
        rw [hlog] at hw
        rcases WithdrawBalance_log svc2 now2 userID2 req2 st2 [] with hl | hl <;>
          rw [hl] at hw <;> simp [created] at hw
        rw [hw]
        exact hpos

/-- The amended C10 at the request of -50 against a balance of 100: the handler
answers 400 and neither stub is called. -/
theorem Handler_WithdrawBalance_rejects_nonpositive_witness :
    ((-50 : ℚ) ≤ 0) ∧
    (NewHandler (spyService stubService)).WithdrawBalance 7 1 (.ok ⟨ascii "12345", -50⟩)
        ((⟨100, 0, none⟩, ⟨[], none, none⟩), []) =
      (400, ((⟨100, 0, none⟩, ⟨[], none, none⟩), [])) ∧
    Withdrawal.mk 0 1 (ascii "12345") 50 7 ∈
      created ((NewHandler (spyService stubService)).WithdrawBalance 7 1
        (.ok ⟨ascii "12345", 50⟩) ((⟨100, 0, none⟩, ⟨[], none, none⟩), [])).2.2 ∧
    (Withdrawal.mk 0 1 (ascii "12345") 50 7).Amount > 0 :=
  ⟨by decide,
    (Handler_WithdrawBalance_rejects_nonpositive stubService 7 1 ⟨ascii "12345", -50⟩
      (⟨100, 0, none⟩, ⟨[], none, none⟩) [] (by decide)).1,
    by decide,
    (Handler_WithdrawBalance_rejects_nonpositive stubService 7 1 ⟨ascii "12345", -50⟩
      (⟨100, 0, none⟩, ⟨[], none, none⟩) [] (by decide)).2 stubService 7 1
      (.ok ⟨ascii "12345", 50⟩) (⟨100, 0, none⟩, ⟨[], none, none⟩)
      (Withdrawal.mk 0 1 (ascii "12345") 50 7) (by decide)⟩

end balance

/-! ## Withdrawals: the funds check -/

namespace balance

/-- The shape of what `PostgresStorage.GetBalance` returns: no error, and the
tables as they were. -/
theorem GetBalance_shape (u : Int) (s : storage.PostgresStorage) :
    balanceService.b.GetBalance u s =
      (((storage.PostgresStorage.GetBalance u s).1.1,
        (storage.PostgresStorage.GetBalance u s).1.2.1, none), s) := rfl

/-- The funds check of `Service.WithdrawBalance`, without a log. -/
theorem WithdrawBalance_cases {σ : Type} (svc : Service σ) (now : Nat) (userID : Int)
    (req : WithdrawRequest) (st st1 : σ) (current withdrawn : ℚ)
    (hg : svc.b.GetBalance userID st = ((current, withdrawn, none), st1)) :
    svc.WithdrawBalance now userID req st =
      if req.Sum > current then (some (.other "insufficient funds"), st1)
      else svc.w.CreateWithdrawal (Withdrawal.mk 0 userID req.Order req.Sum now) st1 := by
  simp [Service.WithdrawBalance, hg]

/-- C11: for every request whose amount is strictly greater than the current
balance that `GetBalance` returned, `Service.WithdrawBalance` returns the error
"insufficient funds" and the only call the repositories receive is the balance
query, so `CreateWithdrawal` is not called; against the storage the tables, and
with them the list of withdrawals of the user, are unchanged. -/
theorem WithdrawBalance_insufficient {σ : Type} (svc : Service σ) (now : Nat) (userID : Int)
    (req : WithdrawRequest) (st st1 : σ) (log : List Call) (current withdrawn : ℚ)
    (hg : svc.b.GetBalance userID st = ((current, withdrawn, none), st1))
    (hs : req.Sum > current) :
    (spyService svc).WithdrawBalance now userID req (st, log) =
      (some (.other "insufficient funds"), (st1, log ++ [.GetBalance userID])) ∧
    (GoError.other "insufficient funds").Error = "insufficient funds" ∧
    (∀ (s : storage.PostgresStorage) (now2 : Nat) (u : Int) (req2 : WithdrawRequest),
      req2.Sum > (storage.PostgresStorage.GetBalance u s).1.1 →
        balanceService.WithdrawBalance now2 u req2 s = (some (.other "insufficient funds"), s) ∧
        (balanceService.ListWithdrawals u
            (balanceService.WithdrawBalance now2 u req2 s).2).1 =
          (balanceService.ListWithdrawals u s).1) := by
  refine ⟨?_, rfl, ?_⟩
  · simp [Service.WithdrawBalance, spyService, NewService, spyBalance, hg, hs]
  · intro s now2 u req2 h2
    have hres : balanceService.WithdrawBalance now2 u req2 s =
        (some (.other "insufficient funds"), s) := by
      rw [WithdrawBalance_cases balanceService now2 u req2 s s _ _ (GetBalance_shape u s),
        if_pos h2]
    exact ⟨hres, by rw [hres]⟩

/-- C11 at the input of `TestWithdrawBalanceInsufficientFunds` (current 30, sum
50) and, against the storage, at a request of 1000 with a balance of 300. -/
theorem WithdrawBalance_insufficient_witness :
    stubService.b.GetBalance 1 (⟨30, 0, none⟩, ⟨[], none, none⟩) =
      ((30, 0, none), (⟨30, 0, none⟩, ⟨[], none, none⟩)) ∧
    ((50 : ℚ) > 30) ∧
    (spyService stubService).WithdrawBalance 7 1 ⟨ascii "12345", 50⟩
        ((⟨30, 0, none⟩, ⟨[], none, none⟩), []) =
      (some (.other "insufficient funds"),
        ((⟨30, 0, none⟩, ⟨[], none, none⟩), [] ++ [.GetBalance 1])) ∧
    (1000 : ℚ) > (storage.PostgresStorage.GetBalance 1 storage.accrued).1.1 ∧
    balanceService.WithdrawBalance 7 1 ⟨ascii "2377225624", 1000⟩ storage.accrued =
      (some (.other "insufficient funds"), storage.accrued) :=
  ⟨rfl, by decide,
    (WithdrawBalance_insufficient stubService 7 1 ⟨ascii "12345", 50⟩
      (⟨30, 0, none⟩, ⟨[], none, none⟩) (⟨30, 0, none⟩, ⟨[], none, none⟩) [] 30 0 rfl
      (by decide)).1,
    by norm_num [storage.PostgresStorage.GetBalance, storage.accrued],
    ((WithdrawBalance_insufficient stubService 7 1 ⟨ascii "12345", 50⟩
      (⟨30, 0, none⟩, ⟨[], none, none⟩) (⟨30, 0, none⟩, ⟨[], none, none⟩) [] 30 0 rfl
      (by decide)).2.2 storage.accrued 7 1 ⟨ascii "2377225624", 1000⟩
      (by norm_num [storage.PostgresStorage.GetBalance, storage.accrued])).1⟩

/-- C12: for every request whose amount is less than or equal to the current
balance that `GetBalance` returned, equality included, `Service.WithdrawBalance`
calls `CreateWithdrawal` exactly once, after the balance query, with a
withdrawal that carries the user, the order number and the amount of the
request and the clock value, and returns what `CreateWithdrawal` returns, nil or
error; when `GetBalance` fails its error is returned and `CreateWithdrawal` is
not called. -/
theorem WithdrawBalance_sufficient {σ : Type} (svc : Service σ) (now : Nat) (userID : Int)
    (req : WithdrawRequest) (st : σ) (log : List Call) :
    (∀ (current withdrawn : ℚ) (st1 : σ),
      svc.b.GetBalance userID st = ((current, withdrawn, none), st1) → req.Sum ≤ current →
        (spyService svc).WithdrawBalance now userID req (st, log) =
          ((svc.w.CreateWithdrawal
              { ID := 0, UserID := userID, OrderNumber := req.Order, Amount := req.Sum,
                CreatedAt := now } st1).1,
            ((svc.w.CreateWithdrawal
              { ID := 0, UserID := userID, OrderNumber := req.Order, Amount := req.Sum,
                CreatedAt := now } st1).2,
              log ++ [.GetBalance userID,
                .CreateWithdrawal
                  { ID := 0, UserID := userID, OrderNumber := req.Order, Amount := req.Sum,
                    CreatedAt := now }]))) ∧
    (∀ (current withdrawn : ℚ) (err : GoError) (st1 : σ),
      svc.b.GetBalance userID st = ((current, withdrawn, some err), st1) →
        (spyService svc).WithdrawBalance now userID req (st, log) =
          (some err, (st1, log ++ [.GetBalance userID]))) := by
  constructor
  · intro current withdrawn st1 hg hle
    have hs : ¬ req.Sum > current := not_lt.mpr hle
    simp [Service.WithdrawBalance, spyService, NewService, spyBalance, spyWithdrawal, hg, hs]
  · intro current withdrawn err st1 hg
    simp [Service.WithdrawBalance, spyService, NewService, spyBalance, hg]

/-- C12 on the stubs of the tests: 50 of 100 is recorded and nil returned, 50 of
50 likewise, the error of a failing `CreateWithdrawal` is returned, and the
error of a failing `GetBalance` is returned without a `CreateWithdrawal`. -/
theorem WithdrawBalance_sufficient_witness :
    (spyService stubService).WithdrawBalance 7 1 ⟨ascii "12345", 50⟩
        ((⟨100, 0, none⟩, ⟨[], none, none⟩), []) =
      (none, ((⟨100, 0, none⟩, ⟨[⟨0, 1, ascii "12345", 50, 7⟩], none, none⟩),
        [.GetBalance 1, .CreateWithdrawal ⟨0, 1, ascii "12345", 50, 7⟩])) ∧
    (spyService stubService).WithdrawBalance 7 1 ⟨ascii "12345", 50⟩
        ((⟨50, 0, none⟩, ⟨[], none, none⟩), []) =
      (none, ((⟨50, 0, none⟩, ⟨[⟨0, 1, ascii "12345", 50, 7⟩], none, none⟩),
        [.GetBalance 1, .CreateWithdrawal ⟨0, 1, ascii "12345", 50, 7⟩])) ∧
    (spyService stubService).WithdrawBalance 7 1 ⟨ascii "12345", 50⟩
        ((⟨100, 0, none⟩, ⟨[], some (.other "db create error"), none⟩), []) =
      (some (.other "db create error"),
        ((⟨100, 0, none⟩, ⟨[], some (.other "db create error"), none⟩),
          [.GetBalance 1, .CreateWithdrawal ⟨0, 1, ascii "12345", 50, 7⟩])) ∧
    (spyService stubService).WithdrawBalance 7 1 ⟨ascii "12345", 50⟩
        ((⟨100, 0, some (.other "db error")⟩, ⟨[], none, none⟩), []) =
      (some (.other "db error"),
        ((⟨100, 0, some (.other "db error")⟩, ⟨[], none, none⟩), [] ++ [.GetBalance 1])) :=
  ⟨(WithdrawBalance_sufficient stubService 7 1 ⟨ascii "12345", 50⟩
      (⟨100, 0, none⟩, ⟨[], none, none⟩) []).1 100 0 _ rfl (by decide),
    (WithdrawBalance_sufficient stubService 7 1 ⟨ascii "12345", 50⟩
      (⟨50, 0, none⟩, ⟨[], none, none⟩) []).1 50 0 _ rfl (by decide),
    (WithdrawBalance_sufficient stubService 7 1 ⟨ascii "12345", 50⟩
      (⟨100, 0, none⟩, ⟨[], some (.other "db create error"), none⟩) []).1 100 0 _ rfl
      (by decide),
    (WithdrawBalance_sufficient stubService 7 1 ⟨ascii "12345", 50⟩
      (⟨100, 0, some (.other "db error")⟩, ⟨[], none, none⟩) []).2 0 0 (.other "db error") _
      rfl⟩

end balance

/-! ## The balance formula -/

/-- Summing over the rows a filter keeps is summing a per-row value that is 0
on the rows it drops. -/
theorem sum_filter_map {α : Type} (p : α → Bool) (f : α → ℚ) (l : List α) :
    ((l.filter p).map f).sum = (l.map (fun x => if p x = true then f x else 0)).sum := by
  induction l with
  | nil => simp
  | cons a l ih =>
    by_cases h : p a = true
    · simp [List.filter_cons, h, ih]
    · simp [List.filter_cons, h, ih]

/-- The accrual total of `GetBalance` as a sum of contributions. -/
theorem accrual_sum_eq (u : Int) (l : List order.Order) :
    ((l.filter (fun o =>
        decide (o.UserID = u ∧ (o.Status = "PROCESSED" ∨ o.Status = "PROCESSING")))).map
      (fun o => o.AccrualAmount.getD 0)).sum = (l.map (storage.contribution u)).sum := by
  rw [sum_filter_map]
  congr 1
  apply List.map_congr_left
  intro o _
  unfold storage.contribution
  by_cases h1 : o.UserID = u <;> by_cases h2 : o.Status = "PROCESSED" <;>
    by_cases h3 : o.Status = "PROCESSING" <;> cases o.AccrualAmount <;> simp [h1, h2, h3]

/-- The withdrawn total of `GetBalance` as a sum over all withdrawals. -/
theorem withdrawn_sum_eq (u : Int) (l : List balance.Withdrawal) :
    ((l.filter (fun w => decide (w.UserID = u))).map (fun w => w.Amount)).sum =
      (l.map (storage.withdrawnBy u)).sum := by
  rw [sum_filter_map]
  congr 1
  apply List.map_congr_left
  intro w _
  unfold storage.withdrawnBy
  by_cases h : w.UserID = u <;> simp [h]

/-- Skipping the NULL amounts in a sum is counting them as 0. -/
theorem sum_filterMap_getD (l : List order.Order) :
    (l.filterMap (fun o => o.AccrualAmount)).sum = (l.map (fun o => o.AccrualAmount.getD 0)).sum := by
  induction l with
  | nil => simp
  | cons o l ih =>
    cases h : o.AccrualAmount with
    | none => simp [List.filterMap_cons, h, ih]
    | some a => simp [List.filterMap_cons, h, ih]

/-- The values `qAccrual` sums add up to the sum of the contributions. -/
theorem accruals_sum (u : Int) (s : storage.PostgresStorage) :
    (storage.accruals u s).sum = (s.orders.map (storage.contribution u)).sum := by
  unfold storage.accruals
  rw [sum_filterMap_getD, accrual_sum_eq]

/-- The values `qWithdrawn` sums add up to the sum over all withdrawals. -/
theorem amounts_sum (u : Int) (s : storage.PostgresStorage) :
    (storage.amounts u s).sum = (s.withdrawals.map (storage.withdrawnBy u)).sum := by
  unfold storage.amounts
  rw [withdrawn_sum_eq]

/-- When none of the additions from `acc` on rounds, the state of `SUM` ends as
`acc` plus the sum of the values. -/
theorem foldl_exactFrom (add : ℚ → ℚ → ℚ) (l : List ℚ) (acc : ℚ)
    (h : storage.exactFrom add acc l = true) : l.foldl add acc = acc + l.sum := by
  induction l generalizing acc with
  | nil => simp
  | cons x xs ih =>
    simp only [storage.exactFrom, Bool.and_eq_true, decide_eq_true_eq] at h
    rw [List.foldl_cons, ih _ h.2, h.1, List.sum_cons, add_assoc]

/-- When none of its additions rounds, `COALESCE(SUM(x),0)` is the sum. -/
theorem sumWith_exactSum (add : ℚ → ℚ → ℚ) (l : List ℚ) (h : storage.exactSum add l = true) :
    storage.sumWith add l = l.sum := by
  cases l with
  | nil => rfl
  | cons x xs =>
    simp only [storage.exactSum] at h
    simp only [storage.sumWith, foldl_exactFrom add xs x h, List.sum_cons]

/-- An addition that never rounds makes no rounding addition in any sum. -/
theorem exactFrom_of_exact (add : ℚ → ℚ → ℚ) (hadd : ∀ x y, add x y = x + y) (l : List ℚ)
    (acc : ℚ) : storage.exactFrom add acc l = true := by
  induction l generalizing acc with
  | nil => rfl
  | cons x xs ih => simp [storage.exactFrom, hadd, ih]

/-- An addition that never rounds makes no rounding addition in any sum. -/
theorem exactSum_of_exact (add : ℚ → ℚ → ℚ) (hadd : ∀ x y, add x y = x + y) (l : List ℚ) :
    storage.exactSum add l = true := by
  cases l with
  | nil => rfl
  | cons x xs => exact exactFrom_of_exact add hadd xs x

/-- The balance over operations of which none rounds on the values at hand. -/
theorem GetBalanceWith_of_exact (add sub : ℚ → ℚ → ℚ) (u : Int) (s : storage.PostgresStorage)
    (hacc : storage.exactSum add (storage.accruals u s) = true)
    (hwd : storage.exactSum add (storage.amounts u s) = true)
    (hsub : sub (storage.sumWith add (storage.accruals u s))
        (storage.sumWith add (storage.amounts u s)) =
      storage.sumWith add (storage.accruals u s) - storage.sumWith add (storage.amounts u s)) :
    storage.PostgresStorage.GetBalanceWith add sub u s =
      (((s.orders.map (storage.contribution u)).sum -
          (s.withdrawals.map (storage.withdrawnBy u)).sum,
        (s.withdrawals.map (storage.withdrawnBy u)).sum, none), s) := by
  simp only [storage.PostgresStorage.GetBalanceWith, hsub]
  rw [sumWith_exactSum add _ hacc, sumWith_exactSum add _ hwd, accruals_sum, amounts_sum]

/-- With operations that never round, `GetBalanceWith` is `GetBalance`. -/
theorem GetBalanceWith_exact (add sub : ℚ → ℚ → ℚ) (hadd : ∀ x y, add x y = x + y)
    (hsub : ∀ x y, sub x y = x - y) :
    storage.PostgresStorage.GetBalanceWith add sub = storage.PostgresStorage.GetBalance := by
  funext u s
  rw [GetBalanceWith_of_exact add sub u s (exactSum_of_exact add hadd _)
    (exactSum_of_exact add hadd _) (hsub _ _)]
  simp only [storage.PostgresStorage.GetBalance, accrual_sum_eq, withdrawn_sum_eq]

/-- With operations that never round, `balanceServiceWith` is `balanceService`. -/
theorem balanceServiceWith_exact (add sub : ℚ → ℚ → ℚ) (hadd : ∀ x y, add x y = x + y)
    (hsub : ∀ x y, sub x y = x - y) : balanceServiceWith add sub = balanceService := by
  simp only [balanceServiceWith, balanceService, storage.balanceRepositoryWith,
    storage.balanceRepository, GetBalanceWith_exact add sub hadd hsub]

/-- An odd integer of 54 or more bits over 2^54 is not a value of `float64`: the
exact difference of the float64 values nearest to 100.1 and 0.3 is not one. -/
theorem difference_not_representable :
    ¬ float64.representable (1797836971246301901 / 2 ^ 54) := by
  rintro ⟨m, k, hm, ⟨_, h⟩ | ⟨_, h⟩⟩
  · have h2 : (1797836971246301901 : ℚ) = ((m * 2 ^ k * 2 ^ 54 : ℤ) : ℚ) := by
      push_cast
      rw [← h]
      norm_num
    have h3 : (1797836971246301901 : ℤ) = m * 2 ^ k * 2 ^ 54 := by exact_mod_cast h2
    omega
  · have h2 : ((1797836971246301901 * 2 ^ k : ℤ) : ℚ) = ((m * 2 ^ 54 : ℤ) : ℚ) := by
      push_cast
      have hk : (2 : ℚ) ^ k ≠ 0 := by positivity
      field_simp at h
      linarith
    have h3 : (1797836971246301901 * 2 ^ k : ℤ) = m * 2 ^ 54 := by exact_mod_cast h2
    have hlt : k < 54 ∨ 54 ≤ k := lt_or_le k 54
    rcases hlt with hlt | hge
    · obtain ⟨j, hj⟩ : ∃ j, 54 = k + (j + 1) := ⟨54 - k - 1, by omega⟩
      rw [hj, pow_add, ← mul_assoc] at h3
      have hk2 : (2 : ℤ) ^ k ≠ 0 := by positivity
      have h4 : (1797836971246301901 : ℤ) = m * 2 ^ (j + 1) := by
        have := mul_right_cancel₀ hk2 (by linarith : (1797836971246301901 : ℤ) * 2 ^ k = m * 2 ^ (j + 1) * 2 ^ k)
        exact this
      have h5 : (1797836971246301901 : ℤ) = 2 * (m * 2 ^ j) := by rw [h4, pow_succ]; ring
      generalize m * 2 ^ j = n at h5
      omega
    · obtain ⟨j, hj⟩ : ∃ j, k = 54 + j := ⟨k - 54, by omega⟩
      rw [hj, pow_add] at h3
      have h54 : (2 : ℤ) ^ 54 ≠ 0 := by positivity
      have h4 : (1797836971246301901 : ℤ) * 2 ^ j = m := by
        have := mul_right_cancel₀ h54 (by linarith : (1797836971246301901 : ℤ) * 2 ^ j * 2 ^ 54 = m * 2 ^ 54)
        exact this
      have hj1 : (1 : ℤ) ≤ 2 ^ j := one_le_pow₀ (by norm_num)
      have hmabs := abs_lt.mp hm
      nlinarith

/-- C15, as stated: the amounts are float64 values and the subtraction of
`GetBalance` is the float64 subtraction, whose result is a float64 value.  With
one PROCESSED order whose accrual is the float64 nearest to 100.1 and one
withdrawal of the float64 nearest to 0.3, the sum of the accruals minus the sum
of the withdrawals is 1797836971246301901 / 2^54, which is not a float64 value:
whatever the rounding of the subtraction, the current balance `GetBalance`
returns is not that difference.  With the subtraction rounding to nearest it is
7022800668930867 / 2^46, the float64 nearest to 99.8. -/
theorem GetBalance_rounds :
    float64.representable (3521955646092083 / 2 ^ 45) ∧
    float64.representable (5404319552844595 / 2 ^ 54) ∧
    |(3521955646092083 / 2 ^ 45 : ℚ) - 1001 / 10| < 1 / 2 ^ 47 ∧
    |(5404319552844595 / 2 ^ 54 : ℚ) - 3 / 10| < 1 / 2 ^ 55 ∧
    (storage.decimals.orders.map (storage.contribution 1)).sum -
      (storage.decimals.withdrawals.map (storage.withdrawnBy 1)).sum =
        1797836971246301901 / 2 ^ 54 ∧
    ¬ float64.representable (1797836971246301901 / 2 ^ 54) ∧
    (∀ add sub : ℚ → ℚ → ℚ, (∀ x y, float64.representable (sub x y)) →
      (storage.PostgresStorage.GetBalanceWith add sub 1 storage.decimals).1.1 ≠
        (storage.decimals.orders.map (storage.contribution 1)).sum -
          (storage.decimals.withdrawals.map (storage.withdrawnBy 1)).sum) ∧
    (∀ add sub : ℚ → ℚ → ℚ,
      sub (3521955646092083 / 2 ^ 45) (5404319552844595 / 2 ^ 54) = 7022800668930867 / 2 ^ 46 →
        storage.PostgresStorage.GetBalanceWith add sub 1 storage.decimals =
          ((7022800668930867 / 2 ^ 46, 5404319552844595 / 2 ^ 54, none), storage.decimals)) ∧
    float64.representable (7022800668930867 / 2 ^ 46) ∧
    |(7022800668930867 / 2 ^ 46 : ℚ) - 1797836971246301901 / 2 ^ 54| < 1 / 2 ^ 47 ∧
    |(7022800668930867 / 2 ^ 46 : ℚ) - 998 / 10| < 1 / 2 ^ 47 := by
  have hexact : (storage.decimals.orders.map (storage.contribution 1)).sum -
      (storage.decimals.withdrawals.map (storage.withdrawnBy 1)).sum =
        1797836971246301901 / 2 ^ 54 := by
    norm_num [storage.decimals, storage.contribution, storage.withdrawnBy]
  have hval : ∀ add sub : ℚ → ℚ → ℚ,
      storage.PostgresStorage.GetBalanceWith add sub 1 storage.decimals =
        ((sub (3521955646092083 / 2 ^ 45) (5404319552844595 / 2 ^ 54),
          5404319552844595 / 2 ^ 54, none), storage.decimals) := by
    intro add sub
    simp [storage.PostgresStorage.GetBalanceWith, storage.accruals, storage.amounts,
      storage.sumWith, storage.decimals]
  refine ⟨⟨3521955646092083, 45, by norm_num [abs_lt], Or.inr ⟨by norm_num, by norm_num⟩⟩,
    ⟨5404319552844595, 54, by norm_num [abs_lt], Or.inr ⟨by norm_num, by norm_num⟩⟩,
    by rw [abs_lt]; norm_num, by rw [abs_lt]; norm_num, hexact, difference_not_representable,
    ?_, ?_,
    ⟨7022800668930867, 46, by norm_num [abs_lt], Or.inr ⟨by norm_num, by norm_num⟩⟩,
    by rw [abs_lt]; norm_num, by rw [abs_lt]; norm_num⟩
  · intro add sub hrep heq
    rw [hexact, hval add sub] at heq
    apply difference_not_representable
    rw [← heq]
    exact hrep _ _
  · intro add sub h
    rw [hval add sub, h]

/-- C15, amended: for every user and every content of the tables, when none of
the additions of the two sums and not the subtraction rounds, `GetBalance`
returns, without error and without changing the tables, withdrawn = the sum of
the amounts of the withdrawals of that user and current = the sum of the
accrual amounts of the orders of that user in status PROCESSING or PROCESSED
minus withdrawn, where orders of other users, orders in another status and
absent accruals count 0; `Service.ListBalance` returns the same two values.  So
it is with exact arithmetic, for every content of the tables.  One PROCESSED
order with accrual 500 and one withdrawal of 200 give 300 and 200 whenever the
subtraction returns 300 for 500 - 200. -/
theorem GetBalance_formula (add sub : ℚ → ℚ → ℚ) (u : Int) (s : storage.PostgresStorage)
    (hacc : storage.exactSum add (storage.accruals u s) = true)
    (hwd : storage.exactSum add (storage.amounts u s) = true)
    (hsub : sub (storage.sumWith add (storage.accruals u s))
        (storage.sumWith add (storage.amounts u s)) =
      storage.sumWith add (storage.accruals u s) - storage.sumWith add (storage.amounts u s)) :
    storage.PostgresStorage.GetBalanceWith add sub u s =
      (((s.orders.map (storage.contribution u)).sum -
          (s.withdrawals.map (storage.withdrawnBy u)).sum,
        (s.withdrawals.map (storage.withdrawnBy u)).sum, none), s) ∧
    (balanceServiceWith add sub).ListBalance u s =
      ((some { Current := (s.orders.map (storage.contribution u)).sum -
                  (s.withdrawals.map (storage.withdrawnBy u)).sum,
               Withdrawn := (s.withdrawals.map (storage.withdrawnBy u)).sum }, none), s) ∧
    storage.PostgresStorage.GetBalance u s =
      (((s.orders.map (storage.contribution u)).sum -
          (s.withdrawals.map (storage.withdrawnBy u)).sum,
        (s.withdrawals.map (storage.withdrawnBy u)).sum, none), s) ∧
    balanceService.ListBalance u s =
      ((some { Current := (s.orders.map (storage.contribution u)).sum -
                  (s.withdrawals.map (storage.withdrawnBy u)).sum,
               Withdrawn := (s.withdrawals.map (storage.withdrawnBy u)).sum }, none), s) ∧
    (sub 500 200 = 300 →
      storage.PostgresStorage.GetBalanceWith add sub 1 storage.accrued =
        ((300, 200, none), storage.accrued)) := by
  have h1 := GetBalanceWith_of_exact add sub u s hacc hwd hsub
  have h2 : storage.PostgresStorage.GetBalance u s =
      (((s.orders.map (storage.contribution u)).sum -
          (s.withdrawals.map (storage.withdrawnBy u)).sum,
        (s.withdrawals.map (storage.withdrawnBy u)).sum, none), s) := by
    simp only [storage.PostgresStorage.GetBalance, accrual_sum_eq, withdrawn_sum_eq]
  refine ⟨h1, ?_, h2, ?_, ?_⟩
  · have hb : (balanceServiceWith add sub).b.GetBalance u s =
        storage.PostgresStorage.GetBalanceWith add sub u s := rfl
    simp only [balance.Service.ListBalance, hb, h1]
  · have hb : balanceService.b.GetBalance u s = storage.PostgresStorage.GetBalance u s := rfl
    simp only [balance.Service.ListBalance, hb, h2]
  · intro h
    simp [storage.PostgresStorage.GetBalanceWith, storage.accruals, storage.amounts,
      storage.sumWith, storage.accrued, h]

/-- The amended C15 on two PROCESSED orders of user 1 with accruals 500 and 250
and two withdrawals of 200 and 50, with an addition and a subtraction that are
exact on integers and round every other result down to an integer: none of the
operations made rounds, and the balance is 500 current, 250 withdrawn. -/
theorem GetBalance_formula_witness :
    storage.accruals 1 storage.twice = [500, 250] ∧
    storage.amounts 1 storage.twice = [200, 50] ∧
    storage.exactSum (fun x y => ((⌊x + y⌋ : ℤ) : ℚ)) (storage.accruals 1 storage.twice) = true ∧
    storage.exactSum (fun x y => ((⌊x + y⌋ : ℤ) : ℚ)) (storage.amounts 1 storage.twice) = true ∧
    storage.PostgresStorage.GetBalanceWith (fun x y => ((⌊x + y⌋ : ℤ) : ℚ))
        (fun x y => ((⌊x - y⌋ : ℤ) : ℚ)) 1 storage.twice =
      (((storage.twice.orders.map (storage.contribution 1)).sum -
          (storage.twice.withdrawals.map (storage.withdrawnBy 1)).sum,
        (storage.twice.withdrawals.map (storage.withdrawnBy 1)).sum, none), storage.twice) ∧
    (storage.twice.orders.map (storage.contribution 1)).sum -
      (storage.twice.withdrawals.map (storage.withdrawnBy 1)).sum = 500 ∧
    (storage.twice.withdrawals.map (storage.withdrawnBy 1)).sum = 250 :=
  ⟨by decide, by decide,
    by rw [show storage.accruals 1 storage.twice = [500, 250] from by decide]
       norm_num [storage.exactSum, storage.exactFrom],
    by rw [show storage.amounts 1 storage.twice = [200, 50] from by decide]
       norm_num [storage.exactSum, storage.exactFrom],
    (GetBalance_formula (fun x y => ((⌊x + y⌋ : ℤ) : ℚ)) (fun x y => ((⌊x - y⌋ : ℤ) : ℚ)) 1
      storage.twice
      (by rw [show storage.accruals 1 storage.twice = [500, 250] from by decide]
          norm_num [storage.exactSum, storage.exactFrom])
      (by rw [show storage.amounts 1 storage.twice = [200, 50] from by decide]
          norm_num [storage.exactSum, storage.exactFrom])
      (by rw [show storage.accruals 1 storage.twice = [500, 250] from by decide,
            show storage.amounts 1 storage.twice = [200, 50] from by decide]
          norm_num [storage.sumWith])).1,
    by norm_num [storage.twice, storage.contribution, storage.withdrawnBy],
    by norm_num [storage.twice, storage.withdrawnBy]⟩

/-- After a `Service.WithdrawBalance` that returned nil the balance recomputed
from the tables is not negative. -/
theorem nonnegative_after_withdraw (s : storage.PostgresStorage) (now : Nat) (u : Int)
    (req : balance.WithdrawRequest)
    (h : (balanceService.WithdrawBalance now u req s).1 = none) :
    0 ≤ (storage.PostgresStorage.GetBalance u
          (balanceService.WithdrawBalance now u req s).2).1.1 := by
  rw [balance.WithdrawBalance_cases balanceService now u req s s _ _
    (balance.GetBalance_shape u s)] at h ⊢
  by_cases hs : req.Sum > (storage.PostgresStorage.GetBalance u s).1.1
  · rw [if_pos hs] at h
    simp at h
  · rw [if_neg hs]
    have hle := not_lt.mp hs
    simp only [storage.PostgresStorage.GetBalance] at hle
    simp only [balanceService, balance.NewService, storage.withdrawalRepository,
      storage.PostgresStorage.CreateWithdrawal, storage.PostgresStorage.GetBalance,
      List.filter_append, List.map_append, List.sum_append]
    simp only [List.filter_cons, decide_True, List.filter_nil, if_true, List.map_cons,
      List.map_nil, List.sum_cons, List.sum_nil, add_zero]
    linarith

/-- C13: against the storage, with exact arithmetic, for every content of the
tables and every `Service.WithdrawBalance` call that returns nil, the current
balance of the user that `GetBalance` computes from the tables right after the
withdrawal is recorded is greater than or equal to 0. -/
theorem WithdrawBalance_nonnegative (s : storage.PostgresStorage) (now : Nat) (u : Int)
    (req : balance.WithdrawRequest)
    (h : (balanceService.WithdrawBalance now u req s).1 = none) :
    0 ≤ (storage.PostgresStorage.GetBalance u
          (balanceService.WithdrawBalance now u req s).2).1.1 :=
  nonnegative_after_withdraw s now u req h

/-- C13 at a withdrawal of the whole balance, 300 of 300: the balance is 0 after it. -/
theorem WithdrawBalance_nonnegative_witness :
    (balanceService.WithdrawBalance 40 1 ⟨ascii "2377225624", 300⟩ storage.accrued).1 = none ∧
    0 ≤ (storage.PostgresStorage.GetBalance 1
          (balanceService.WithdrawBalance 40 1 ⟨ascii "2377225624", 300⟩ storage.accrued).2).1.1 ∧
    (storage.PostgresStorage.GetBalance 1
          (balanceService.WithdrawBalance 40 1 ⟨ascii "2377225624", 300⟩ storage.accrued).2).1.1
      = 0 :=
  ⟨by
      rw [balance.WithdrawBalance_cases balanceService 40 1 _ storage.accrued storage.accrued
        _ _ (balance.GetBalance_shape 1 storage.accrued)]
      norm_num [storage.PostgresStorage.GetBalance, storage.accrued, balanceService,
        balance.NewService, storage.withdrawalRepository,
        storage.PostgresStorage.CreateWithdrawal],
    WithdrawBalance_nonnegative storage.accrued 40 1 ⟨ascii "2377225624", 300⟩ (by
      rw [balance.WithdrawBalance_cases balanceService 40 1 _ storage.accrued storage.accrued
        _ _ (balance.GetBalance_shape 1 storage.accrued)]
      norm_num [storage.PostgresStorage.GetBalance, storage.accrued, balanceService,
        balance.NewService, storage.withdrawalRepository,
        storage.PostgresStorage.CreateWithdrawal]),
    by
      rw [balance.WithdrawBalance_cases balanceService 40 1 _ storage.accrued storage.accrued
        _ _ (balance.GetBalance_shape 1 storage.accrued)]
      norm_num [storage.PostgresStorage.GetBalance, storage.accrued, balanceService,
        balance.NewService, storage.withdrawalRepository,
        storage.PostgresStorage.CreateWithdrawal]⟩

/-! ## Two withdrawals at the same time -/

/-- The two steps of a call, taken one right after the other, are the call. -/
theorem withdrawStep_twice {σ : Type} (s : balance.Service σ) (c : balance.Withdraw) (st : σ) :
    s.withdrawStep c (s.withdrawStep c .start st).1 (s.withdrawStep c .start st).2 =
      (.returned (s.WithdrawBalance c.now c.userID c.req st).1,
        (s.WithdrawBalance c.now c.userID c.req st).2) := by
  rcases hg : s.b.GetBalance c.userID st with ⟨⟨current, withdrawn, e⟩, st1⟩
  cases e with
  | some err => simp [balance.Service.withdrawStep, balance.Service.WithdrawBalance, hg]
  | none =>
    by_cases hs : c.req.Sum > current
    · simp [balance.Service.withdrawStep, balance.Service.WithdrawBalance, hg, hs]
    · simp [balance.Service.withdrawStep, balance.Service.WithdrawBalance, hg, hs]

/-- C14, as stated: nothing serializes the two calls.  With a balance of 100 and
two requests of 80 by user 1, the interleaving in which both calls query the
balance before either inserts lets both pass the funds check: both return nil,
both withdrawals are recorded, and the current balance is -60. -/
theorem interleaved_withdrawals_overdraw :
    balance.interleave balanceService ⟨40, 1, ⟨ascii "2377225624", 80⟩⟩
        ⟨41, 1, ⟨ascii "2377225624", 80⟩⟩ [true, false, true, false]
        ((.start, .start), storage.hundred) =
      ((.returned none, .returned none),
        { storage.hundred with
          withdrawals := [⟨1, 1, ascii "2377225624", 80, 40⟩,
                          ⟨2, 1, ascii "2377225624", 80, 41⟩] }) ∧
    (storage.PostgresStorage.GetBalance 1
        (balance.interleave balanceService ⟨40, 1, ⟨ascii "2377225624", 80⟩⟩
          ⟨41, 1, ⟨ascii "2377225624", 80⟩⟩ [true, false, true, false]
          ((.start, .start), storage.hundred)).2).1.1 = -60 ∧
    ¬ (0 ≤ (storage.PostgresStorage.GetBalance 1
        (balance.interleave balanceService ⟨40, 1, ⟨ascii "2377225624", 80⟩⟩
          ⟨41, 1, ⟨ascii "2377225624", 80⟩⟩ [true, false, true, false]
          ((.start, .start), storage.hundred)).2).1.1) := by
  have h : balance.interleave balanceService ⟨40, 1, ⟨ascii "2377225624", 80⟩⟩
        ⟨41, 1, ⟨ascii "2377225624", 80⟩⟩ [true, false, true, false]
        ((.start, .start), storage.hundred) =
      ((.returned none, .returned none),
        { storage.hundred with
          withdrawals := [⟨1, 1, ascii "2377225624", 80, 40⟩,
                          ⟨2, 1, ascii "2377225624", 80, 41⟩] }) := by
    norm_num [balance.interleave, balance.Service.withdrawStep, balanceService,
      balance.NewService, storage.balanceRepository, storage.withdrawalRepository,
      storage.PostgresStorage.GetBalance, storage.PostgresStorage.CreateWithdrawal,
      storage.hundred]
  rw [h]
  refine ⟨rfl, ?_, ?_⟩ <;>
    norm_num [storage.PostgresStorage.GetBalance, storage.hundred]

/-- A schedule that runs both steps of `a` and then both steps of `b` is the two
calls one after the other. -/
theorem interleave_serial {σ : Type} (s : balance.Service σ) (a b : balance.Withdraw) (st : σ) :
    balance.interleave s a b [true, true, false, false] ((.start, .start), st) =
      ((.returned (s.WithdrawBalance a.now a.userID a.req st).1,
        .returned (s.WithdrawBalance b.now b.userID b.req
          (s.WithdrawBalance a.now a.userID a.req st).2).1),
        (s.WithdrawBalance b.now b.userID b.req
          (s.WithdrawBalance a.now a.userID a.req st).2).2) := by
  simp only [balance.interleave, withdrawStep_twice]

/-- A schedule that runs both steps of `b` and then both steps of `a`. -/
theorem interleave_serial_rev {σ : Type} (s : balance.Service σ) (a b : balance.Withdraw)
    (st : σ) :
    balance.interleave s a b [false, false, true, true] ((.start, .start), st) =
      ((.returned (s.WithdrawBalance a.now a.userID a.req
          (s.WithdrawBalance b.now b.userID b.req st).2).1,
        .returned (s.WithdrawBalance b.now b.userID b.req st).1),
        (s.WithdrawBalance a.now a.userID a.req
          (s.WithdrawBalance b.now b.userID b.req st).2).2) := by
  simp only [balance.interleave, withdrawStep_twice]

/-- The balance that `GetBalanceWith` computes without rounding. -/
theorem GetBalanceWith_of_exactBalance (add sub : ℚ → ℚ → ℚ) (u : Int)
    (s : storage.PostgresStorage) (h : storage.exactBalance add sub u s = true) :
    storage.PostgresStorage.GetBalanceWith add sub u s =
      (((s.orders.map (storage.contribution u)).sum -
          (s.withdrawals.map (storage.withdrawnBy u)).sum,
        (s.withdrawals.map (storage.withdrawnBy u)).sum, none), s) := by
  simp only [storage.exactBalance, Bool.and_eq_true, decide_eq_true_eq] at h
  exact GetBalanceWith_of_exact add sub u s h.1.1 h.1.2 h.2

/-- Operations that never round compute every balance without rounding. -/
theorem exactBalance_of_exact (add sub : ℚ → ℚ → ℚ) (hadd : ∀ x y, add x y = x + y)
    (hsub : ∀ x y, sub x y = x - y) (u : Int) (s : storage.PostgresStorage) :
    storage.exactBalance add sub u s = true := by
  simp only [storage.exactBalance, Bool.and_eq_true, decide_eq_true_eq]
  exact ⟨⟨exactSum_of_exact add hadd _, exactSum_of_exact add hadd _⟩, hsub _ _⟩

/-- After a `Service.WithdrawBalance` that returned nil, when neither the balance
the call read nor the balance recomputed from the tables after it is rounded,
the balance recomputed from the tables is not negative. -/
theorem nonnegative_after_withdrawWith (add sub : ℚ → ℚ → ℚ) (s : storage.PostgresStorage)
    (now : Nat) (u : Int) (req : balance.WithdrawRequest)
    (h : ((balanceServiceWith add sub).WithdrawBalance now u req s).1 = none)
    (hread : storage.exactBalance add sub u s = true)
    (hafter : storage.exactBalance add sub u
      ((balanceServiceWith add sub).WithdrawBalance now u req s).2 = true) :
    0 ≤ (storage.PostgresStorage.GetBalanceWith add sub u
          ((balanceServiceWith add sub).WithdrawBalance now u req s).2).1.1 := by
  have hg : (balanceServiceWith add sub).b.GetBalance u s =
      (((s.orders.map (storage.contribution u)).sum -
          (s.withdrawals.map (storage.withdrawnBy u)).sum,
        (s.withdrawals.map (storage.withdrawnBy u)).sum, none), s) :=
    GetBalanceWith_of_exactBalance add sub u s hread
  rw [balance.WithdrawBalance_cases (balanceServiceWith add sub) now u req s s _ _ hg]
    at h hafter ⊢
  by_cases hs : req.Sum > (s.orders.map (storage.contribution u)).sum -
      (s.withdrawals.map (storage.withdrawnBy u)).sum
  · rw [if_pos hs] at h
    simp at h
  · rw [if_neg hs] at hafter ⊢
    have hle := not_lt.mp hs
    rw [GetBalanceWith_of_exactBalance add sub u _ hafter]
    simp only [balanceServiceWith, balance.NewService, storage.withdrawalRepository,
      storage.PostgresStorage.CreateWithdrawal, List.map_append, List.sum_append,
      List.map_cons, List.map_nil, List.sum_cons, List.sum_nil, add_zero,
      storage.withdrawnBy, if_true]
    linarith

/-- Serialized calls and rounding.  The accrual is the float64 nearest to 0.11
and two calls of user 1, one after the other, ask for the float64 values nearest
to 0.04 and to 0.07.  With operations that return what float64 arithmetic
returns on these values (0.11 - 0.04 is a tie and rounds to the float64 nearest
to 0.07, 0.04 + 0.07 is a tie and rounds up to one unit above the accrual), both
calls return nil and the current balance after both is -2^-56. -/
theorem serialized_withdrawals_rounding (add sub : ℚ → ℚ → ℚ)
    (h0 : sub (7926335344172073 / 2 ^ 56) 0 = 7926335344172073 / 2 ^ 56)
    (h1 : sub (7926335344172073 / 2 ^ 56) (5764607523034235 / 2 ^ 57) =
      1261007895663739 / 2 ^ 54)
    (h2 : add (5764607523034235 / 2 ^ 57) (1261007895663739 / 2 ^ 54) =
      3963167672086037 / 2 ^ 55)
    (h3 : sub (7926335344172073 / 2 ^ 56) (3963167672086037 / 2 ^ 55) = -(1 / 2 ^ 56)) :
    balance.interleave (balanceServiceWith add sub)
        ⟨40, 1, ⟨ascii "2377225624", 5764607523034235 / 2 ^ 57⟩⟩
        ⟨41, 1, ⟨ascii "2377225624", 1261007895663739 / 2 ^ 54⟩⟩
        [true, true, false, false] ((.start, .start), storage.cents) =
      ((.returned none, .returned none),
        { storage.cents with
          withdrawals := [⟨1, 1, ascii "2377225624", 5764607523034235 / 2 ^ 57, 40⟩,
                          ⟨2, 1, ascii "2377225624", 1261007895663739 / 2 ^ 54, 41⟩] }) ∧
    (storage.PostgresStorage.GetBalanceWith add sub 1
        { storage.cents with
          withdrawals := [⟨1, 1, ascii "2377225624", 5764607523034235 / 2 ^ 57, 40⟩,
                          ⟨2, 1, ascii "2377225624", 1261007895663739 / 2 ^ 54, 41⟩] }).1.1 =
      -(1 / 2 ^ 56) ∧
    (7926335344172073 / 2 ^ 56 : ℚ) - 5764607523034235 / 2 ^ 57 =
      1261007895663739 / 2 ^ 54 - 1 / 2 ^ 57 ∧
    (5764607523034235 / 2 ^ 57 : ℚ) + 1261007895663739 / 2 ^ 54 =
      3963167672086037 / 2 ^ 55 - 1 / 2 ^ 57 := by
  have hg0 : (balanceServiceWith add sub).b.GetBalance 1 storage.cents =
      ((7926335344172073 / 2 ^ 56, 0, none), storage.cents) := by
    simp only [balanceServiceWith, balance.NewService, storage.balanceRepositoryWith,
      storage.PostgresStorage.GetBalanceWith, storage.accruals, storage.amounts,
      storage.cents, List.filter, List.filterMap, List.map, storage.sumWith, List.foldl,
      decide_True, true_and, and_self, or_false, or_true, h0]
  have hA : (balanceServiceWith add sub).WithdrawBalance 40 1
      ⟨ascii "2377225624", 5764607523034235 / 2 ^ 57⟩ storage.cents =
      (none, { storage.cents with
        withdrawals := [⟨1, 1, ascii "2377225624", 5764607523034235 / 2 ^ 57, 40⟩] }) := by
    rw [balance.WithdrawBalance_cases _ 40 1 _ storage.cents storage.cents _ _ hg0,
      if_neg (by norm_num)]
    simp [balanceServiceWith, balance.NewService, storage.withdrawalRepository,
      storage.PostgresStorage.CreateWithdrawal, storage.cents]
  have hg1 : (balanceServiceWith add sub).b.GetBalance 1
      { storage.cents with
        withdrawals := [⟨1, 1, ascii "2377225624", 5764607523034235 / 2 ^ 57, 40⟩] } =
      ((1261007895663739 / 2 ^ 54, 5764607523034235 / 2 ^ 57, none),
        { storage.cents with
          withdrawals := [⟨1, 1, ascii "2377225624", 5764607523034235 / 2 ^ 57, 40⟩] }) := by
    simp only [balanceServiceWith, balance.NewService, storage.balanceRepositoryWith,
      storage.PostgresStorage.GetBalanceWith, storage.accruals, storage.amounts,
      storage.cents, List.filter, List.filterMap, List.map, storage.sumWith, List.foldl,
      decide_True, true_and, and_self, or_false, or_true, h1]
  have hB : (balanceServiceWith add sub).WithdrawBalance 41 1
      ⟨ascii "2377225624", 1261007895663739 / 2 ^ 54⟩
      { storage.cents with
        withdrawals := [⟨1, 1, ascii "2377225624", 5764607523034235 / 2 ^ 57, 40⟩] } =
      (none, { storage.cents with
        withdrawals := [⟨1, 1, ascii "2377225624", 5764607523034235 / 2 ^ 57, 40⟩,
                        ⟨2, 1, ascii "2377225624", 1261007895663739 / 2 ^ 54, 41⟩] }) := by
    rw [balance.WithdrawBalance_cases _ 41 1 _ _ _ _ _ hg1, if_neg (by norm_num)]
    simp [balanceServiceWith, balance.NewService, storage.withdrawalRepository,
      storage.PostgresStorage.CreateWithdrawal, storage.cents]
  refine ⟨?_, ?_, by norm_num, by norm_num⟩
  · rw [interleave_serial]
    simp only [hA, hB]
  · simp only [storage.PostgresStorage.GetBalanceWith, storage.accruals, storage.amounts,
      storage.cents, List.filter, List.filterMap, List.map, storage.sumWith, List.foldl,
      decide_True, true_and, and_self, or_false, or_true, h2, h3]

/-- C14, amended: `Service.WithdrawBalance` reads the balance and inserts the
withdrawal in two separate repository calls, with no transaction or lock around
them, so nothing in the code serializes two calls.  When two calls of the same
user do run serialized, that is, the balance query, the funds check and the
insert of one call all come before those of the other, the run is the two calls
one after the other, whatever the floating-point operations; and when then both
calls return nil and neither the balance that the later call reads nor the
balance after both is rounded (none of the additions of the two sums and not the
subtraction rounds, as with exact arithmetic), the current balance of the user
after both is greater than or equal to 0, for every content of the tables. -/
theorem serialized_withdrawals_nonnegative (add sub : ℚ → ℚ → ℚ)
    (s : storage.PostgresStorage) (a b : balance.Withdraw) (hu : a.userID = b.userID)
    (schedule : List Bool)
    (hsched : schedule = [true, true, false, false] ∨ schedule = [false, false, true, true])
    (hret : (balance.interleave (balanceServiceWith add sub) a b schedule
        ((.start, .start), s)).1 = (.returned none, .returned none))
    (hread : storage.exactBalance add sub a.userID
      (balance.interleave (balanceServiceWith add sub) a b (schedule.take 2)
        ((.start, .start), s)).2 = true)
    (hafter : storage.exactBalance add sub a.userID
      (balance.interleave (balanceServiceWith add sub) a b schedule
        ((.start, .start), s)).2 = true) :
    0 ≤ (storage.PostgresStorage.GetBalanceWith add sub a.userID
          (balance.interleave (balanceServiceWith add sub) a b schedule
            ((.start, .start), s)).2).1.1 ∧
    (∀ add2 sub2 : ℚ → ℚ → ℚ,
      balance.interleave (balanceServiceWith add2 sub2) a b [true, true, false, false]
          ((.start, .start), s) =
        ((.returned ((balanceServiceWith add2 sub2).WithdrawBalance a.now a.userID a.req s).1,
          .returned ((balanceServiceWith add2 sub2).WithdrawBalance b.now b.userID b.req
            ((balanceServiceWith add2 sub2).WithdrawBalance a.now a.userID a.req s).2).1),
          ((balanceServiceWith add2 sub2).WithdrawBalance b.now b.userID b.req
            ((balanceServiceWith add2 sub2).WithdrawBalance a.now a.userID a.req s).2).2) ∧
      balance.interleave (balanceServiceWith add2 sub2) a b [false, false, true, true]
          ((.start, .start), s) =
        ((.returned ((balanceServiceWith add2 sub2).WithdrawBalance a.now a.userID a.req
            ((balanceServiceWith add2 sub2).WithdrawBalance b.now b.userID b.req s).2).1,
          .returned ((balanceServiceWith add2 sub2).WithdrawBalance b.now b.userID b.req s).1),
          ((balanceServiceWith add2 sub2).WithdrawBalance a.now a.userID a.req
            ((balanceServiceWith add2 sub2).WithdrawBalance b.now b.userID b.req s).2).2)) ∧
    (∀ (u : Int) (t : storage.PostgresStorage),
      storage.exactBalance (fun x y => x + y) (fun x y => x - y) u t = true) := by
  refine ⟨?_, fun add2 sub2 => ⟨interleave_serial _ a b s, interleave_serial_rev _ a b s⟩,
    exactBalance_of_exact _ _ (fun _ _ => rfl) (fun _ _ => rfl)⟩
  obtain ⟨nowA, userA, reqA⟩ := a
  obtain ⟨nowB, userB, reqB⟩ := b
  simp only at hu
  subst hu
  rcases hsched with rfl | rfl
  · simp only [List.take, balance.interleave, withdrawStep_twice] at hread
    rw [interleave_serial] at hret hafter ⊢
    simp only [Prod.mk.injEq, balance.Progress.returned.injEq] at hret
    exact nonnegative_after_withdrawWith add sub _ nowB userA reqB hret.2 hread hafter
  · simp only [List.take, balance.interleave, withdrawStep_twice] at hread
    rw [interleave_serial_rev] at hret hafter ⊢
    simp only [Prod.mk.injEq, balance.Progress.returned.injEq] at hret
    exact nonnegative_after_withdrawWith add sub _ nowA userA reqA hret.1 hread hafter

/-- The amended C14 with a balance of 100 and requests of 80 and 20 by user 1,
one call after the other, with an addition and a subtraction that are exact on
integers and round every other result down to an integer: both calls return nil,
no balance computed is rounded, and the balance after both is 0 and so not
negative. -/
theorem serialized_withdrawals_nonnegative_witness :
    balance.interleave
        (balanceServiceWith (fun x y => ((⌊x + y⌋ : ℤ) : ℚ)) (fun x y => ((⌊x - y⌋ : ℤ) : ℚ)))
        ⟨40, 1, ⟨ascii "2377225624", 80⟩⟩ ⟨41, 1, ⟨ascii "2377225624", 20⟩⟩
        [true, true, false, false] ((.start, .start), storage.hundred) =
      ((.returned none, .returned none),
        { storage.hundred with
          withdrawals := [⟨1, 1, ascii "2377225624", 80, 40⟩,
                          ⟨2, 1, ascii "2377225624", 20, 41⟩] }) ∧
    0 ≤ (storage.PostgresStorage.GetBalanceWith (fun x y => ((⌊x + y⌋ : ℤ) : ℚ))
          (fun x y => ((⌊x - y⌋ : ℤ) : ℚ)) 1
          (balance.interleave
            (balanceServiceWith (fun x y => ((⌊x + y⌋ : ℤ) : ℚ))
              (fun x y => ((⌊x - y⌋ : ℤ) : ℚ)))
            ⟨40, 1, ⟨ascii "2377225624", 80⟩⟩ ⟨41, 1, ⟨ascii "2377225624", 20⟩⟩
            [true, true, false, false] ((.start, .start), storage.hundred)).2).1.1 :=
  have h4 : balance.interleave
        (balanceServiceWith (fun x y => ((⌊x + y⌋ : ℤ) : ℚ)) (fun x y => ((⌊x - y⌋ : ℤ) : ℚ)))
        ⟨40, 1, ⟨ascii "2377225624", 80⟩⟩ ⟨41, 1, ⟨ascii "2377225624", 20⟩⟩
        [true, true, false, false] ((.start, .start), storage.hundred) =
      ((.returned none, .returned none),
        { storage.hundred with
          withdrawals := [⟨1, 1, ascii "2377225624", 80, 40⟩,
                          ⟨2, 1, ascii "2377225624", 20, 41⟩] }) := by
    norm_num [balance.interleave, balance.Service.withdrawStep, balanceServiceWith,
      balance.NewService, storage.balanceRepositoryWith, storage.withdrawalRepository,
      storage.PostgresStorage.GetBalanceWith, storage.PostgresStorage.CreateWithdrawal,
      storage.accruals, storage.amounts, storage.sumWith, storage.hundred, List.filterMap_cons]
  have h2 : balance.interleave
        (balanceServiceWith (fun x y => ((⌊x + y⌋ : ℤ) : ℚ)) (fun x y => ((⌊x - y⌋ : ℤ) : ℚ)))
        ⟨40, 1, ⟨ascii "2377225624", 80⟩⟩ ⟨41, 1, ⟨ascii "2377225624", 20⟩⟩
        (List.take 2 [true, true, false, false]) ((.start, .start), storage.hundred) =
      ((.returned none, .start),
        { storage.hundred with withdrawals := [⟨1, 1, ascii "2377225624", 80, 40⟩] }) := by
    norm_num [balance.interleave, balance.Service.withdrawStep, balanceServiceWith,
      balance.NewService, storage.balanceRepositoryWith, storage.withdrawalRepository,
      storage.PostgresStorage.GetBalanceWith, storage.PostgresStorage.CreateWithdrawal,
      storage.accruals, storage.amounts, storage.sumWith, storage.hundred, List.filterMap_cons]
  ⟨h4,
    (serialized_withdrawals_nonnegative (fun x y => ((⌊x + y⌋ : ℤ) : ℚ))
      (fun x y => ((⌊x - y⌋ : ℤ) : ℚ)) storage.hundred
      ⟨40, 1, ⟨ascii "2377225624", 80⟩⟩ ⟨41, 1, ⟨ascii "2377225624", 20⟩⟩ rfl
      [true, true, false, false] (Or.inl rfl) (by rw [h4])
      (by
        rw [h2]
        norm_num [storage.exactBalance, storage.exactSum, storage.exactFrom, storage.accruals,
          storage.amounts, storage.sumWith, storage.hundred, List.filterMap_cons])
      (by
        rw [h4]
        norm_num [storage.exactBalance, storage.exactSum, storage.exactFrom, storage.accruals,
          storage.amounts, storage.sumWith, storage.hundred, List.filterMap_cons])).1⟩

/-! ## Updates from the accrual service -/

namespace order

/-- C16: for every number, status and accrual, `Service.UpdateFromAccrual` makes
exactly one repository call, `UpdateOrderUpdate`, with the number, status and
accrual it was given and with a processedAt that is present, and then the clock
value, if and only if status is "PROCESSED" or "INVALID"; it returns what that
call returns.  For "PROCESSING" the processedAt passed is absent, for
"PROCESSED", the input of `TestUpdateFromAccrualProcessed`, it is present. -/
theorem UpdateFromAccrual_passes {σ : Type} (repo : OrderRepository σ) (now : Nat)
    (number : GoString) (status : String) (accrual : Option ℚ) (st : σ) (log : List Call) :
    (∃ processedAt : Option Nat,
      (NewService (spy repo)).UpdateFromAccrual now number status accrual (st, log) =
        ((repo.UpdateOrderUpdate number status accrual processedAt st).1,
          ((repo.UpdateOrderUpdate number status accrual processedAt st).2,
            log ++ [.UpdateOrderUpdate number status accrual processedAt])) ∧
      (processedAt ≠ none ↔ status = "PROCESSED" ∨ status = "INVALID") ∧
      (∀ t, processedAt = some t → t = now)) ∧
    ((NewService (spy (brokenRepo .ErrNoRows none))).UpdateFromAccrual 5 (ascii "order1")
        "PROCESSING" (some 7) ((), [])).2.2 =
      [.UpdateOrderUpdate (ascii "order1") "PROCESSING" (some 7) none] ∧
    ((NewService (spy (brokenRepo .ErrNoRows none))).UpdateFromAccrual 5 (ascii "order1")
        "PROCESSED" none ((), [])).2.2 =
      [.UpdateOrderUpdate (ascii "order1") "PROCESSED" none (some 5)] ∧
    ((NewService (spy (brokenRepo .ErrNoRows none))).UpdateFromAccrual 5 (ascii "order1")
        "INVALID" none ((), [])).2.2 =
      [.UpdateOrderUpdate (ascii "order1") "INVALID" none (some 5)] := by
  refine ⟨?_, by decide, by decide, by decide⟩
  by_cases h : status = "PROCESSED" ∨ status = "INVALID"
  · refine ⟨some now, ?_, by simp [h], by simp⟩
    simp [Service.UpdateFromAccrual, NewService, spy, h]
  · refine ⟨none, ?_, by simp [h], by simp⟩
    simp [Service.UpdateFromAccrual, NewService, spy, h]

end order

/-- Two `UpdateOrderUpdate` of the same number in a row: the second one decides
the status, the accrual and processedAt of the rows with that number. -/
theorem UpdateOrderUpdate_twice (number : GoString) (status : String) (accrual : Option ℚ)
    (p1 p2 : Option Nat) (s : storage.PostgresStorage) :
    (storage.PostgresStorage.UpdateOrderUpdate number status accrual p2
        (storage.PostgresStorage.UpdateOrderUpdate number status accrual p1 s).2).2 =
      (storage.PostgresStorage.UpdateOrderUpdate number status accrual p2 s).2 := by
  simp only [storage.PostgresStorage.UpdateOrderUpdate, List.map_map]
  congr 1
  apply List.map_congr_left
  intro r _
  by_cases h : r.Number = number <;> simp [h]

/-- The columns of a row other than processedAt. -/
theorem UpdateOrderUpdate_columns (number : GoString) (status : String) (accrual : Option ℚ)
    (p1 p2 : Option Nat) (s : storage.PostgresStorage) :
    (storage.PostgresStorage.UpdateOrderUpdate number status accrual p2 s).2.orders.map
        (fun o => (o.ID, o.UserID, o.Number, o.Status, o.AccrualAmount, o.UploadedAt)) =
      (storage.PostgresStorage.UpdateOrderUpdate number status accrual p1 s).2.orders.map
        (fun o => (o.ID, o.UserID, o.Number, o.Status, o.AccrualAmount, o.UploadedAt)) := by
  simp only [storage.PostgresStorage.UpdateOrderUpdate, List.map_map]
  apply List.map_congr_left
  intro r _
  by_cases h : r.Number = number <;> simp [h]

/-- C17, as stated: "79927398713" is updated to PROCESSED with accrual 42 when
the clock reads 20 and again when it reads 30.  After the first update the row
has processedAt 20, after the second it has processedAt 30: the row is not the
one a single application left. -/
theorem UpdateFromAccrual_twice_differs :
    (orderService.UpdateFromAccrual 20 (ascii "79927398713") "PROCESSED" (some 42)
        storage.oneOrder).2.orders =
      [⟨1, 1, ascii "79927398713", "PROCESSED", some 42, 10, some 20⟩] ∧
    (orderService.UpdateFromAccrual 30 (ascii "79927398713") "PROCESSED" (some 42)
        (orderService.UpdateFromAccrual 20 (ascii "79927398713") "PROCESSED" (some 42)
          storage.oneOrder).2).2.orders =
      [⟨1, 1, ascii "79927398713", "PROCESSED", some 42, 10, some 30⟩] ∧
    (orderService.UpdateFromAccrual 30 (ascii "79927398713") "PROCESSED" (some 42)
        (orderService.UpdateFromAccrual 20 (ascii "79927398713") "PROCESSED" (some 42)
          storage.oneOrder).2).2 ≠
      (orderService.UpdateFromAccrual 20 (ascii "79927398713") "PROCESSED" (some 42)
        storage.oneOrder).2 := by
  decide

/-- C17, amended: for every order number, status and accrual and every content
of the tables, applying `Service.UpdateFromAccrual` twice in sequence leaves the
tables as a single application made at the time of the second call leaves them;
the status and the accrual amount of every row, and every column other than
processedAt, are as after the first application; and when the status is neither
"PROCESSED" nor "INVALID", or the clock reads the same at both calls, processedAt
is too, so the tables are identical to those after one application. -/
theorem UpdateFromAccrual_twice (s : storage.PostgresStorage) (number : GoString)
    (status : String) (accrual : Option ℚ) (now1 now2 : Nat) :
    (orderService.UpdateFromAccrual now2 number status accrual
        (orderService.UpdateFromAccrual now1 number status accrual s).2).2 =
      (orderService.UpdateFromAccrual now2 number status accrual s).2 ∧
    (orderService.UpdateFromAccrual now2 number status accrual
        (orderService.UpdateFromAccrual now1 number status accrual s).2).2.orders.map
        (fun o => (o.ID, o.UserID, o.Number, o.Status, o.AccrualAmount, o.UploadedAt)) =
      (orderService.UpdateFromAccrual now1 number status accrual s).2.orders.map
        (fun o => (o.ID, o.UserID, o.Number, o.Status, o.AccrualAmount, o.UploadedAt)) ∧
    ((¬ (status = "PROCESSED" ∨ status = "INVALID") ∨ now1 = now2) →
      (orderService.UpdateFromAccrual now2 number status accrual
          (orderService.UpdateFromAccrual now1 number status accrual s).2).2 =
        (orderService.UpdateFromAccrual now1 number status accrual s).2) := by
  have hdef : ∀ (now : Nat) (t : storage.PostgresStorage),
      orderService.UpdateFromAccrual now number status accrual t =
        storage.PostgresStorage.UpdateOrderUpdate number status accrual
          (if status = "PROCESSED" ∨ status = "INVALID" then some now else none) t := by
    intro now t
    rfl
  have h1 : (orderService.UpdateFromAccrual now2 number status accrual
        (orderService.UpdateFromAccrual now1 number status accrual s).2).2 =
      (orderService.UpdateFromAccrual now2 number status accrual s).2 := by
    rw [hdef, hdef, hdef, UpdateOrderUpdate_twice]
  refine ⟨h1, ?_, ?_⟩
  · rw [h1, hdef, hdef]
    exact UpdateOrderUpdate_columns _ _ _ _ _ _
  · intro h
    rw [h1, hdef, hdef]
    rcases h with h | h
    · rw [if_neg h, if_neg h]
    · rw [h]

/-- The amended C17 on the table that holds "79927398713": two updates to
PROCESSING with accrual 42, at clock values 20 and 30, leave the tables as one
update does. -/
theorem UpdateFromAccrual_twice_witness :
    (orderService.UpdateFromAccrual 30 (ascii "79927398713") "PROCESSING" (some 42)
        (orderService.UpdateFromAccrual 20 (ascii "79927398713") "PROCESSING" (some 42)
          storage.oneOrder).2).2 =
      (orderService.UpdateFromAccrual 20 (ascii "79927398713") "PROCESSING" (some 42)
        storage.oneOrder).2 ∧
    (orderService.UpdateFromAccrual 20 (ascii "79927398713") "PROCESSING" (some 42)
        storage.oneOrder).2.orders =
      [⟨1, 1, ascii "79927398713", "PROCESSING", some 42, 10, none⟩] :=
  ⟨(UpdateFromAccrual_twice storage.oneOrder (ascii "79927398713") "PROCESSING" (some 42)
      20 30).2.2 (Or.inl (by decide)), by decide⟩

/-! ## The worker loop -/

namespace order

/-- A round whose `GetOrder` returns an error makes no update and goes on. -/
theorem workerLoop_skip_error {σ : Type} (c : AccrualClient σ) (u : Updater σ)
    (number : GoString) (jobs : List GoString) (st st1 : σ) (log : List WorkerCall)
    (r : Option AccrualResponse) (err : GoError)
    (hg : c.GetOrder number st = ((r, some err), st1)) :
    workerLoop (spyClient c) (spyUpdater u) (number :: jobs) (st, log) =
      workerLoop (spyClient c) (spyUpdater u) jobs (st1, log ++ [.GetOrder number]) := by
  simp [workerLoop, spyClient, hg]

/-- A round whose `GetOrder` returns neither a response nor an error makes no
update and goes on. -/
theorem workerLoop_skip_nil {σ : Type} (c : AccrualClient σ) (u : Updater σ)
    (number : GoString) (jobs : List GoString) (st st1 : σ) (log : List WorkerCall)
    (hg : c.GetOrder number st = ((none, none), st1)) :
    workerLoop (spyClient c) (spyUpdater u) (number :: jobs) (st, log) =
      workerLoop (spyClient c) (spyUpdater u) jobs (st1, log ++ [.GetOrder number]) := by
  simp [workerLoop, spyClient, hg]

/-- A round whose response has an empty order field makes no update and goes on. -/
theorem workerLoop_skip_empty {σ : Type} (c : AccrualClient σ) (u : Updater σ)
    (number : GoString) (jobs : List GoString) (st st1 : σ) (log : List WorkerCall)
    (ar : AccrualResponse)
    (hg : c.GetOrder number st = ((some ar, none), st1)) (he : ar.Order = []) :
    workerLoop (spyClient c) (spyUpdater u) (number :: jobs) (st, log) =
      workerLoop (spyClient c) (spyUpdater u) jobs (st1, log ++ [.GetOrder number]) := by
  simp [workerLoop, spyClient, hg, he]

/-- A round whose response has an order field makes one update, with the fields
of the response, and goes on whatever the update returns. -/
theorem workerLoop_update {σ : Type} (c : AccrualClient σ) (u : Updater σ)
    (number : GoString) (jobs : List GoString) (st st1 : σ) (log : List WorkerCall)
    (ar : AccrualResponse)
    (hg : c.GetOrder number st = ((some ar, none), st1)) (hne : ar.Order ≠ []) :
    workerLoop (spyClient c) (spyUpdater u) (number :: jobs) (st, log) =
      workerLoop (spyClient c) (spyUpdater u) jobs
        ((u.UpdateFromAccrual ar.Order ar.Status ar.Accrual st1).2,
          log ++ [.GetOrder number, .UpdateFromAccrual ar.Order ar.Status ar.Accrual]) := by
  simp [workerLoop, spyClient, spyUpdater, hg, hne]

/-- C18: when the exchange for an order comes to a response with status 404,
`HTTPAccrualClient.GetOrder` returns neither a response nor an error, and the
round of `workerLoop` for that order calls `GetOrder` only: it makes no
`UpdateFromAccrual` call and goes on with the rest of the queue. -/
theorem workerLoop_not_found {σ : Type} (c : HTTPAccrualClient σ) (u : Updater σ)
    (number : GoString) (jobs : List GoString) (st st1 : σ) (log : List WorkerCall)
    (decoded : Except GoError AccrualResponse)
    (hx : c.Client (c.AccrualAddress ++ ascii "/api/orders/" ++ number) st =
      (.response 404 decoded, st1)) :
    c.GetOrder number st = ((none, none), st1) ∧
    workerLoop (spyClient c.client) (spyUpdater u) (number :: jobs) (st, log) =
      workerLoop (spyClient c.client) (spyUpdater u) jobs (st1, log ++ [.GetOrder number]) ∧
    workerLoop (spyClient c.client) (spyUpdater u) [number] (st, log) =
      (st1, log ++ [.GetOrder number]) := by
  have hg : c.GetOrder number st = ((none, none), st1) := by
    simp only [HTTPAccrualClient.GetOrder, hx]
    rfl
  have hstep := fun jobs =>
    workerLoop_skip_nil c.client u number jobs st st1 log hg
  refine ⟨hg, hstep jobs, ?_⟩
  rw [hstep []]
  rfl

/-- C18 on the table that holds "79927398713" as NEW, with the service as the
updater: after a 404 the table is as it was, so the status and the accrual of
the order are unchanged, and the only call logged is `GetOrder`. -/
theorem workerLoop_not_found_witness :
    (answering (.response 404 (.error (.other "EOF"))) :
        HTTPAccrualClient storage.PostgresStorage).GetOrder (ascii "79927398713")
        storage.oneOrder = ((none, none), storage.oneOrder) ∧
    workerLoop
        (spyClient (answering (.response 404 (.error (.other "EOF")))).client)
        (spyUpdater (orderService.updater 50)) [ascii "79927398713"] (storage.oneOrder, []) =
      (storage.oneOrder, [] ++ [.GetOrder (ascii "79927398713")]) :=
  ⟨(workerLoop_not_found (answering (.response 404 (.error (.other "EOF"))))
      (orderService.updater 50) (ascii "79927398713") [] storage.oneOrder storage.oneOrder []
      (.error (.other "EOF")) rfl).1,
    (workerLoop_not_found (answering (.response 404 (.error (.other "EOF"))))
      (orderService.updater 50) (ascii "79927398713") [] storage.oneOrder storage.oneOrder []
      (.error (.other "EOF")) rfl).2.2⟩

/-- C19: when the exchange for an order fails before a response arrives
(building or sending the request), or comes to a response whose status is
neither 200 nor 404 (429 included), or to a 200 whose body fails to decode,
`HTTPAccrualClient.GetOrder` returns an error and no response, and the round of
`workerLoop` for that order calls `GetOrder` only: it makes no
`UpdateFromAccrual` call and goes on with the next queued number. -/
theorem workerLoop_oracle_error {σ : Type} (c : HTTPAccrualClient σ) (u : Updater σ)
    (number : GoString) (jobs : List GoString) (st st1 : σ) (log : List WorkerCall)
    (x : Exchange)
    (hx : c.Client (c.AccrualAddress ++ ascii "/api/orders/" ++ number) st = (x, st1))
    (hbad : (∃ err, x = .requestFailed err) ∨ (∃ err, x = .doFailed err) ∨
      (∃ code decoded, x = .response code decoded ∧ code ≠ 200 ∧ code ≠ 404) ∨
      (∃ err, x = .response 200 (.error err))) :
    (∃ err, c.GetOrder number st = ((none, some err), st1)) ∧
    workerLoop (spyClient c.client) (spyUpdater u) (number :: jobs) (st, log) =
      workerLoop (spyClient c.client) (spyUpdater u) jobs (st1, log ++ [.GetOrder number]) := by
  have hg : ∃ err, c.GetOrder number st = ((none, some err), st1) := by
    rcases hbad with ⟨err, rfl⟩ | ⟨err, rfl⟩ | ⟨code, decoded, rfl, h200, h404⟩ | ⟨err, rfl⟩
    · exact ⟨.other ("create request: " ++ err.Error),
        by simp only [HTTPAccrualClient.GetOrder, hx]⟩
    · exact ⟨.other ("do request: " ++ err.Error),
        by simp only [HTTPAccrualClient.GetOrder, hx]⟩
    · by_cases h429 : code = 429
      · exact ⟨.other ("too many requests (429) for order " ++ text number),
          by simp only [HTTPAccrualClient.GetOrder, hx, if_neg h200, if_pos h429]⟩
      · exact ⟨.other ("unexpected status: " ++ toString code),
          by simp only [HTTPAccrualClient.GetOrder, hx, if_neg h200, if_neg h429, if_neg h404]⟩
    · exact ⟨.other ("decode body: " ++ err.Error),
        by simp only [HTTPAccrualClient.GetOrder, hx, if_true]⟩
  obtain ⟨err, hg⟩ := hg
  exact ⟨⟨err, hg⟩, workerLoop_skip_error c.client u number jobs st st1 log none err hg⟩

/-- C19 at a 429 for "54321" followed in the queue by "79927398713": the first
round logs its `GetOrder` only and the loop goes on to the second number; the
same for a 500, a 200 with a broken body and a connection error, where the
table is left as it was. -/
theorem workerLoop_oracle_error_witness :
    workerLoop
        (spyClient (answering (.response 429 (.error (.other "EOF")))).client)
        (spyUpdater (orderService.updater 50)) [ascii "54321", ascii "79927398713"]
        (storage.oneOrder, []) =
      workerLoop
        (spyClient (answering (.response 429 (.error (.other "EOF")))).client)
        (spyUpdater (orderService.updater 50)) [ascii "79927398713"]
        (storage.oneOrder, [] ++ [.GetOrder (ascii "54321")]) ∧
    workerLoop
        (spyClient (answering (.response 500 (.error (.other "EOF")))).client)
        (spyUpdater (orderService.updater 50)) [ascii "54321"] (storage.oneOrder, []) =
      (storage.oneOrder, [.GetOrder (ascii "54321")]) ∧
    workerLoop
        (spyClient (answering (.response 200 (.error (.other "unexpected EOF")))).client)
        (spyUpdater (orderService.updater 50)) [ascii "54321"] (storage.oneOrder, []) =
      (storage.oneOrder, [.GetOrder (ascii "54321")]) ∧
    workerLoop
        (spyClient (answering (.doFailed (.other "connection error"))).client)
        (spyUpdater (orderService.updater 50)) [ascii "54321"] (storage.oneOrder, []) =
      (storage.oneOrder, [.GetOrder (ascii "54321")]) :=
  ⟨(workerLoop_oracle_error (answering (.response 429 (.error (.other "EOF"))))
      (orderService.updater 50) (ascii "54321") [ascii "79927398713"] storage.oneOrder
      storage.oneOrder [] _ rfl (Or.inr (Or.inr (Or.inl ⟨429, _, rfl, by decide, by decide⟩)))).2,
    (workerLoop_oracle_error (answering (.response 500 (.error (.other "EOF"))))
      (orderService.updater 50) (ascii "54321") [] storage.oneOrder
      storage.oneOrder [] _ rfl (Or.inr (Or.inr (Or.inl ⟨500, _, rfl, by decide, by decide⟩)))).2,
    (workerLoop_oracle_error (answering (.response 200 (.error (.other "unexpected EOF"))))
      (orderService.updater 50) (ascii "54321") [] storage.oneOrder
      storage.oneOrder [] _ rfl (Or.inr (Or.inr (Or.inr ⟨_, rfl⟩)))).2,
    (workerLoop_oracle_error (answering (.doFailed (.other "connection error")))
      (orderService.updater 50) (ascii "54321") [] storage.oneOrder
      storage.oneOrder [] _ rfl (Or.inr (Or.inl ⟨_, rfl⟩))).2⟩

/-- C20, as stated: the worker dequeues "12345" and the client returns a
PROCESSED response with accrual 100 whose order field is "67890".  The one
`UpdateFromAccrual` call goes to "67890", the order field of the response, not
to the dequeued number. -/
theorem workerLoop_uses_response_order :
    (workerLoop mockClient mockUpdater [ascii "12345"]
        (⟨[], [(ascii "12345", some ⟨ascii "67890", "PROCESSED", some 100⟩)], []⟩,
          ⟨[], none, "", none⟩)).2 =
      ⟨[ascii "67890"], none, "PROCESSED", some 100⟩ ∧
    (workerLoop mockClient mockUpdater [ascii "12345"]
        (⟨[], [(ascii "12345", some ⟨ascii "67890", "PROCESSED", some 100⟩)], []⟩,
          ⟨[], none, "", none⟩)).2.updatedOrders ≠ [ascii "12345"] ∧
    (workerLoop (spyClient mockClient) (spyUpdater mockUpdater) [ascii "12345"]
        ((⟨[], [(ascii "12345", some ⟨ascii "67890", "PROCESSED", some 100⟩)], []⟩,
          ⟨[], none, "", none⟩), [])).2 =
      [.GetOrder (ascii "12345"), .UpdateFromAccrual (ascii "67890") "PROCESSED" (some 100)] := by
  decide

/-- C20, amended: for every order number that `workerLoop` dequeues and for
which the client returns a response without error, the round calls
`UpdateFromAccrual` exactly once when the order field of the response is not
empty, with that order field and with the status and accrual of the response,
and goes on whatever the update returns; the number passed is the dequeued one
when the response carries it.  When the order field is empty the round makes no
update. -/
theorem workerLoop_definitive_response {σ : Type} (c : AccrualClient σ) (u : Updater σ)
    (number : GoString) (jobs : List GoString) (st st1 : σ) (log : List WorkerCall)
    (ar : AccrualResponse)
    (hg : c.GetOrder number st = ((some ar, none), st1)) :
    (ar.Order ≠ [] →
      workerLoop (spyClient c) (spyUpdater u) (number :: jobs) (st, log) =
        workerLoop (spyClient c) (spyUpdater u) jobs
          ((u.UpdateFromAccrual ar.Order ar.Status ar.Accrual st1).2,
            log ++ [.GetOrder number, .UpdateFromAccrual ar.Order ar.Status ar.Accrual])) ∧
    (ar.Order = number → number ≠ [] →
      workerLoop (spyClient c) (spyUpdater u) (number :: jobs) (st, log) =
        workerLoop (spyClient c) (spyUpdater u) jobs
          ((u.UpdateFromAccrual number ar.Status ar.Accrual st1).2,
            log ++ [.GetOrder number, .UpdateFromAccrual number ar.Status ar.Accrual])) ∧
    (ar.Order = [] →
      workerLoop (spyClient c) (spyUpdater u) (number :: jobs) (st, log) =
        workerLoop (spyClient c) (spyUpdater u) jobs (st1, log ++ [.GetOrder number])) := by
  refine ⟨?_, ?_, ?_⟩
  · intro hne
    exact workerLoop_update c u number jobs st st1 log ar hg hne
  · intro heq hne
    have hne2 : ar.Order ≠ [] := by rw [heq]; exact hne
    have key := workerLoop_update c u number jobs st st1 log ar hg hne2
    rw [heq] at key
    exact key
  · intro he
    exact workerLoop_skip_empty c u number jobs st st1 log ar hg he

/-- The amended C20 at the input of `TestWorkerLoop_Success`: number "12345",
response PROCESSED with accrual 100 for "12345"; and at the input of
`TestWorkerLoop_ResponseWithoutOrder`, where no update is made. -/
theorem workerLoop_definitive_response_witness :
    workerLoop (spyClient mockClient) (spyUpdater mockUpdater) [ascii "12345"]
        ((⟨[], [(ascii "12345", some ⟨ascii "12345", "PROCESSED", some 100⟩)], []⟩,
          ⟨[], none, "", none⟩), []) =
      ((⟨[ascii "12345"], [(ascii "12345", some ⟨ascii "12345", "PROCESSED", some 100⟩)], []⟩,
          ⟨[ascii "12345"], none, "PROCESSED", some 100⟩),
        [.GetOrder (ascii "12345"),
          .UpdateFromAccrual (ascii "12345") "PROCESSED" (some 100)]) ∧
    workerLoop (spyClient mockClient) (spyUpdater mockUpdater) [ascii "88888"]
        ((⟨[], [(ascii "88888", some ⟨ascii "", "PROCESSING", none⟩)], []⟩,
          ⟨[], none, "", none⟩), []) =
      ((⟨[ascii "88888"], [(ascii "88888", some ⟨ascii "", "PROCESSING", none⟩)], []⟩,
          ⟨[], none, "", none⟩),
        [.GetOrder (ascii "88888")]) :=
  ⟨(workerLoop_definitive_response mockClient mockUpdater (ascii "12345") []
      (⟨[], [(ascii "12345", some ⟨ascii "12345", "PROCESSED", some 100⟩)], []⟩,
        ⟨[], none, "", none⟩)
      (⟨[ascii "12345"], [(ascii "12345", some ⟨ascii "12345", "PROCESSED", some 100⟩)], []⟩,
        ⟨[], none, "", none⟩) [] ⟨ascii "12345", "PROCESSED", some 100⟩ (by decide)).2.1
      (by decide) (by decide),
    (workerLoop_definitive_response mockClient mockUpdater (ascii "88888") []
      (⟨[], [(ascii "88888", some ⟨ascii "", "PROCESSING", none⟩)], []⟩,
        ⟨[], none, "", none⟩)
      (⟨[ascii "88888"], [(ascii "88888", some ⟨ascii "", "PROCESSING", none⟩)], []⟩,
        ⟨[], none, "", none⟩) [] ⟨ascii "", "PROCESSING", none⟩ (by decide)).2.2
      (by decide)⟩

end order

/-! ## The dispatcher -/

namespace order

/-- The loop of a tick buffers the numbers of the first orders of the list, as
many as there are free slots, behind what the channel already holds. -/
theorem enqueue_eq (orders : List Order) :
    ∀ j : Jobs, j.buf.length ≤ j.cap →
      enqueue orders j =
        { j with buf := j.buf ++
            (orders.take (j.cap - j.buf.length)).map (fun o => o.Number) } := by
  induction orders with
  | nil => intro j _; simp [enqueue]
  | cons o orders ih =>
    intro j h
    by_cases hroom : j.buf.length < j.cap
    · have hj : (j.trySend o.Number).buf.length ≤ (j.trySend o.Number).cap := by
        simp only [Jobs.trySend, if_pos hroom, List.length_append, List.length_singleton]
        omega
      rw [enqueue, ih _ hj]
      simp only [Jobs.trySend, if_pos hroom, List.length_append, List.length_singleton]
      obtain ⟨k, hk⟩ : ∃ k, j.cap - j.buf.length = k + 1 := ⟨j.cap - j.buf.length - 1, by omega⟩
      have hk2 : j.cap - (j.buf.length + 1) = k := by omega
      rw [hk, hk2]
      simp
    · have hfull : j.cap - j.buf.length = 0 := by omega
      have hsame : j.trySend o.Number = j := by simp [Jobs.trySend, hroom]
      rw [enqueue, hsame, ih j h, hfull]
      simp

/-- A tick whose listing succeeds, behind a logging repository. -/
theorem tick_ok {σ : Type} (repo : OrderRepository σ) (j : Jobs) (st st1 : σ)
    (log : List Call) (orders : List Order)
    (hl : repo.ListOrdersForPolling st = ((orders, none), st1)) (hcap : j.buf.length ≤ j.cap) :
    tick (NewService (spy repo)) j (st, log) =
      ({ j with buf := j.buf ++
          (orders.take (j.cap - j.buf.length)).map (fun o => o.Number) },
        (st1, log ++ [.ListOrdersForPolling])) := by
  by_cases hn : orders.length = 0
  · have : orders = [] := List.length_eq_zero.mp hn
    subst this
    simp [tick, Service.ListForPolling, NewService, spy, hl]
  · simp only [tick, Service.ListForPolling, NewService, spy, hl, hn, if_false]
    rw [enqueue_eq orders j hcap]

/-- C21: in one tick during which no worker receives, when the listing returns
`orders` (oldest first) without error and the channel has `cap - len` free
slots, the tick buffers exactly the numbers of the first min(free, n) orders,
in list order, behind the numbers already buffered, which stay in place; the
other orders are skipped, and the only repository call of the tick is the
listing: no update is made. -/
theorem tick_enqueues_first {σ : Type} (repo : OrderRepository σ) (j : Jobs) (st st1 : σ)
    (log : List Call) (orders : List Order)
    (hl : repo.ListOrdersForPolling st = ((orders, none), st1)) (hcap : j.buf.length ≤ j.cap) :
    tick (NewService (spy repo)) j (st, log) =
      ({ j with buf := j.buf ++
          (orders.take (j.cap - j.buf.length)).map (fun o => o.Number) },
        (st1, log ++ [.ListOrdersForPolling])) ∧
    ((orders.take (j.cap - j.buf.length)).map (fun o => o.Number)).length =
      min (j.cap - j.buf.length) orders.length :=
  ⟨tick_ok repo j st st1 log orders hl hcap, by simp⟩

/-- C21 with capacity 3, an empty channel and ten eligible orders: the numbers
buffered are those of the three orders uploaded first (at 10, 20 and 30). -/
theorem tick_enqueues_first_witness :
    ((storage.PostgresStorage.ListOrdersForPolling storage.tenOrders).1.1.map
        (fun o => (o.Number, o.UploadedAt))) =
      [(ascii "11486", 10), (ascii "10744", 20), (ascii "12229", 30), (ascii "12963", 40),
        (ascii "10371", 50), (ascii "13706", 60), (ascii "11858", 70), (ascii "13334", 80),
        (ascii "11114", 90), (ascii "12591", 100)] ∧
    tick (NewService (spy storage.orderRepository)) ⟨[], 3, false⟩ (storage.tenOrders, []) =
      (⟨[ascii "11486", ascii "10744", ascii "12229"], 3, false⟩,
        (storage.tenOrders, [.ListOrdersForPolling])) :=
  ⟨by decide,
    (tick_enqueues_first storage.orderRepository ⟨[], 3, false⟩ storage.tenOrders
      storage.tenOrders [] _ rfl (by decide)).1⟩

/-- C25: when the listing of a tick returns an error, the tick buffers nothing
and leaves the channel as it was, open if it was open; the loop does not return
and goes on to the next round; and when the failed listing left the repository
as it was, the rounds that follow run exactly as if the failed tick had not
happened. -/
theorem tick_listing_error {σ : Type} (repo : OrderRepository σ) (j : Jobs) (st st1 : σ)
    (log : List Call) (orders : List Order) (err : GoError) (rounds : List Select)
    (hl : repo.ListOrdersForPolling st = ((orders, some err), st1)) :
    tick (NewService (spy repo)) j (st, log) = (j, (st1, log ++ [.ListOrdersForPolling])) ∧
    DispatcherLoop (NewService (spy repo)) [.tick] (j, (st, log)) =
      ((j, (st1, log ++ [.ListOrdersForPolling])), false) ∧
    DispatcherLoop (NewService (spy repo)) (.tick :: rounds) (j, (st, log)) =
      DispatcherLoop (NewService (spy repo)) rounds (j, (st1, log ++ [.ListOrdersForPolling])) ∧
    (st1 = st →
      DispatcherLoop (NewService repo) (.tick :: rounds) (j, st) =
        DispatcherLoop (NewService repo) rounds (j, st)) := by
  have ht : tick (NewService (spy repo)) j (st, log) =
      (j, (st1, log ++ [.ListOrdersForPolling])) := by
    simp [tick, Service.ListForPolling, NewService, spy, hl]
  have hb : tick (NewService repo) j st = (j, st1) := by
    simp [tick, Service.ListForPolling, NewService, hl]
  refine ⟨ht, ?_, ?_, ?_⟩
  · simp only [DispatcherLoop, ht]
  · simp only [DispatcherLoop, ht]
  · intro hst
    simp only [DispatcherLoop, hb, hst]

/-- C25 with a repository that is down, a channel that holds one number and a
tick on the ten orders after the failed one: the failed tick changes nothing and
the next tick buffers the two oldest orders behind the number already there. -/
theorem tick_listing_error_witness :
    tick (NewService (spy (downRepo (.other "db down")))) ⟨[ascii "79927398713"], 3, false⟩
        (storage.tenOrders, []) =
      (⟨[ascii "79927398713"], 3, false⟩, (storage.tenOrders, [] ++ [.ListOrdersForPolling])) ∧
    DispatcherLoop (NewService (downRepo (.other "db down"))) [.tick, .tick]
        (⟨[ascii "79927398713"], 3, false⟩, storage.tenOrders) =
      DispatcherLoop (NewService (downRepo (.other "db down"))) [.tick]
        (⟨[ascii "79927398713"], 3, false⟩, storage.tenOrders) ∧
    DispatcherLoop orderService [.tick]
        (⟨[ascii "79927398713"], 3, false⟩, storage.tenOrders) =
      ((⟨[ascii "79927398713", ascii "11486", ascii "10744"], 3, false⟩, storage.tenOrders),
        false) :=
  ⟨(tick_listing_error (downRepo (.other "db down")) ⟨[ascii "79927398713"], 3, false⟩
      storage.tenOrders storage.tenOrders [] [] (.other "db down") [.tick] rfl).1,
    (tick_listing_error (downRepo (.other "db down")) ⟨[ascii "79927398713"], 3, false⟩
      storage.tenOrders storage.tenOrders [] [] (.other "db down") [.tick] rfl).2.2.2 rfl,
    by decide⟩

end order

/-! ## Statuses written by the update path -/

/-- C22: the accrual service answers 200 with status REGISTERED, a status its
contract permits, for the NEW order "79927398713".  The worker hands the status
to `UpdateFromAccrual` as it is, the row is stored with status "REGISTERED",
which is none of NEW, PROCESSING, PROCESSED and INVALID, and the order is gone
from the polling list. -/
theorem workerLoop_stores_registered :
    order.workerLoop
        (order.answering
          (.response 200 (.ok ⟨ascii "79927398713", "REGISTERED", none⟩))).client
        (orderService.updater 50) [ascii "79927398713"] storage.oneOrder =
      { orders := [{ ID := 1, UserID := 1, Number := ascii "79927398713",
                     Status := "REGISTERED", AccrualAmount := none, UploadedAt := 10,
                     ProcessedAt := none }],
        withdrawals := [] } ∧
    "REGISTERED" ∉
      [order.StatusNew, order.StatusProcessing, order.StatusProcessed, order.StatusInvalid] ∧
    (storage.PostgresStorage.ListOrdersForPolling storage.oneOrder).1.1.map
        (fun o => o.Number) = [ascii "79927398713"] ∧
    (storage.PostgresStorage.ListOrdersForPolling
        (order.workerLoop
          (order.answering
            (.response 200 (.ok ⟨ascii "79927398713", "REGISTERED", none⟩))).client
          (orderService.updater 50) [ascii "79927398713"] storage.oneOrder)).1.1 = [] := by
  decide

/-- C23, as stated: the order "79927398713" is PROCESSED, with accrual 500 and
processedAt 20.  A later `UpdateFromAccrual` with status PROCESSING and no
accrual rewrites the row: status PROCESSING, no accrual, no processedAt. -/
theorem UpdateFromAccrual_rewrites_terminal :
    (storage.processed.orders.map
        (fun o => (o.Status, o.AccrualAmount, o.ProcessedAt))) =
      [("PROCESSED", some 500, some 20)] ∧
    ((orderService.UpdateFromAccrual 60 (ascii "79927398713") "PROCESSING" none
        storage.processed).2.orders.map
        (fun o => (o.Status, o.AccrualAmount, o.ProcessedAt))) =
      [("PROCESSING", none, none)] ∧
    (orderService.UpdateFromAccrual 60 (ascii "79927398713") "PROCESSING" none
        storage.processed).2 ≠ storage.processed := by
  decide

/-- The numbers a tick adds to the channel are numbers of listed orders. -/
theorem enqueue_mem (orders : List order.Order) :
    ∀ (j : order.Jobs) (n : GoString), n ∈ (order.enqueue orders j).buf →
      n ∈ j.buf ∨ ∃ o ∈ orders, o.Number = n := by
  induction orders with
  | nil => intro j n h; exact Or.inl (by simpa [order.enqueue] using h)
  | cons o orders ih =>
    intro j n h
    rw [order.enqueue] at h
    rcases ih _ n h with h1 | ⟨o2, ho2, hn⟩
    · by_cases hroom : j.buf.length < j.cap
      · simp only [order.Jobs.trySend, if_pos hroom, List.mem_append,
          List.mem_singleton] at h1
        rcases h1 with h1 | h1
        · exact Or.inl h1
        · exact Or.inr ⟨o, List.mem_cons_self _ _, h1.symm⟩
      · simp only [order.Jobs.trySend, if_neg hroom] at h1
        exact Or.inl h1
    · exact Or.inr ⟨o2, List.mem_cons_of_mem _ ho2, hn⟩

/-- The numbers a tick passes to blocked workers or adds to the buffer are
numbers of listed orders. -/
theorem offer_mem (orders : List order.Order) :
    ∀ (c : order.Channel) (n : GoString),
      n ∈ (order.offer orders c).handed ++ (order.offer orders c).jobs.buf →
        n ∈ c.handed ++ c.jobs.buf ∨ ∃ o ∈ orders, o.Number = n := by
  induction orders with
  | nil => intro c n h; exact Or.inl (by simpa [order.offer] using h)
  | cons o orders ih =>
    intro c n h
    rw [order.offer] at h
    rcases ih _ n h with h1 | ⟨o2, ho2, hn⟩
    · by_cases hp : c.parked > 0
      · simp only [order.Channel.trySend, if_pos hp, List.mem_append,
          List.mem_singleton] at h1
        rcases h1 with (h1 | h1) | h1
        · exact Or.inl (List.mem_append.mpr (Or.inl h1))
        · exact Or.inr ⟨o, List.mem_cons_self _ _, h1.symm⟩
        · exact Or.inl (List.mem_append.mpr (Or.inr h1))
      · simp only [order.Channel.trySend, if_neg hp, List.mem_append] at h1
        rcases h1 with h1 | h1
        · exact Or.inl (List.mem_append.mpr (Or.inl h1))
        · by_cases hroom : c.jobs.buf.length < c.jobs.cap
          · simp only [order.Jobs.trySend, if_pos hroom, List.mem_append,
              List.mem_singleton] at h1
            rcases h1 with h1 | h1
            · exact Or.inl (List.mem_append.mpr (Or.inr h1))
            · exact Or.inr ⟨o, List.mem_cons_self _ _, h1.symm⟩
          · simp only [order.Jobs.trySend, if_neg hroom] at h1
            exact Or.inl (List.mem_append.mpr (Or.inr h1))
    · exact Or.inr ⟨o2, List.mem_cons_of_mem _ ho2, hn⟩

/-- The orders of the polling list are rows in status NEW or PROCESSING. -/
theorem polling_list_rows (s : storage.PostgresStorage) (o : order.Order)
    (h : o ∈ (storage.PostgresStorage.ListOrdersForPolling s).1.1) :
    ∃ r ∈ s.orders, r.Number = o.Number ∧ r.Status = o.Status ∧
      (r.Status = "NEW" ∨ r.Status = "PROCESSING") := by
  simp only [storage.PostgresStorage.ListOrdersForPolling, List.mem_map] at h
  obtain ⟨r, hr, rfl⟩ := h
  rw [List.mem_insertionSort, List.mem_filter] at hr
  exact ⟨r, hr.1, rfl, rfl, by simpa using hr.2⟩

/-- C23, amended: the update path has no guard on the status a row has.  For
every content of the tables, `UpdateFromAccrual` for a number assigns the given
status and accrual, and the processedAt that goes with the status, to every row
with that number, whatever status the row had, PROCESSED and INVALID included,
and leaves every row with another number as it was.  The one place where the
status of a row is looked at is the listing: every order
`ListOrdersForPolling` returns has status NEW or PROCESSING at the time of the
listing, so every number a tick adds to the channel, or passes to a worker
blocked in a receive, is the number of a row that was NEW or PROCESSING when the
tick listed it. -/
theorem update_path_has_no_status_guard (s : storage.PostgresStorage) :
    (∀ (now : Nat) (number : GoString) (status : String) (accrual : Option ℚ) (r : order.Order),
      r ∈ s.orders → r.Number = number →
        { r with Status := status, AccrualAmount := accrual,
                 ProcessedAt := if status = "PROCESSED" ∨ status = "INVALID" then some now
                                else none } ∈
          (orderService.UpdateFromAccrual now number status accrual s).2.orders) ∧
    (∀ (now : Nat) (number : GoString) (status : String) (accrual : Option ℚ) (r : order.Order),
      r ∈ s.orders → r.Number ≠ number →
        r ∈ (orderService.UpdateFromAccrual now number status accrual s).2.orders) ∧
    (∀ o ∈ (storage.PostgresStorage.ListOrdersForPolling s).1.1,
      o.Status = "NEW" ∨ o.Status = "PROCESSING") ∧
    (∀ (j : order.Jobs) (n : GoString), n ∈ (order.tick orderService j s).1.buf →
      n ∈ j.buf ∨
        ∃ r ∈ s.orders, r.Number = n ∧ (r.Status = "NEW" ∨ r.Status = "PROCESSING")) ∧
    (∀ (c : order.Channel) (n : GoString),
      n ∈ (order.tickParked orderService c s).1.handed ++
          (order.tickParked orderService c s).1.jobs.buf →
        n ∈ c.handed ++ c.jobs.buf ∨
          ∃ r ∈ s.orders, r.Number = n ∧ (r.Status = "NEW" ∨ r.Status = "PROCESSING")) := by
  have hdef : ∀ (now : Nat) (number : GoString) (status : String) (accrual : Option ℚ),
      (orderService.UpdateFromAccrual now number status accrual s).2 =
        (storage.PostgresStorage.UpdateOrderUpdate number status accrual
          (if status = "PROCESSED" ∨ status = "INVALID" then some now else none) s).2 :=
    fun _ _ _ _ => rfl
  refine ⟨?_, ?_, ?_, ?_, ?_⟩
  · intro now number status accrual r hr heq
    rw [hdef]
    simp only [storage.PostgresStorage.UpdateOrderUpdate, List.mem_map]
    exact ⟨r, hr, by simp [heq]⟩
  · intro now number status accrual r hr hne
    rw [hdef]
    simp only [storage.PostgresStorage.UpdateOrderUpdate, List.mem_map]
    exact ⟨r, hr, by simp [hne]⟩
  · intro o ho
    obtain ⟨r, _, _, hs, hr⟩ := polling_list_rows s o ho
    rw [← hs]
    exact hr
  · intro j n hn
    have htick : order.tick orderService j s =
        (if (storage.PostgresStorage.ListOrdersForPolling s).1.1.length = 0 then (j, s)
         else (order.enqueue (storage.PostgresStorage.ListOrdersForPolling s).1.1 j, s)) := rfl
    rw [htick] at hn
    by_cases h0 : (storage.PostgresStorage.ListOrdersForPolling s).1.1.length = 0
    · rw [if_pos h0] at hn
      exact Or.inl hn
    · rw [if_neg h0] at hn
      rcases enqueue_mem _ j n hn with h1 | ⟨o, ho, hon⟩
      · exact Or.inl h1
      · obtain ⟨r, hr, hrn, _, hrs⟩ := polling_list_rows s o ho
        exact Or.inr ⟨r, hr, hrn.trans hon, hrs⟩
  · intro c n hn
    have htick : order.tickParked orderService c s =
        (if (storage.PostgresStorage.ListOrdersForPolling s).1.1.length = 0 then (c, s)
         else (order.offer (storage.PostgresStorage.ListOrdersForPolling s).1.1 c, s)) := rfl
    rw [htick] at hn
    by_cases h0 : (storage.PostgresStorage.ListOrdersForPolling s).1.1.length = 0
    · rw [if_pos h0] at hn
      exact Or.inl hn
    · rw [if_neg h0] at hn
      rcases offer_mem _ c n hn with h1 | ⟨o, ho, hon⟩
      · exact Or.inl h1
      · obtain ⟨r, hr, hrn, _, hrs⟩ := polling_list_rows s o ho
        exact Or.inr ⟨r, hr, hrn.trans hon, hrs⟩

/-- The amended C23 on the table whose only order is PROCESSED with accrual 500:
an update to INVALID at clock value 60 puts the row with status INVALID, no
accrual and processedAt 60 in the table; the polling list of that table is
empty and a tick adds nothing to the channel. -/
theorem update_path_has_no_status_guard_witness :
    order.Order.mk 1 1 (ascii "79927398713") "PROCESSED" (some 500) 10 (some 20) ∈
      storage.processed.orders ∧
    order.Order.mk 1 1 (ascii "79927398713") "INVALID" none 10 (some 60) ∈
      (orderService.UpdateFromAccrual 60 (ascii "79927398713") "INVALID" none
        storage.processed).2.orders ∧
    (storage.PostgresStorage.ListOrdersForPolling storage.processed).1.1 = [] ∧
    (order.tick orderService ⟨[], 3, false⟩ storage.processed).1.buf = [] ∧
    (ascii "11486" ∈ ([] : List GoString) ∨
      ∃ r ∈ storage.tenOrders.orders, r.Number = ascii "11486" ∧
        (r.Status = "NEW" ∨ r.Status = "PROCESSING")) :=
  ⟨by decide,
    (update_path_has_no_status_guard storage.processed).1 60 (ascii "79927398713") "INVALID"
      none (order.Order.mk 1 1 (ascii "79927398713") "PROCESSED" (some 500) 10 (some 20))
      (by decide) rfl,
    by decide, by decide,
    (update_path_has_no_status_guard storage.tenOrders).2.2.2.1 ⟨[], 3, false⟩ (ascii "11486")
      (by decide)⟩

/-! ## Termination of the worker loop -/

namespace order

/-- The numbers queried in a log that is the concatenation of two. -/
theorem queried_append (l1 l2 : List WorkerCall) :
    queried (l1 ++ l2) = queried l1 ++ queried l2 := by
  induction l1 with
  | nil => rfl
  | cons a l1 ih => cases a <;> simp [queried, ih]

/-- The updates in a log that is the concatenation of two. -/
theorem updated_append (l1 l2 : List WorkerCall) :
    updated (l1 ++ l2) = updated l1 ++ updated l2 := by
  induction l1 with
  | nil => rfl
  | cons a l1 ih => cases a <;> simp [updated, ih]

/-- On a closed channel the loop returns within one round more than there are
numbers, with the state the list recursion computes. -/
theorem workerRounds_closed {σ : Type} (c : AccrualClient σ) (u : Updater σ)
    (jobs : List GoString) :
    ∀ (rounds : Nat) (st : σ), jobs.length < rounds →
      workerRounds c u rounds jobs true st = some (workerLoop c u jobs st) := by
  induction jobs with
  | nil =>
    intro rounds st h
    cases rounds with
    | zero => simp at h
    | succ n => rfl
  | cons number jobs ih =>
    intro rounds st h
    cases rounds with
    | zero => simp at h
    | succ n =>
      have hn : jobs.length < n := by simpa using h
      rcases hg : c.GetOrder number st with ⟨⟨r, e⟩, st1⟩
      cases e with
      | some err => simp [workerRounds, workerLoop, hg, ih n _ hn]
      | none =>
        cases r with
        | none => simp [workerRounds, workerLoop, hg, ih n _ hn]
        | some ar =>
          by_cases he : ar.Order = []
          · simp [workerRounds, workerLoop, hg, he, ih n _ hn]
          · simp [workerRounds, workerLoop, hg, he, ih n _ hn]

/-- The loop calls `GetOrder` once for each number, in the order of the queue. -/
theorem workerLoop_queried {σ : Type} (c : AccrualClient σ) (u : Updater σ)
    (jobs : List GoString) :
    ∀ (st : σ) (log : List WorkerCall),
      queried (workerLoop (spyClient c) (spyUpdater u) jobs (st, log)).2 =
        queried log ++ jobs := by
  induction jobs with
  | nil => intro st log; simp [workerLoop]
  | cons number jobs ih =>
    intro st log
    rcases hg : c.GetOrder number st with ⟨⟨r, e⟩, st1⟩
    cases e with
    | some err =>
      rw [workerLoop_skip_error c u number jobs st st1 log r err hg, ih, queried_append]
      simp [queried]
    | none =>
      cases r with
      | none =>
        rw [workerLoop_skip_nil c u number jobs st st1 log hg, ih, queried_append]
        simp [queried]
      | some ar =>
        by_cases he : ar.Order = []
        · rw [workerLoop_skip_empty c u number jobs st st1 log ar hg he, ih, queried_append]
          simp [queried]
        · rw [workerLoop_update c u number jobs st st1 log ar hg he, ih, queried_append]
          simp [queried]

/-- The loop makes at most one update for each number of the queue. -/
theorem workerLoop_updated_le {σ : Type} (c : AccrualClient σ) (u : Updater σ)
    (jobs : List GoString) :
    ∀ (st : σ) (log : List WorkerCall),
      (updated (workerLoop (spyClient c) (spyUpdater u) jobs (st, log)).2).length ≤
        (updated log).length + jobs.length := by
  induction jobs with
  | nil => intro st log; simp [workerLoop]
  | cons number jobs ih =>
    intro st log
    rcases hg : c.GetOrder number st with ⟨⟨r, e⟩, st1⟩
    cases e with
    | some err =>
      rw [workerLoop_skip_error c u number jobs st st1 log r err hg]
      refine (ih _ _).trans ?_
      simp [updated_append, updated]
    | none =>
      cases r with
      | none =>
        rw [workerLoop_skip_nil c u number jobs st st1 log hg]
        refine (ih _ _).trans ?_
        simp [updated_append, updated]
      | some ar =>
        by_cases he : ar.Order = []
        · rw [workerLoop_skip_empty c u number jobs st st1 log ar hg he]
          refine (ih _ _).trans ?_
          simp [updated_append, updated]
        · rw [workerLoop_update c u number jobs st st1 log ar hg he]
          refine (ih _ _).trans ?_
          simp [updated_append, updated]
          omega

/-- With a client that answers by a fixed function, the updates the loop makes
are those of the numbers whose answer carries a response with an order field,
in the order of the queue, whatever the updater returns. -/
theorem workerLoop_updated_fixed {σ : Type}
    (answer : GoString → Option AccrualResponse × error) (u : Updater σ)
    (jobs : List GoString) :
    ∀ (st : σ) (log : List WorkerCall),
      updated (workerLoop (spyClient (fixedClient answer)) (spyUpdater u) jobs (st, log)).2 =
        updated log ++ jobs.filterMap (fun n => updateOf (answer n)) := by
  induction jobs with
  | nil => intro st log; simp [workerLoop]
  | cons number jobs ih =>
    intro st log
    have hfix : (fixedClient answer : AccrualClient σ).GetOrder number st =
        (answer number, st) := rfl
    rcases ha : answer number with ⟨r, e⟩
    rw [ha] at hfix
    cases e with
    | some err =>
      rw [workerLoop_skip_error _ u number jobs st st log r err hfix, ih, updated_append]
      simp [updated, List.filterMap_cons, ha, updateOf]
    | none =>
      cases r with
      | none =>
        rw [workerLoop_skip_nil _ u number jobs st st log hfix, ih, updated_append]
        simp [updated, List.filterMap_cons, ha, updateOf]
      | some ar =>
        by_cases he : ar.Order = []
        · rw [workerLoop_skip_empty _ u number jobs st st log ar hfix he, ih, updated_append]
          simp [updated, List.filterMap_cons, ha, updateOf, he]
        · rw [workerLoop_update _ u number jobs st st log ar hfix he, ih, updated_append]
          simp [updated, List.filterMap_cons, ha, updateOf, he]

/-- C24: for every finite list of numbers in a closed channel and a context
that is not cancelled, `workerLoop` returns, within one round more than there
are numbers, whatever the client and the updater return; it has then called
`GetOrder` exactly once for each number, in the order of the queue, and made at
most one update for each number; and when the client answers by a function of
the number, the updates are exactly those of the numbers whose answer is a
response without error that has an order field, once each and in queue order,
also when the updater returns errors: a failed update is not tried again. -/
theorem workerLoop_terminates {σ : Type} (c : AccrualClient σ) (u : Updater σ)
    (jobs : List GoString) (rounds : Nat) (st : σ) (log : List WorkerCall)
    (hr : jobs.length < rounds) :
    workerRounds (spyClient c) (spyUpdater u) rounds jobs true (st, log) =
      some (workerLoop (spyClient c) (spyUpdater u) jobs (st, log)) ∧
    queried (workerLoop (spyClient c) (spyUpdater u) jobs (st, log)).2 = queried log ++ jobs ∧
    (updated (workerLoop (spyClient c) (spyUpdater u) jobs (st, log)).2).length ≤
      (updated log).length + jobs.length ∧
    (∀ answer : GoString → Option AccrualResponse × error,
      updated (workerLoop (spyClient (fixedClient answer)) (spyUpdater u) jobs (st, log)).2 =
        updated log ++ jobs.filterMap (fun n => updateOf (answer n))) :=
  ⟨workerRounds_closed _ _ jobs rounds (st, log) hr, workerLoop_queried c u jobs st log,
    workerLoop_updated_le c u jobs st log,
    fun answer => workerLoop_updated_fixed answer u jobs st log⟩

/-- C24 on a closed channel that holds "22222", "88888", "54321" and "22222"
again, with the mocks of the tests: INVALID for "22222", a response without
order for "88888", a connection error for "54321", and an updater that fails
with "db error".  The loop returns within five rounds, has queried the four
numbers in order and has updated "22222" twice, once for each time it was
queued, and nothing else. -/
theorem workerLoop_terminates_witness :
    workerRounds (spyClient mockClient) (spyUpdater mockUpdater) 5
        [ascii "22222", ascii "88888", ascii "54321", ascii "22222"] true
        ((⟨[], [(ascii "22222", some ⟨ascii "22222", "INVALID", none⟩),
                (ascii "88888", some ⟨ascii "", "PROCESSING", none⟩)],
            [(ascii "54321", .other "connection error")]⟩,
          ⟨[], some (.other "db error"), "", none⟩), []) =
      some
        ((⟨[ascii "22222", ascii "88888", ascii "54321", ascii "22222"],
            [(ascii "22222", some ⟨ascii "22222", "INVALID", none⟩),
              (ascii "88888", some ⟨ascii "", "PROCESSING", none⟩)],
            [(ascii "54321", .other "connection error")]⟩,
          ⟨[ascii "22222", ascii "22222"], some (.other "db error"), "INVALID", none⟩),
        [.GetOrder (ascii "22222"), .UpdateFromAccrual (ascii "22222") "INVALID" none,
          .GetOrder (ascii "88888"), .GetOrder (ascii "54321"),
          .GetOrder (ascii "22222"), .UpdateFromAccrual (ascii "22222") "INVALID" none]) :=
  ((workerLoop_terminates mockClient mockUpdater
      [ascii "22222", ascii "88888", ascii "54321", ascii "22222"] 5
      (⟨[], [(ascii "22222", some ⟨ascii "22222", "INVALID", none⟩),
              (ascii "88888", some ⟨ascii "", "PROCESSING", none⟩)],
          [(ascii "54321", .other "connection error")]⟩,
        ⟨[], some (.other "db error"), "", none⟩) [] (by decide)).1).trans (by decide)

end order

/-! ## Fairness of the scan and the context of the dispatcher -/

/-- C27: no shutdown signal ever arrives, the process starts at time 0 and the
poll interval is 2 seconds.  The context `run` hands to `DispatcherLoop` is the
one made with a timeout of 5 seconds, so it is done from 5 seconds on: the loop
takes two ticks, then the branch `ctx.Done()`, closes the job channel and
returns. -/
theorem dispatcher_stops_without_signal :
    (gophermart.runContext 0 none).doneFrom = some (5 * gophermart.Second) ∧
    gophermart.selects (gophermart.runContext 0 none) 0 (2 * gophermart.Second) 10 1 =
      [.tick, .tick, .done] ∧
    (order.DispatcherLoop orderService
        (gophermart.selects (gophermart.runContext 0 none) 0 (2 * gophermart.Second) 10 1)
        (⟨[], 3, false⟩, storage.tenOrders)).2 = true ∧
    (order.DispatcherLoop orderService
        (gophermart.selects (gophermart.runContext 0 none) 0 (2 * gophermart.Second) 10 1)
        (⟨[], 3, false⟩, storage.tenOrders)).1.1.closed = true := by
  decide

/-! ## The standard Luhn sum and single-digit errors -/

namespace luna

/-- The checksum of a scan as a sum over the positions of the scanned list. -/
theorem scanSum_eq_range (pick : Nat → Bool) (l : List Nat) :
    ∀ k : Nat, scanSum pick k l =
      ((List.range l.length).map (fun i =>
        if pick (k + i) then doubled (digitValue (l.getD i 48))
        else digitValue (l.getD i 48))).sum := by
  induction l with
  | nil => intro k; simp [scanSum]
  | cons c l ih =>
    intro k
    rw [scanSum, ih (k + 1), List.length_cons, List.range_succ_eq_map, List.map_cons,
      List.sum_cons, List.map_map]
    congr 1
    congr 1
    apply List.map_congr_left
    intro i _
    simp only [Function.comp, Nat.succ_eq_add_one, List.getD_cons_succ]
    have : k + 1 + i = k + (i + 1) := by omega
    rw [this]

/-- The checksum of the scan from the right is the standard Luhn sum. -/
theorem scanSum_reverse_eq_luhnSum (number : GoString) :
    scanSum fromSecond 0 number.reverse = luhnSum number := by
  rw [scanSum_eq_range, luhnSum, List.length_reverse]
  congr 1
  apply List.map_congr_left
  intro i hi
  have hlt : i < number.length := List.mem_range.mp hi
  have hget : number.reverse.getD i 48 = number.getD (number.length - 1 - i) 48 := by
    rw [List.getD_eq_getElem?_getD, List.getD_eq_getElem?_getD, List.getElem?_reverse hlt]
  rw [hget, Nat.zero_add]
  unfold luhnTerm fromSecond doubled digitValue
  rcases Nat.mod_two_eq_zero_or_one i with h | h <;> simp [h]

/-- C28: for every non-empty string of decimal digits, `Validate` returns true
exactly when the standard Luhn sum is divisible by 10, where the digit at
0-based offset i from the right end adds its own value when i is even, so the
rightmost digit is never doubled, and adds 2d, minus 9 when 2d > 9, when i is
odd. -/
theorem Validate_iff_luhnSum (number : GoString) (hne : number ≠ [])
    (h : ∀ ch ∈ number, isDigit ch = true) :
    (Validate number = true ↔ luhnSum number % 10 = 0) ∧
    luhnTerm 0 (number.getLast hne - 48) = number.getLast hne - 48 := by
  refine ⟨?_, by simp [luhnTerm]⟩
  rw [Validate_eq_scanSum number h, scanSum_reverse_eq_luhnSum]
  simp

/-- C28 at "79927398713", whose standard Luhn sum is 70, and at "12345", whose
sum is 21. -/
theorem Validate_iff_luhnSum_witness :
    luhnSum (ascii "79927398713") = 70 ∧ luhnSum (ascii "12345") = 21 ∧
    (Validate (ascii "79927398713") = true ↔ luhnSum (ascii "79927398713") % 10 = 0) ∧
    (Validate (ascii "12345") = true ↔ luhnSum (ascii "12345") % 10 = 0) :=
  ⟨by decide, by decide,
    (Validate_iff_luhnSum (ascii "79927398713") (by decide) (by decide)).1,
    (Validate_iff_luhnSum (ascii "12345") (by decide) (by decide)).1⟩

/-- The checksum of a scan over the concatenation of two lists. -/
theorem scanSum_append (pick : Nat → Bool) (a b : List Nat) :
    ∀ k : Nat, scanSum pick k (a ++ b) = scanSum pick k a + scanSum pick (k + a.length) b := by
  induction a with
  | nil => intro k; simp [scanSum]
  | cons c a ih =>
    intro k
    rw [List.cons_append, scanSum, scanSum, ih (k + 1), List.length_cons]
    have : k + 1 + a.length = k + (a.length + 1) := by omega
    rw [this]
    omega

/-- Two different digits add different amounts, both below 10, at any position. -/
theorem term_injective (b : Bool) (c d : Nat) (hc : isDigit c = true) (hd : isDigit d = true)
    (hne : c ≠ d) :
    (if b then doubled (digitValue c) else digitValue c) < 10 ∧
    (if b then doubled (digitValue d) else digitValue d) < 10 ∧
    (if b then doubled (digitValue c) else digitValue c) ≠
      (if b then doubled (digitValue d) else digitValue d) := by
  have hc2 : 48 ≤ c ∧ c ≤ 57 := by simpa [isDigit] using hc
  have hd2 : 48 ≤ d ∧ d ≤ 57 := by simpa [isDigit] using hd
  unfold doubled digitValue
  cases b
  · simp only [Bool.false_eq_true, if_false]
    omega
  · simp only [if_true]
    split_ifs <;> omega

/-- Replacing one digit of an accepted string of digits gives a rejected one. -/
theorem Validate_replace (pre suf : List Nat) (c d : Nat)
    (hpre : ∀ ch ∈ pre, isDigit ch = true) (hsuf : ∀ ch ∈ suf, isDigit ch = true)
    (hc : isDigit c = true) (hd : isDigit d = true) (hne : c ≠ d)
    (hv : Validate (pre ++ c :: suf) = true) :
    Validate (pre ++ d :: suf) = false := by
  have hall : ∀ x, isDigit x = true → ∀ ch ∈ pre ++ x :: suf, isDigit ch = true := by
    intro x hx ch hm
    rcases List.mem_append.mp hm with h | h
    · exact hpre ch h
    · rcases List.mem_cons.mp h with rfl | h
      · exact hx
      · exact hsuf ch h
  have hsum : ∀ x, scanSum fromSecond 0 (pre ++ x :: suf).reverse =
      scanSum fromSecond 0 suf.reverse +
        ((if fromSecond suf.length then doubled (digitValue x) else digitValue x) +
          scanSum fromSecond (suf.length + 1) pre.reverse) := by
    intro x
    rw [List.reverse_append, List.reverse_cons, List.append_assoc, scanSum_append,
      List.singleton_append, scanSum]
    simp
  rw [Validate_eq_scanSum _ (hall c hc), hsum c] at hv
  rw [Validate_eq_scanSum _ (hall d hd), hsum d]
  obtain ⟨h1, h2, h3⟩ := term_injective (fromSecond suf.length) c d hc hd hne
  simp only [decide_eq_true_eq] at hv
  simp only [decide_eq_false_iff_not]
  omega

/-- C29: for every string of decimal digits that `Validate` accepts, replacing
the digit at any one position by a different digit gives a string that
`Validate` rejects. -/
theorem Validate_detects_single_digit_error (number : GoString) (i d : Nat)
    (h : ∀ ch ∈ number, isDigit ch = true) (hi : i < number.length)
    (hd : isDigit d = true) (hne : d ≠ number.getD i 0)
    (hv : Validate number = true) :
    Validate (number.set i d) = false := by
  have hsplit : number = number.take i ++ number.getD i 0 :: number.drop (i + 1) := by
    rw [List.getD_eq_getElem number 0 hi, List.getElem_cons_drop, List.take_append_drop]
  have hc : isDigit (number.getD i 0) = true := by
    rw [List.getD_eq_getElem number 0 hi]
    exact h _ (List.getElem_mem _)
  rw [List.set_eq_take_cons_drop d hi]
  apply Validate_replace (number.take i) (number.drop (i + 1)) (number.getD i 0) d
    (fun ch hm => h ch (List.mem_of_mem_take hm))
    (fun ch hm => h ch (List.mem_of_mem_drop hm)) hc hd (Ne.symm hne)
  rw [← hsplit]
  exact hv

/-- C29 at "79927398713": with the digit at index 3 changed from 2 to 3 the
string "79937398713" is rejected. -/
theorem Validate_detects_single_digit_error_witness :
    Validate (ascii "79927398713") = true ∧
    (ascii "79927398713").set 3 51 = ascii "79937398713" ∧
    Validate ((ascii "79927398713").set 3 51) = false :=
  ⟨by decide, by decide,
    Validate_detects_single_digit_error (ascii "79927398713") 3 51 (by decide) (by decide)
      (by decide) (by decide) (by decide)⟩

end luna
